import Mathlib

/-!
# EST example client (`example/client/estclient.c`)

A shallow embedding of the control logic of the libest example client: the
retry wait (`retry_enroll_delay`), the enrollment attempts
(`simple_enroll_attempt`, `regular_enroll_attempt`, `regular_csr_attempt`),
certificate persistence (`save_cert`) and the driver `do_operation`.

Everything the client calls but does not define (libest, OpenSSL, libc) is an
oracle: a deterministic transition function on an abstract state `σ` that
answers each call with a `Reply`.  The program is a function from the oracle
state to a result, a new oracle state and the list of events it emitted, in
program order.
-/

namespace EstClient

/-! ## Constants -/

/-- Result codes of libest (`EST_ERROR` in `est.h`); only the codes the client
names are spelled out, every other code is `other n`. -/
inductive EST_ERROR
  | EST_ERR_NONE
  | EST_ERR_CA_ENROLL_RETRY
  | EST_ERR_PEM_READ
  | EST_ERR_MALLOC
  | EST_ERR_NO_CSR
  | EST_ERR_X509_PUBKEY
  | other (code : Nat)
  deriving DecidableEq, Repr

/-- OpenSSL `NID_undef`. -/
def NID_undef : Int := 0
/-- OpenSSL `NID_commonName`. -/
def NID_commonName : Int := 13
/-- OpenSSL `NID_pkcs9_emailAddress`. -/
def NID_pkcs9_emailAddress : Int := 48
/-- OpenSSL `NID_pkcs9_challengePassword`. -/
def NID_pkcs9_challengePassword : Int := 54

/-- The `MAX_FILENAME_LEN` of the client. -/
def MAX_FILENAME_LEN : Nat := 255

/-! ## Calls, replies, events -/

/-- Argument of a `printf` conversion. -/
inductive Arg
  | int (i : Int)
  | str (s : String)
  | err (rv : EST_ERROR)
  | errstr (rv : EST_ERROR)
  | ctime (t : Int)
  deriving DecidableEq, Repr

/-- Calls into libest, OpenSSL and libc that only `main` and its helpers
`print_version`, `show_usage_and_exit`, `generate_private_key` and
`read_private_key` make.  `BIO_new_mem` is `BIO_new(BIO_s_mem())`, `BIO_new_fp`
is `BIO_new_fp(stderr, BIO_NOCLOSE)`, `fprintf_stderr` is `fprintf(stderr, ...)`
with a text without conversions; the log level is given by name. -/
inductive MainCall
  | SSLeay_version
  | getenv (name : String)
  | read_binary_file (file_name : String)
  | PEM_read_bio_X509
  | PEM_read_bio_PrivateKey
  | est_apps_startup
  | est_init_logger (level : String)
  | est_enable_backtrace (enable : Int)
  | RSA_new
  | BN_new
  | BN_set_word (w : Int)
  | RSA_generate_key_ex
  | BIO_new_mem
  | PEM_write_bio_RSAPrivateKey
  | BIO_get_mem_data
  | RSA_free
  | BN_free
  | free
  | EVP_PKEY_free (key : Nat)
  | X509_free (cert : Nat)
  | est_apps_shutdown
  | FIPS_mode_set (onoff : Int)
  | ERR_load_crypto_strings
  | BIO_new_fp
  | ERR_print_errors
  | fprintf_stderr (text : String)
  deriving DecidableEq, Repr

/-- Calls the client makes into libest, OpenSSL and libc, with the arguments the
client chooses.  Pointers to OpenSSL objects are handles (`Nat`). -/
inductive Call
  | printf (fmt : String) (args : List Arg)
  | sleep (seconds : Nat)
  | time
  | malloc (size : Int)
  | write_binary_file (file_name : String) (data : List Nat) (len : Int)
  | dumpbin (data : List Nat) (len : Int)
  | exit (status : Int)
  | est_client_init
  | est_client_set_read_timeout (timeout : Int)
  | est_client_set_auth (uid pwd : String)
  | est_client_enable_srp (strength : Int) (uid pwd : String)
  | est_client_set_server (server : String) (port : Int)
  | est_client_get_cacerts
  | est_client_copy_cacerts
  | est_client_force_pop
  | BIO_new
  | BIO_read_filename (file_name : String)
  | PEM_read_bio_X509_REQ
  | ERR_print_errors_fp
  | BIO_free
  | X509_REQ_new
  | X509_REQ_set_version (req : Nat) (version : Int)
  | X509_NAME_add_entry_by_txt (req : Nat) (field : String) (value : String)
  | X509_REQ_set_pubkey (req : Nat)
  | X509_REQ_free (req : Nat)
  | X509_REQ_print_fp (req : Nat)
  | est_client_enroll_csr (csr : Nat) (with_priv_key : Bool)
  | est_client_enroll (cn : String)
  | est_client_copy_enrolled_cert
  | est_convert_p7b64_to_pem (data : List Nat) (len : Int)
  | est_client_get_csrattrs
  | est_decode_attributes_helper (data : List Nat) (len : Int)
  | est_get_attributes_helper (der_ptr : Nat) (der_len : Int)
  | est_add_attributes_helper (req : Nat) (nid : Int) (value : String) (chtype : Int)
  | est_client_copy_retry_after
  | est_client_reenroll
  | est_destroy
  | ERR_clear_error
  | ERR_remove_thread_state
  | main (c : MainCall)
  deriving DecidableEq, Repr

/-- What a call hands back.  A call site reads only the fields its C
counterpart returns or writes through an out-parameter:
`rv` the `EST_ERROR` result, `ret` a plain integer result (also the clock for
`time`), `ptr` a returned pointer (`none` is `NULL`), `len` a length
out-parameter (`pkcs7_len`, `attr_len`, `der_len`), `data` the bytes of an
output buffer, `der_ptr` the advanced cursor, `nid`, `retry_delay` and
`retry_time` the remaining out-parameters. -/
structure Reply where
  rv : EST_ERROR
  ret : Int
  ptr : Option Nat
  len : Int
  data : List Nat
  der_ptr : Nat
  nid : Int
  retry_delay : Int
  retry_time : Int
  deriving DecidableEq, Repr

/-- A reply with every field zero. -/
def Reply.zero : Reply :=
  { rv := EST_ERROR.EST_ERR_NONE, ret := 0, ptr := none, len := 0, data := [],
    der_ptr := 0, nid := 0, retry_delay := 0, retry_time := 0 }

/-- One step of a run: a call with its reply, or entry to and return from one
of the three attempt functions of the client. -/
inductive Event
  | call (c : Call) (r : Reply)
  | enter (fn : String)
  | leave (fn : String) (rv : EST_ERROR)
  deriving DecidableEq, Repr

/-- The environment: how the world answers a call in a given state. -/
abbrev Lib (σ : Type) := Call → σ → Reply × σ

/-- How a piece of the program ends: it returns a value, the process exits,
or the model ran out of loop fuel. -/
inductive Res (α : Type)
  | ok (a : α)
  | exited (status : Int)
  | timeout
  deriving DecidableEq, Repr

/-- A piece of the program: from the oracle state to its result, the new oracle
state and the events emitted. -/
def Prog (σ α : Type) := σ → Res α × σ × List Event

/-- Return without any effect. -/
def Prog.ret {σ α : Type} (a : α) : Prog σ α := fun s => (Res.ok a, s, [])

/-- Sequencing: the second part runs only when the first one returned. -/
def Prog.seq {σ α β : Type} (m : Prog σ α) (f : α → Prog σ β) : Prog σ β := fun s =>
  match m s with
  | (Res.ok a, s1, t1) =>
    match f a s1 with
    | (r, s2, t2) => (r, s2, t1 ++ t2)
  | (Res.exited c, s1, t1) => (Res.exited c, s1, t1)
  | (Res.timeout, s1, t1) => (Res.timeout, s1, t1)

instance {σ : Type} : Monad (Prog σ) where
  pure := Prog.ret
  bind := Prog.seq

/-- Perform a call: ask the oracle and record the call with its reply. -/
def call {σ : Type} (L : Lib σ) (c : Call) : Prog σ Reply := fun s =>
  match L c s with
  | (r, s1) => (Res.ok r, s1, [Event.call c r])

/-- Record an event of the program itself. -/
def emit {σ : Type} (e : Event) : Prog σ Unit := fun s => (Res.ok (), s, [e])

/-- The C `exit`: the call is recorded and nothing runs after it. -/
def exit {σ α : Type} (L : Lib σ) (status : Int) : Prog σ α := fun s =>
  match L (Call.exit status) s with
  | (r, s1) => (Res.exited status, s1, [Event.call (Call.exit status) r])

/-- The model gives up: a loop used all its fuel. -/
def outOfFuel {σ α : Type} : Prog σ α := fun s => (Res.timeout, s, [])

/-- Statement guarded by a C `if` without `else`. -/
def whenC {σ : Type} (b : Bool) (m : Prog σ Unit) : Prog σ Unit :=
  if b then m else Prog.ret ()

/-- The events a piece of program emits from state `s`. -/
def Prog.events {σ α : Type} (m : Prog σ α) (s : σ) : List Event := (m s).2.2

/-- The result of a piece of program run from state `s`. -/
def Prog.result {σ α : Type} (m : Prog σ α) (s : σ) : Res α := (m s).1

/-! ## Command line options (the file-scope variables of the client) -/

/-- The option variables of `estclient.c` that the modelled functions read.
Flags are C `int`s. -/
structure Globals where
  est_http_uid : String
  est_http_pwd : String
  est_srp_uid : String
  est_srp_pwd : String
  subj_cn : String
  est_server : String
  est_port : Int
  verbose : Int
  srp : Int
  pem_out : Int
  csr_file : String
  out_dir : String
  read_timeout : Int
  enroll : Int
  getcsr : Int
  getcert : Int
  reenroll : Int
  force_pop : Int
  deriving DecidableEq, Repr

/-- C truth value of an `int`. -/
def truthy (i : Int) : Bool := decide (i ≠ 0)

/-- C truth value of `s[0]` for a NUL-terminated string. -/
def nonEmpty (s : String) : Bool := decide (s ≠ "")

/-- What `snprintf(buf, n, ...)` leaves in `buf` when the formatted text is
`s`: at most `n - 1` characters. -/
def snprintf (n : Nat) (s : String) : String := String.mk (s.data.take (n - 1))

/-! ## `retry_enroll_delay` -/

/-- The arm of `retry_enroll_delay` that was taken.  The C function returns
`void`; the value names the arm: `WaitThen` for the two arms that call `sleep`,
`Abort` for the two arms that end in an explicit `return;` without sleeping,
`ProceedImmediately` for the arm that only falls through. -/
inductive Decision
  | ProceedImmediately
  | WaitThen (seconds : Nat)
  | Abort
  deriving DecidableEq, Repr

/-- Conversion of an `int` to the `unsigned int` parameter of `sleep`. -/
def toUnsigned (i : Int) : Nat := (i % 4294967296).toNat

/-- The function `retry_enroll_delay (int retry_delay, time_t retry_time)`.
`time_t` counts seconds and `difftime` of two `time_t` values is their
difference; the `double` it returns is compared with 0 and 120 only, which
rounding cannot change, and is passed to `sleep` only when it lies between 1
and 120, where it is exact. -/
def retry_enroll_delay {σ : Type} (L : Lib σ) (g : Globals)
    (retry_delay : Int) (retry_time : Int) : Prog σ Decision :=
  if retry_delay ≠ 0 then do
    whenC (truthy g.verbose)
      (do let _ ← call L (Call.printf "\nwaiting for retry period specified by server\n" []))
    whenC (truthy g.verbose)
      (do let _ ← call L (Call.printf
            "\nduration can be set on estserver with -m <retry-period> (min is 60 seconds)\n" []))
    let _ ← call L (Call.sleep (toUnsigned retry_delay))
    pure (Decision.WaitThen (toUnsigned retry_delay))
  else
    if retry_time ≠ 0 then do
      let now ← call L Call.time
      let current_time : Int := now.ret
      let secs_to_wait : Int := retry_time - current_time
      if secs_to_wait ≤ 0 then do
        whenC (truthy g.verbose)
          (do let _ ← call L (Call.printf
                "\nSpecified delay time is in the past. Proceed on to retry \n" []))
        pure Decision.ProceedImmediately
      else if secs_to_wait ≤ 60 * 2 then do
        whenC (truthy g.verbose)
          (do let _ ← call L (Call.printf
                "\nSpecified delay time is 2 minutes or less. Wait the specified time before retry \n" []))
        let _ ← call L (Call.sleep secs_to_wait.toNat)
        pure (Decision.WaitThen secs_to_wait.toNat)
      else do
        whenC (truthy g.verbose)
          (do let _ ← call L (Call.printf
                "\nSpecified delay time is more than 2 minutes in the future.  printing out the delay time and terminating\n" []))
        let _ ← call L (Call.printf " Delay time received from the server is: %s \n"
                  [Arg.ctime retry_time])
        pure Decision.Abort
    else do
      whenC (truthy g.verbose)
        (do let _ ← call L (Call.printf "\nERROR: both retry after values returned are zero\n" []))
      pure Decision.Abort

/-! ## Certificate persistence and CSR helpers

`free` is not modelled; `malloc` is, because the client tests its result. -/

/-- The function `save_cert (char *file_name, unsigned char *cert_data, int cert_len)`. -/
def save_cert {σ : Type} (L : Lib σ) (g : Globals)
    (file_name : String) (cert_data : List Nat) (cert_len : Int) : Prog σ Unit :=
  if truthy g.pem_out then do
    let r ← call L (Call.est_convert_p7b64_to_pem cert_data cert_len)
    let pem_len : Int := r.ret
    if pem_len > 0 then do
      let full_file_name := snprintf MAX_FILENAME_LEN (file_name ++ "." ++ "pem")
      let _ ← call L (Call.write_binary_file full_file_name r.data pem_len)
      pure ()
    else pure ()
  else do
    let full_file_name := snprintf MAX_FILENAME_LEN (file_name ++ "." ++ "pkcs7")
    let _ ← call L (Call.write_binary_file full_file_name cert_data cert_len)
    pure ()

/-- The function `read_csr (char *csr_file)`; `none` is `NULL`. -/
def read_csr {σ : Type} (L : Lib σ) (csr_file : String) : Prog σ (Option Nat) := do
  let _ ← call L Call.BIO_new
  let r ← call L (Call.BIO_read_filename csr_file)
  if r.ret ≤ 0 then do
    let _ ← call L (Call.printf "\nUnable to read CSR file %s\n" [Arg.str csr_file])
    pure none
  else do
    let c ← call L Call.PEM_read_bio_X509_REQ
    match c.ptr with
    | none => do
      let _ ← call L (Call.printf "\nError while reading PEM encoded CSR file %s\n"
                [Arg.str csr_file])
      let _ ← call L Call.ERR_print_errors_fp
      pure none
    | some csr => do
      let _ ← call L Call.BIO_free
      pure (some csr)

/-- The part of an enrollment attempt after a successful submission, common to
`simple_enroll_attempt` and `regular_enroll_attempt` (the two C functions
repeat it verbatim): fetch the certificate from the library and save it. -/
def retrieve_and_save {σ : Type} (L : Lib σ) (g : Globals) (pkcs7_len : Int) :
    Prog σ EST_ERROR := do
  let m ← call L (Call.malloc pkcs7_len)
  match m.ptr with
  | none => do
    whenC (truthy g.verbose)
      (do let _ ← call L (Call.printf
            "\nmalloc of destination buffer for enrollment cert failed\n" []))
    pure EST_ERROR.EST_ERR_MALLOC
  | some _ => do
    let c ← call L Call.est_client_copy_enrolled_cert
    let rv := c.rv
    let new_client_cert := c.data
    whenC (truthy g.verbose)
      (do let _ ← call L (Call.printf "\nenrollment copy rv = %d\n" [Arg.err rv]))
    whenC (decide (rv = EST_ERROR.EST_ERR_NONE))
      (whenC (truthy g.verbose)
        (do let _ ← call L (Call.dumpbin new_client_cert pkcs7_len)))
    let file_name := snprintf MAX_FILENAME_LEN (g.out_dir ++ "/newcert")
    save_cert L g file_name new_client_cert pkcs7_len
    pure rv

/-- Body of `simple_enroll_attempt (EST_CTX *ectx)`. -/
def simple_enroll_attempt_body {σ : Type} (L : Lib σ) (g : Globals) : Prog σ EST_ERROR := do
  whenC (truthy g.force_pop) (do
    let r ← call L Call.est_client_force_pop
    whenC (decide (r.rv ≠ EST_ERROR.EST_ERR_NONE))
      (do let _ ← call L (Call.printf "\nFailed to enable force PoP" [])))
  let (rv, pkcs7_len) ←
    (if nonEmpty g.csr_file then do
      let csr ← read_csr L g.csr_file
      match csr with
      | none => pure (EST_ERROR.EST_ERR_PEM_READ, (0 : Int))
      | some c => do
        let r ← call L (Call.est_client_enroll_csr c false)
        let _ ← call L (Call.X509_REQ_free c)
        pure (r.rv, r.len)
    else do
      let r ← call L (Call.est_client_enroll g.subj_cn)
      pure (r.rv, r.len) : Prog σ (EST_ERROR × Int))
  whenC (truthy g.verbose)
    (do let _ ← call L (Call.printf "\nenrollment rv = %d (%s) with pkcs7 length = %d\n"
          [Arg.err rv, Arg.errstr rv, Arg.int pkcs7_len]))
  if rv = EST_ERROR.EST_ERR_NONE then retrieve_and_save L g pkcs7_len
  else pure rv

/-- The function `simple_enroll_attempt`, with its entry and return recorded. -/
def simple_enroll_attempt {σ : Type} (L : Lib σ) (g : Globals) : Prog σ EST_ERROR := do
  emit (Event.enter "simple_enroll_attempt")
  let rv ← simple_enroll_attempt_body L g
  emit (Event.leave "simple_enroll_attempt" rv)
  pure rv

/-- The function `populate_x509_csr (X509_REQ *req, EVP_PKEY *pkey, char *cn)`;
the result is the C `int` (0 or -1). -/
def populate_x509_csr {σ : Type} (L : Lib σ) (req : Nat) (cn : String) : Prog σ Int := do
  let v ← call L (Call.X509_REQ_set_version req 0)
  if v.ret = 0 then do
    let _ ← call L (Call.printf "\nUnable to set X509 version#\n" [])
    pure (-1)
  else do
    let n ← call L (Call.X509_NAME_add_entry_by_txt req "CN" cn)
    if n.ret = 0 then do
      let _ ← call L (Call.printf "\nUnable to create X509 Common Name entry\n" [])
      pure (-1)
    else do
      let k ← call L (Call.X509_REQ_set_pubkey req)
      if k.ret = 0 then do
        let _ ← call L (Call.printf "\nUnable to set X509 public key\n" [])
        pure (-1)
      else pure 0

/-- The function `regular_csr_attempt (EST_CTX *ectx)`, with entry and return
recorded. -/
def regular_csr_attempt {σ : Type} (L : Lib σ) (g : Globals) : Prog σ EST_ERROR := do
  emit (Event.enter "regular_csr_attempt")
  let r ← call L Call.est_client_get_csrattrs
  (if r.rv ≠ EST_ERROR.EST_ERR_NONE then do
    let _ ← call L (Call.printf "\nWarning: CSR attributes were not available" [])
  else do
    let file_name := snprintf MAX_FILENAME_LEN (g.out_dir ++ "/csr.base64")
    let _ ← call L (Call.write_binary_file file_name r.data r.len))
  emit (Event.leave "regular_csr_attempt" r.rv)
  pure r.rv

/-- The `switch (nid)` of `regular_enroll_attempt` with the test that follows
it; the result is the new value of `rv`. -/
def add_attribute {σ : Type} (L : Lib σ) (csr : Nat) (nid : Int) : Prog σ EST_ERROR := do
  let rv ←
    (if nid = NID_commonName then do
      let r ← call L (Call.est_add_attributes_helper csr nid "test\n" 0)
      pure r.rv
    else if nid = NID_pkcs9_emailAddress then do
      let r ← call L (Call.est_add_attributes_helper csr nid "bubba@notmyemail.com" 0)
      pure r.rv
    else if nid = NID_undef then do
      let _ ← call L (Call.printf "\nNID is undefined; skipping it\n" [])
      pure EST_ERROR.EST_ERR_NONE
    else do
      let r ← call L (Call.est_add_attributes_helper csr nid "" 0)
      pure r.rv : Prog σ EST_ERROR)
  whenC (decide (rv ≠ EST_ERROR.EST_ERR_NONE))
    (do let _ ← call L (Call.printf "\n Error adding NID=%d" [Arg.int nid]))
  pure rv

/-- The loop `while (der_len) ...` of `regular_enroll_attempt`; `fuel` bounds
the number of iterations the model follows.  The result is the last `rv`. -/
def attribute_loop {σ : Type} (L : Lib σ) (csr : Nat) :
    Nat → Nat → Int → EST_ERROR → Prog σ EST_ERROR
  | 0, _, der_len, rv =>
    if der_len ≠ 0 then outOfFuel else pure rv
  | fuel + 1, der_ptr, der_len, rv =>
    if der_len ≠ 0 then do
      let r ← call L (Call.est_get_attributes_helper der_ptr der_len)
      if r.rv = EST_ERROR.EST_ERR_NONE then do
        let rv1 ← add_attribute L csr r.nid
        attribute_loop L csr fuel r.der_ptr r.len rv1
      else
        attribute_loop L csr fuel r.der_ptr r.len r.rv
    else pure rv

/-- Body of `regular_enroll_attempt (EST_CTX *ectx)`. -/
def regular_enroll_attempt_body {σ : Type} (L : Lib σ) (g : Globals) (fuel : Nat) :
    Prog σ EST_ERROR := do
  let a ← call L Call.est_client_get_csrattrs
  if a.rv ≠ EST_ERROR.EST_ERR_NONE then do
    let _ ← call L (Call.printf "\nWarning: CSR attributes were not available" [])
    pure a.rv
  else do
    let q ← call L Call.X509_REQ_new
    match q.ptr with
    | none => do
      let _ ← call L (Call.printf "\nFailed to get X509_REQ" [])
      pure EST_ERROR.EST_ERR_NO_CSR
    | some csr => do
      let p ← populate_x509_csr L csr "EST-client"
      if p ≠ 0 then do
        let _ ← call L (Call.printf "\nFailed to populate X509_REQ" [])
        pure EST_ERROR.EST_ERR_X509_PUBKEY
      else do
        let d ← call L (Call.est_decode_attributes_helper a.data a.len)
        if d.rv ≠ EST_ERROR.EST_ERR_NONE then do
          let _ ← call L (Call.printf "\nFailed to decode attributes" [])
          pure d.rv
        else do
          let _ ← attribute_loop L csr fuel d.der_ptr d.len d.rv
          let _ ← call L (Call.X509_REQ_print_fp csr)
          let e ← call L (Call.est_client_enroll_csr csr true)
          let rv := e.rv
          let pkcs7_len := e.len
          whenC (truthy g.verbose)
            (do let _ ← call L (Call.printf
                  "\nenrollment rv = %d (%s) with pkcs7 length = %d\n"
                  [Arg.err rv, Arg.errstr rv, Arg.int pkcs7_len]))
          if rv = EST_ERROR.EST_ERR_NONE then retrieve_and_save L g pkcs7_len
          else pure rv

/-- The function `regular_enroll_attempt`, with its entry and return recorded. -/
def regular_enroll_attempt {σ : Type} (L : Lib σ) (g : Globals) (fuel : Nat) :
    Prog σ EST_ERROR := do
  emit (Event.enter "regular_enroll_attempt")
  let rv ← regular_enroll_attempt_body L g fuel
  emit (Event.leave "regular_enroll_attempt" rv)
  pure rv

/-! ## `do_operation` -/

/-- The retry step that follows a first attempt answering
`EST_ERR_CA_ENROLL_RETRY` (both enroll branches of `do_operation` repeat it
verbatim): copy the Retry-After values and, when that worked, run
`retry_enroll_delay`, whose outcome is not looked at. -/
def retry_after_step {σ : Type} (L : Lib σ) (g : Globals) : Prog σ Unit := do
  let r ← call L Call.est_client_copy_retry_after
  let rv := r.rv
  let retry_delay := r.retry_delay
  let retry_time := r.retry_time
  whenC (truthy g.verbose)
    (do let _ ← call L (Call.printf
          "\nretry after period copy rv = %d Retry-After delay seconds = %d Retry-After delay time = %s\n"
          [Arg.err rv, Arg.int retry_delay, Arg.ctime retry_time]))
  whenC (decide (rv = EST_ERROR.EST_ERR_NONE))
    (do let _ ← retry_enroll_delay L g retry_delay retry_time)

/-- The set-up part of `do_operation`: create and configure the EST context.
The result is the value of `rv` when the part is left. -/
def do_operation_init {σ : Type} (L : Lib σ) (g : Globals) : Prog σ EST_ERROR := do
  let c ← call L Call.est_client_init
  match c.ptr with
  | none => do
    let _ ← call L (Call.printf "\nUnable to initialize EST context.  Aborting!!!\n" [])
    exit L 1
  | some _ => do
    let t ← call L (Call.est_client_set_read_timeout g.read_timeout)
    if t.rv ≠ EST_ERROR.EST_ERR_NONE then do
      let _ ← call L (Call.printf
                "\nUnable to configure read timeout from server.  Aborting!!!\n" [])
      let _ ← call L (Call.printf "EST error code %d (%s)\n" [Arg.err t.rv, Arg.errstr t.rv])
      exit L 1
    else do
      let a ← call L (Call.est_client_set_auth g.est_http_uid g.est_http_pwd)
      if a.rv ≠ EST_ERROR.EST_ERR_NONE then do
        let _ ← call L (Call.printf
                  "\nUnable to configure client authentication.  Aborting!!!\n" [])
        let _ ← call L (Call.printf "EST error code %d (%s)\n"
                  [Arg.err a.rv, Arg.errstr a.rv])
        exit L 1
      else do
        let rv ←
          (if truthy g.srp then do
            let e ← call L (Call.est_client_enable_srp 1024 g.est_srp_uid g.est_srp_pwd)
            if e.rv ≠ EST_ERROR.EST_ERR_NONE then do
              let _ ← call L (Call.printf "\nUnable to enable SRP.  Aborting!!!\n" [])
              exit L 1
            else pure e.rv
          else pure a.rv : Prog σ EST_ERROR)
        let _ ← call L (Call.est_client_set_server g.est_server g.est_port)
        pure rv

/-- The `if (getcert)` part of `do_operation`; `st` is the pair of the local
variables `operation` and `rv`. -/
def do_operation_getcert {σ : Type} (L : Lib σ) (g : Globals) (st : String × EST_ERROR) :
    Prog σ (String × EST_ERROR) :=
  if truthy g.getcert then do
    let r ← call L Call.est_client_get_cacerts
    if r.rv = EST_ERROR.EST_ERR_NONE then do
      whenC (truthy g.verbose)
        (do let _ ← call L (Call.printf "\nGet CA Cert success\n" []))
      let pkcs7_len := r.len
      let _ ← call L (Call.malloc pkcs7_len)
      let c ← call L Call.est_client_copy_cacerts
      whenC (truthy g.verbose)
        (do let _ ← call L (Call.dumpbin c.data pkcs7_len))
      let file_name := snprintf MAX_FILENAME_LEN (g.out_dir ++ "/cacert.pkcs7")
      let _ ← call L (Call.write_binary_file file_name c.data pkcs7_len)
      pure ("Get CA Cert", c.rv)
    else pure ("Get CA Cert", r.rv)
  else pure st

/-- The `if (enroll && getcsr) ... else if ...` part of `do_operation`. -/
def do_operation_enroll {σ : Type} (L : Lib σ) (g : Globals) (fuel : Nat)
    (st : String × EST_ERROR) : Prog σ (String × EST_ERROR) :=
  if truthy g.enroll && truthy g.getcsr then do
    let rv ← regular_enroll_attempt L g fuel
    if rv = EST_ERROR.EST_ERR_CA_ENROLL_RETRY then do
      retry_after_step L g
      let rv2 ← regular_enroll_attempt L g fuel
      pure ("Regular enrollment with server-defined attributes", rv2)
    else pure ("Regular enrollment with server-defined attributes", rv)
  else if truthy g.enroll && !(truthy g.getcsr) then do
    let rv ← simple_enroll_attempt L g
    if rv = EST_ERROR.EST_ERR_CA_ENROLL_RETRY then do
      retry_after_step L g
      let rv2 ← simple_enroll_attempt L g
      pure ("Simple enrollment without server-defined attributes", rv2)
    else pure ("Simple enrollment without server-defined attributes", rv)
  else if !(truthy g.enroll) && truthy g.getcsr then do
    let rv ← regular_csr_attempt L g
    pure ("Get CSR attribues", rv)
  else pure st

/-- The `if (reenroll)` part of `do_operation`. -/
def do_operation_reenroll {σ : Type} (L : Lib σ) (g : Globals) (st : String × EST_ERROR) :
    Prog σ (String × EST_ERROR) :=
  if truthy g.reenroll then do
    let r ← call L Call.est_client_reenroll
    let pkcs7_len := r.len
    whenC (truthy g.verbose)
      (do let _ ← call L (Call.printf "\nreenroll rv = %d (%s) with pkcs7 length = %d\n"
            [Arg.err r.rv, Arg.errstr r.rv, Arg.int pkcs7_len]))
    if r.rv = EST_ERROR.EST_ERR_NONE then do
      let m ← call L (Call.malloc pkcs7_len)
      whenC (decide (m.ptr = none))
        (whenC (truthy g.verbose)
          (do let _ ← call L (Call.printf
                "\nmalloc of destination buffer for reenroll cert failed\n" [])))
      let c ← call L Call.est_client_copy_enrolled_cert
      whenC (truthy g.verbose)
        (do let _ ← call L (Call.printf "\nreenroll copy rv = %d\n" [Arg.err c.rv]))
      whenC (decide (c.rv = EST_ERROR.EST_ERR_NONE))
        (whenC (truthy g.verbose)
          (do let _ ← call L (Call.dumpbin c.data pkcs7_len)))
      let file_name := snprintf MAX_FILENAME_LEN (g.out_dir ++ "/newcert")
      save_cert L g file_name c.data pkcs7_len
      pure ("Re-enrollment", c.rv)
    else pure ("Re-enrollment", r.rv)
  else pure st

/-- The failure report `printf("\n%s failed with code %d (%s)\n", ...)` at the
end of `do_operation`. -/
def failure_report (operation : String) (rv : EST_ERROR) : Call :=
  Call.printf "\n%s failed with code %d (%s)\n"
    [Arg.str operation, Arg.err rv, Arg.errstr rv]

/-- The end of `do_operation`: report a failure and release the context; `st`
is the pair of the local variables `operation` and `rv`.  The result is the
final value of `rv`. -/
def do_operation_finish {σ : Type} (L : Lib σ) (st : String × EST_ERROR) :
    Prog σ EST_ERROR := do
  let operation := st.1
  let rv := st.2
  whenC (decide (rv ≠ EST_ERROR.EST_ERR_NONE))
    (do let _ ← call L (failure_report operation rv))
  let _ ← call L Call.est_destroy
  let _ ← call L Call.ERR_clear_error
  let _ ← call L Call.ERR_remove_thread_state
  pure rv

/-- The function `do_operation ()`.  The local `operation` is not initialised
in C; it is read only after one of the parts has set it.  The result is the
final value of `rv`. -/
def do_operation {σ : Type} (L : Lib σ) (g : Globals) (fuel : Nat) : Prog σ EST_ERROR := do
  let rv0 ← do_operation_init L g
  let st1 ← do_operation_getcert L g ("", rv0)
  let st2 ← do_operation_enroll L g fuel st1
  let st3 ← do_operation_reenroll L g st2
  do_operation_finish L st3

/-! ## Reading a run -/

/-- The arguments of the `sleep` calls in a list of events, in order. -/
def sleeps : List Event → List Nat
  | [] => []
  | Event.call (Call.sleep n) _ :: t => n :: sleeps t
  | _ :: t => sleeps t

/-- Whether an event is a reading of the clock. -/
def isTime : Event → Bool
  | Event.call Call.time _ => true
  | _ => false

/-- Whether an event is the entry to an enrollment attempt. -/
def isAttempt : Event → Bool
  | Event.enter fn => fn = "simple_enroll_attempt" || fn = "regular_enroll_attempt"
  | _ => false

/-- The results of the enrollment attempts that returned, in order. -/
def attemptResults : List Event → List EST_ERROR
  | [] => []
  | Event.leave fn rv :: t =>
    if fn = "simple_enroll_attempt" || fn = "regular_enroll_attempt"
    then rv :: attemptResults t else attemptResults t
  | _ :: t => attemptResults t

/-- Whether an event is a submission of a CSR to the server by an enrollment
attempt. -/
def isSubmission : Event → Bool
  | Event.call (Call.est_client_enroll_csr _ _) _ => true
  | Event.call (Call.est_client_enroll _) _ => true
  | _ => false

/-- The attribute an event hands to `est_add_attributes_helper`, as a pair of
NID and value, if the event is such a call. -/
def addedAttribute : Event → Option (Int × String)
  | Event.call (Call.est_add_attributes_helper _ nid value _) _ => some (nid, value)
  | _ => none

/-- The attributes handed to `est_add_attributes_helper`, in order. -/
def addedAttributes (t : List Event) : List (Int × String) := t.filterMap addedAttribute

/-- The NID an event extracts, if the event is a successful call of
`est_get_attributes_helper`. -/
def extractedNid : Event → Option Int
  | Event.call (Call.est_get_attributes_helper _ _) r =>
    if r.rv = EST_ERROR.EST_ERR_NONE then some r.nid else none
  | _ => none

/-- The NIDs successfully extracted by `est_get_attributes_helper`, in order. -/
def extractedNids (t : List Event) : List Int := t.filterMap extractedNid

/-- Whether an event is a call of `est_add_attributes_helper` or of
`est_get_attributes_helper`. -/
def isAttributeCall : Event → Bool
  | Event.call (Call.est_add_attributes_helper _ _ _ _) _ => true
  | Event.call (Call.est_get_attributes_helper _ _) _ => true
  | _ => false

/-- Whether an event is a call of `sleep`. -/
def isSleep : Event → Bool
  | Event.call (Call.sleep _) _ => true
  | _ => false

/-- Whether an event is the return from an enrollment attempt. -/
def isAttemptLeave : Event → Bool
  | Event.leave fn _ => fn = "simple_enroll_attempt" || fn = "regular_enroll_attempt"
  | _ => false

/-- Events that are neither a `sleep`, nor a submission, nor the entry to or
return from an enrollment attempt, nor a call of one of the two attribute
helpers of the loop in `regular_enroll_attempt`. -/
def plain (e : Event) : Bool :=
  !isSleep e && !isSubmission e && !isAttempt e && !isAttemptLeave e && !isAttributeCall e

/-- The attribute the client supplies for a NID named in the directive, in the
words of the specification: a fixed placeholder for `commonName` and for
`emailAddress`, nothing for an undefined NID, an empty value for any other. -/
def attribute_policy (nid : Int) : Option (Int × String) :=
  if nid = NID_commonName then some (nid, "test\n")
  else if nid = NID_pkcs9_emailAddress then some (nid, "bubba@notmyemail.com")
  else if nid = NID_undef then none
  else some (nid, "")

/-- The program `m` emits at most `k` events satisfying `p`, from every state. -/
def Bounded {σ α : Type} (p : Event → Bool) (k : Nat) (m : Prog σ α) : Prop :=
  ∀ s, List.countP p (m s).2.2 ≤ k

/-- The attributes a program hands to `est_add_attributes_helper` are the
policy applied, in order, to the NIDs it extracted. -/
def Balanced {σ α : Type} (m : Prog σ α) : Prop :=
  ∀ s, addedAttributes (m s).2.2 = (extractedNids (m s).2.2).filterMap attribute_policy

/-! ## A scripted environment, for concrete runs -/

/-- An environment that answers from a script: `printf` gets the zero reply,
every other call takes the next reply of the script (the zero reply once the
script is used up). -/
def scripted : Lib (List Reply)
  | Call.printf _ _, s => (Reply.zero, s)
  | _, [] => (Reply.zero, [])
  | _, r :: s => (r, s)

/-- Options of a quiet run `estclient -e -o out` (simple enrollment). -/
def quietEnroll : Globals :=
  { est_http_uid := "", est_http_pwd := "", est_srp_uid := "", est_srp_pwd := "",
    subj_cn := "127.0.0.1", est_server := "", est_port := 0, verbose := 0, srp := 0,
    pem_out := 0, csr_file := "", out_dir := "out", read_timeout := 10,
    enroll := 1, getcsr := 0, getcert := 0, reenroll := 0, force_pop := 0 }

/-- Replies for a quiet simple enrollment in which the server answers both
submissions with a retry request and names a delay of 3 seconds: context
creation, three configuration calls, the first submission, the Retry-After
values, the sleep, the second submission. -/
def retryTwice : List Reply :=
  [{ Reply.zero with ptr := some 1 }, Reply.zero, Reply.zero, Reply.zero,
   { Reply.zero with rv := EST_ERROR.EST_ERR_CA_ENROLL_RETRY },
   { Reply.zero with retry_delay := 3 },
   Reply.zero,
   { Reply.zero with rv := EST_ERROR.EST_ERR_CA_ENROLL_RETRY }]

/-- Replies for a quiet simple enrollment in which the first submission is
answered with a retry request whose Retry-After values are both zero, and the
second submission is answered with a two-byte certificate. -/
def retryBothZeroThenIssued : List Reply :=
  [{ Reply.zero with ptr := some 1 }, Reply.zero, Reply.zero, Reply.zero,
   { Reply.zero with rv := EST_ERROR.EST_ERR_CA_ENROLL_RETRY },
   Reply.zero,
   { Reply.zero with len := 2 },
   { Reply.zero with ptr := some 9 },
   { Reply.zero with data := [1, 2] },
   Reply.zero]

/-- Replies for a quiet simple enrollment in which the first submission is
answered with a retry request for second 1500 while the clock reads 1000, and
the second submission is answered with a two-byte certificate. -/
def retryFarThenIssued : List Reply :=
  [{ Reply.zero with ptr := some 1 }, Reply.zero, Reply.zero, Reply.zero,
   { Reply.zero with rv := EST_ERROR.EST_ERR_CA_ENROLL_RETRY },
   { Reply.zero with retry_time := 1500 },
   { Reply.zero with ret := 1000 },
   { Reply.zero with len := 2 },
   { Reply.zero with ptr := some 9 },
   { Reply.zero with data := [1, 2] },
   Reply.zero]

/-- Options of a quiet run `estclient -e -a -o out` (enrollment with
server-defined attributes). -/
def quietRegular : Globals := { quietEnroll with getcsr := 1 }

/-- Replies for one `regular_enroll_attempt` up to the attribute loop: the
attributes arrive, the CSR is created and populated, and the directive decodes
to 11 bytes. -/
def directiveDecoded : List Reply :=
  [Reply.zero,
   { Reply.zero with ptr := some 5 },
   { Reply.zero with ret := 1 }, { Reply.zero with ret := 1 }, { Reply.zero with ret := 1 },
   { Reply.zero with len := 11 }]

/-- Replies for the end of an attempt whose submission is answered with a
two-byte certificate: `X509_REQ_print_fp`, the submission, `malloc`, the copy
and the file write. -/
def issued : List Reply :=
  [Reply.zero, { Reply.zero with len := 2 }, { Reply.zero with ptr := some 9 },
   { Reply.zero with data := [1, 2] }, Reply.zero]

/-- A directive that names `challengePassword` only: the one extraction call
yields NID 54 and leaves no bytes, and adding the attribute works. -/
def challengeDirective : List Reply :=
  directiveDecoded
    ++ [{ Reply.zero with nid := NID_pkcs9_challengePassword, der_ptr := 11 }, Reply.zero]
    ++ issued

/-- A directive whose one extraction call reports an error and leaves no bytes. -/
def brokenDirective : List Reply :=
  directiveDecoded
    ++ [{ Reply.zero with rv := EST_ERROR.other 7, der_ptr := 11 }]
    ++ issued

/-- A directive that `est_decode_attributes_helper` rejects. -/
def undecodableDirective : List Reply :=
  [Reply.zero,
   { Reply.zero with ptr := some 5 },
   { Reply.zero with ret := 1 }, { Reply.zero with ret := 1 }, { Reply.zero with ret := 1 },
   { Reply.zero with rv := EST_ERROR.other 7 }]

/-- An environment for attribute directives: the state is the list of NIDs
still to be extracted.  Decoding reports their number as the remaining length,
each extraction yields the next NID, the OpenSSL calls succeed and the server
refuses the request with code 1. -/
def directiveLib : Lib (List Int)
  | Call.X509_REQ_new, s => ({ Reply.zero with ptr := some 1 }, s)
  | Call.X509_REQ_set_version _ _, s => ({ Reply.zero with ret := 1 }, s)
  | Call.X509_NAME_add_entry_by_txt _ _ _, s => ({ Reply.zero with ret := 1 }, s)
  | Call.X509_REQ_set_pubkey _, s => ({ Reply.zero with ret := 1 }, s)
  | Call.est_decode_attributes_helper _ _, s => ({ Reply.zero with len := s.length }, s)
  | Call.est_get_attributes_helper _ _, [] => ({ Reply.zero with rv := EST_ERROR.other 2 }, [])
  | Call.est_get_attributes_helper _ _, n :: s =>
    ({ Reply.zero with nid := n, len := s.length }, s)
  | Call.est_client_enroll_csr _ _, s => ({ Reply.zero with rv := EST_ERROR.other 1 }, s)
  | _, s => (Reply.zero, s)

/-! ## Files written -/

/-- The arguments of a call of `write_binary_file`: the file name, the buffer
and the number of bytes to write. -/
def fileWrite : Event → Option (String × List Nat × Int)
  | Event.call (Call.write_binary_file file_name data len) _ => some (file_name, data, len)
  | _ => none

/-- The calls of `write_binary_file` in a list of events, in order. -/
def fileWrites (t : List Event) : List (String × List Nat × Int) := t.filterMap fileWrite

/-- Whether an event is a call of `write_binary_file`. -/
def isWrite : Event → Bool
  | Event.call (Call.write_binary_file _ _ _) _ => true
  | _ => false

/-- The name `save_cert` writes to when called, as in the three places of the
client, with `<out_dir>/newcert` formatted into a buffer of `MAX_FILENAME_LEN`
bytes: both `snprintf` calls cut the name to that buffer. -/
def certName (g : Globals) (ext : String) : String :=
  snprintf MAX_FILENAME_LEN (snprintf MAX_FILENAME_LEN (g.out_dir ++ "/newcert") ++ "." ++ ext)

/-- What an attempt that obtained a certificate of `len` bytes has persisted,
in the words of the specification as amended: the bytes copied out of the
library, written once to `newcert.pkcs7` when PEM output is off; with PEM
output on the converted bytes, written once to `newcert.pem` when the
conversion yields a positive length and not at all otherwise. -/
def Persisted (g : Globals) (len : Int) (t : List Event) : Prop :=
  ∃ c : Reply, Event.call Call.est_client_copy_enrolled_cert c ∈ t
    ∧ c.rv = EST_ERROR.EST_ERR_NONE
    ∧ if truthy g.pem_out = true then
        ∃ r : Reply, Event.call (Call.est_convert_p7b64_to_pem c.data len) r ∈ t
          ∧ fileWrites t = if r.ret > 0 then [(certName g "pem", r.data, r.ret)] else []
      else fileWrites t = [(certName g "pkcs7", c.data, len)]

/-- The reply to a request for a certificate, if the event is such a request:
an enrollment submission or a re-enrollment. -/
def requestReply : Event → Option Reply
  | Event.call (Call.est_client_enroll_csr _ _) r => some r
  | Event.call (Call.est_client_enroll _) r => some r
  | Event.call Call.est_client_reenroll r => some r
  | _ => none

/-- What holds of a run that returned a value whose result code is
`EST_ERR_NONE`: it made a request that was answered with `EST_ERR_NONE` and
has persisted a certificate of the length that answer named. -/
def IssuedRun {α : Type} (g : Globals) (code : α → EST_ERROR) (r : Res α)
    (t : List Event) : Prop :=
  ∀ a, r = Res.ok a → code a = EST_ERROR.EST_ERR_NONE →
    ∃ sub, sub ∈ t.filterMap requestReply ∧ sub.rv = EST_ERROR.EST_ERR_NONE
      ∧ Persisted g sub.len t

/-- Every run of the program that returns the result code `EST_ERR_NONE` is an
`IssuedRun`. -/
def Issues {σ α : Type} (g : Globals) (code : α → EST_ERROR) (m : Prog σ α) : Prop :=
  ∀ s, IssuedRun g code (m s).1 (m s).2.2

/-- After a request answered with code `rv` and length `len`: every run of the
program that returns the result code `EST_ERR_NONE` had `rv = EST_ERR_NONE`
and has persisted the certificate. -/
def Persists {σ α : Type} (g : Globals) (rv : EST_ERROR) (len : Int) (code : α → EST_ERROR)
    (m : Prog σ α) : Prop :=
  ∀ s a, (m s).1 = Res.ok a → code a = EST_ERROR.EST_ERR_NONE →
    rv = EST_ERROR.EST_ERR_NONE ∧ Persisted g len (m s).2.2

/-- Options of a quiet run `estclient -e -o out --pem-output`. -/
def quietPem : Globals := { quietEnroll with pem_out := 1 }

/-- Options of a quiet run `estclient -r -o out`. -/
def quietReenroll : Globals := { quietEnroll with enroll := 0, reenroll := 1 }

/-- Replies for a quiet simple enrollment with PEM output in which the server
issues a two-byte certificate and the conversion to PEM fails: context
creation, three configuration calls, the submission, `malloc`, the copy and
the conversion. -/
def issuedButNotConverted : List Reply :=
  [{ Reply.zero with ptr := some 1 }, Reply.zero, Reply.zero, Reply.zero,
   { Reply.zero with len := 2 }, { Reply.zero with ptr := some 9 },
   { Reply.zero with data := [1, 2] }, Reply.zero]

/-- Replies for an attempt whose request is answered with a two-byte
certificate that the library then fails to copy out, leaving the bytes 170 and
187 in the buffer: the request, `malloc`, the copy and the file write. -/
def issuedButNotCopied : List Reply :=
  [{ Reply.zero with len := 2 }, { Reply.zero with ptr := some 9 },
   { Reply.zero with rv := EST_ERROR.other 9, data := [170, 187] }, Reply.zero]

/-- Replies for a quiet simple enrollment in which the server issues a
two-byte certificate. -/
def issuedAtOnce : List Reply :=
  [{ Reply.zero with ptr := some 1 }, Reply.zero, Reply.zero, Reply.zero,
   { Reply.zero with len := 2 }, { Reply.zero with ptr := some 9 },
   { Reply.zero with data := [1, 2] }, Reply.zero]

/-- An output directory name of 250 characters. -/
def longDir : String := String.mk (List.replicate 250 'a')

/-- Replies for a quiet `regular_csr_attempt` whose query yields two bytes. -/
def twoAttributeBytes : List Reply := [{ Reply.zero with data := [7, 8], len := 2 }]

/-! ## Reading the first submission off a trace -/

/-- The result code of a submission, if the event is one. -/
def submissionResult : Event → Option EST_ERROR
  | Event.call (Call.est_client_enroll_csr _ _) r => some r.rv
  | Event.call (Call.est_client_enroll _) r => some r.rv
  | _ => none

/-- The result codes of the submissions in a list of events, in order. -/
def submissionResults (t : List Event) : List EST_ERROR := t.filterMap submissionResult

/-- The result code of the first submission of the first enrollment attempt:
the first submission met before any enrollment attempt has returned. -/
def firstAttemptSubmission : List Event → Option EST_ERROR
  | [] => none
  | Event.leave fn rv :: t =>
    if isAttemptLeave (Event.leave fn rv) then none else firstAttemptSubmission t
  | Event.call (Call.est_client_enroll_csr _ _) r :: _ => some r.rv
  | Event.call (Call.est_client_enroll _) r :: _ => some r.rv
  | _ :: t => firstAttemptSubmission t

/-- A submission answered with a failure code decides the result: every run
of the program in which a submission returned a code other than `EST_ERR_NONE`
returns that code. -/
def SubmissionDecides {σ : Type} (m : Prog σ EST_ERROR) : Prop :=
  ∀ s, ∀ rv ∈ submissionResults (m s).2.2, rv ≠ EST_ERROR.EST_ERR_NONE → (m s).1 = Res.ok rv

/-- The attempt the enroll part of `do_operation` starts with. -/
def firstAttempt {σ : Type} (L : Lib σ) (g : Globals) (fuel : Nat) : Prog σ EST_ERROR :=
  if truthy g.getcsr = true then regular_enroll_attempt L g fuel else simple_enroll_attempt L g

/-- The name `do_operation` gives to the enrollment operation. -/
def enrollOperation (g : Globals) : String :=
  if truthy g.getcsr = true then "Regular enrollment with server-defined attributes"
  else "Simple enrollment without server-defined attributes"

/-- Replies for a quiet simple enrollment that the server refuses with the
failure code 5. -/
def refusedAtOnce : List Reply :=
  [{ Reply.zero with ptr := some 1 }, Reply.zero, Reply.zero, Reply.zero,
   { Reply.zero with rv := EST_ERROR.other 5 }]

/-! ## Reading a failed CSR read off a trace -/

/-- Whether an event is one of the two library calls of `read_csr` failing:
`BIO_read_filename` returning a value that is not positive, or
`PEM_read_bio_X509_REQ` returning `NULL`. After either one `read_csr` returns
`NULL`. -/
def csrReadFailed : Event → Bool
  | Event.call (Call.BIO_read_filename _) r => decide (r.ret ≤ 0)
  | Event.call Call.PEM_read_bio_X509_REQ r => r.ptr.isNone
  | _ => false

/-- The events of a run up to and including the return from its first
enrollment attempt (all of them when no attempt returns). -/
def firstAttemptEvents : List Event → List Event
  | [] => []
  | e :: t => if isAttemptLeave e then [e] else e :: firstAttemptEvents t

/-- A failed read of the CSR file decides the run: every run of the program in
which `read_csr` failed returns `EST_ERR_PEM_READ`, submits nothing and writes
no file. -/
def CsrAborts {σ : Type} (m : Prog σ EST_ERROR) : Prop :=
  ∀ s, (∃ e ∈ (m s).2.2, csrReadFailed e = true) →
    (m s).1 = Res.ok EST_ERROR.EST_ERR_PEM_READ
      ∧ List.countP isSubmission (m s).2.2 = 0 ∧ fileWrites (m s).2.2 = []

/-- Options of a quiet run `estclient -e -y req.pem -o out` (simple enrollment
with a CSR read from a file). -/
def quietCsr : Globals := { quietEnroll with csr_file := "req.pem" }

/-- Replies for a quiet run in which the CSR file cannot be opened: context
creation and three configuration calls succeed, every later call gets the zero
reply, so `BIO_read_filename` returns 0. -/
def unreadableCsr : List Reply :=
  [{ Reply.zero with ptr := some 1 }, Reply.zero, Reply.zero, Reply.zero]

/-! ## `main` after the option loop -/

/-- The file names and trust-anchor settings that only `main` reads: the
file-scope `priv_key_file`, `client_key_file`, `client_cert_file` and the
locals `trustanchor` and `trustanchor_file` (`none` is `NULL`) as the option
loop leaves them. -/
structure MainVars where
  priv_key_file : String
  client_key_file : String
  client_cert_file : String
  trustanchor : Int
  trustanchor_file : Option String
  deriving DecidableEq, Repr

/-- The C string held in a reply buffer, one character per byte. -/
def cstring (data : List Nat) : String := String.mk (data.map Char.ofNat)

/-- The first byte of the UTF-8 encoding of a character. -/
def utf8_first_byte (c : Char) : Nat :=
  if c.toNat < 0x80 then c.toNat
  else if c.toNat < 0x800 then 0xC0 + c.toNat / 0x40
  else if c.toNat < 0x10000 then 0xE0 + c.toNat / 0x1000
  else 0xF0 + c.toNat / 0x40000

/-- The value of `s[0]` for a NUL-terminated string, as an unsigned byte: 0
for the empty string. -/
def char0 (s : String) : Int :=
  match s.data with
  | [] => 0
  | c :: _ => (utf8_first_byte c : Int)

/-- The function `print_version ()`. -/
def print_version {σ : Type} (L : Lib σ) : Prog σ Unit := do
  let v ← call L (Call.main MainCall.SSLeay_version)
  let _ ← call L (Call.printf "Using %s\n" [Arg.str (cstring v.data)])

/-- The checks `main` makes on the option variables once the option loop is
done, up to and including the check of the output directory. -/
def main_checks {σ : Type} (L : Lib σ) (g : Globals) (m : MainVars) : Prog σ Unit := do
  whenC (nonEmpty g.est_http_uid && !(nonEmpty g.est_http_pwd)) (do
    let _ ← call L (Call.printf
      "Error: The password for HTTP authentication must be specified when the HTTP user name is set.\n"
      [])
    exit L 1)
  whenC (nonEmpty g.csr_file && truthy g.getcsr) (do
    let _ ← call L (Call.printf
      "\nError: The -a option (CSR attributes) does not make sense with a pre-defined CSR\n" [])
    exit L 1)
  whenC (nonEmpty g.csr_file && nonEmpty m.priv_key_file) (do
    let _ ← call L (Call.printf
      "\nError: The -x option (private key for CSR) does not make sense with a pre-defined CSR\n"
      [])
    exit L 1)
  whenC (nonEmpty g.csr_file && truthy g.force_pop) (do
    let _ ← call L (Call.printf
      "\nError: The -z option (PoP) does not make sense with a pre-defined CSR\n" [])
    exit L 1)
  whenC (truthy (Int.land g.reenroll (char0 g.csr_file))) (do
    let _ ← call L (Call.printf
      "\nError: The -y option (predefined CSRs) does not make sense for re-enrollment\n" [])
    exit L 1)
  whenC (truthy g.verbose) (do
    print_version L
    let _ ← call L (Call.printf "\nUsing EST server %s:%d"
      [Arg.str g.est_server, Arg.int g.est_port])
    whenC (nonEmpty g.csr_file)
      (do let _ ← call L (Call.printf "\nUsing CSR file %s" [Arg.str g.csr_file]))
    whenC (nonEmpty m.priv_key_file)
      (do let _ ← call L (Call.printf "\nUsing identity private key file %s"
            [Arg.str m.priv_key_file]))
    whenC (nonEmpty m.client_cert_file)
      (do let _ ← call L (Call.printf "\nUsing identity client cert file %s"
            [Arg.str m.client_cert_file]))
    whenC (nonEmpty m.client_key_file)
      (do let _ ← call L (Call.printf "\nUsing identity private key file %s"
            [Arg.str m.client_key_file])))
  whenC (truthy g.enroll && truthy g.reenroll) (do
    let _ ← call L (Call.printf
      "\nThe enroll and reenroll operations can not be used together\n" [])
    exit L 1)
  whenC (!(nonEmpty g.out_dir)) (do
    let _ ← call L (Call.printf "\nOutput directory must be specified with -o option\n" [])
    exit L 1)

/-- The part of `main` that reads the trust anchor: the file named by
`--trustanchor`, or else by the environment variable `EST_OPENSSL_CACERT`. -/
def main_trustanchor {σ : Type} (L : Lib σ) (m : MainVars) : Prog σ Unit :=
  whenC (truthy m.trustanchor) (do
    let trustanchor_file ←
      (match m.trustanchor_file with
        | some f => pure f
        | none => do
          let e ← call L (Call.main (MainCall.getenv "EST_OPENSSL_CACERT"))
          match e.ptr with
          | none => do
            let _ ← call L (Call.printf
              "\nCACERT file not set, set EST_OPENSSL_CACERT to resolve" [])
            exit L 1
          | some _ => do
            let e2 ← call L (Call.main (MainCall.getenv "EST_OPENSSL_CACERT"))
            pure (cstring e2.data) : Prog σ String)
    let r ← call L (Call.main (MainCall.read_binary_file trustanchor_file))
    whenC (decide (r.ret ≤ 0)) (do
      let _ ← call L (Call.printf "\nCACERT file could not be read\n" [])
      exit L 1))

/-- The part of `main` that reads the current client certificate; the result
is `client_cert` (`none` is `NULL`). -/
def main_client_cert {σ : Type} (L : Lib σ) (m : MainVars) : Prog σ (Option Nat) :=
  if nonEmpty m.client_cert_file then do
    let _ ← call L Call.BIO_new
    let r ← call L (Call.BIO_read_filename m.client_cert_file)
    whenC (decide (r.ret ≤ 0)) (do
      let _ ← call L (Call.printf "\nUnable to read client certificate file %s\n"
        [Arg.str m.client_cert_file])
      exit L 1)
    let c ← call L (Call.main MainCall.PEM_read_bio_X509)
    match c.ptr with
    | none => do
      let _ ← call L (Call.printf
        "\nError while reading PEM encoded client certificate file %s\n"
        [Arg.str m.client_cert_file])
      exit L 1
    | some cert => do
      let _ ← call L Call.BIO_free
      pure (some cert)
  else pure none

/-- The part of `main` that reads the private key of the client certificate;
the result is `client_priv_key` (`none` is `NULL`). -/
def main_client_key {σ : Type} (L : Lib σ) (m : MainVars) : Prog σ (Option Nat) :=
  if nonEmpty m.client_key_file then do
    let _ ← call L Call.BIO_new
    let r ← call L (Call.BIO_read_filename m.client_key_file)
    whenC (decide (r.ret ≤ 0)) (do
      let _ ← call L (Call.printf "\nUnable to read client private key file %s\n"
        [Arg.str m.client_key_file])
      exit L 1)
    let k ← call L (Call.main MainCall.PEM_read_bio_PrivateKey)
    match k.ptr with
    | none => do
      let _ ← call L (Call.printf "\nError while reading PEM encoded private key file %s\n"
        [Arg.str m.client_key_file])
      let _ ← call L Call.ERR_print_errors_fp
      exit L 1
    | some key => do
      let _ ← call L Call.BIO_free
      pure (some key)
  else pure none

/-- The part of `main` that sets up the logger of libest. -/
def main_logger {σ : Type} (L : Lib σ) (g : Globals) : Prog σ Unit :=
  if truthy g.verbose then do
    let _ ← call L (Call.main (MainCall.est_init_logger "EST_LOG_LVL_INFO"))
    let _ ← call L (Call.main (MainCall.est_enable_backtrace 1))
  else do
    let _ ← call L (Call.main (MainCall.est_init_logger "EST_LOG_LVL_ERR"))

/-- The function `generate_private_key (int *key_len)`: the result is the
buffer with the PEM text of a new RSA key and `*key_len`.  The result of
`malloc` is not checked in C. -/
def generate_private_key {σ : Type} (L : Lib σ) : Prog σ (List Nat × Int) := do
  let _ ← call L (Call.main MainCall.RSA_new)
  let _ ← call L (Call.main MainCall.BN_new)
  let _ ← call L (Call.main (MainCall.BN_set_word 0x10001))
  let _ ← call L (Call.main MainCall.RSA_generate_key_ex)
  let _ ← call L (Call.main MainCall.BIO_new_mem)
  let _ ← call L (Call.main MainCall.PEM_write_bio_RSAPrivateKey)
  let d ← call L (Call.main MainCall.BIO_get_mem_data)
  let key_len := d.ret
  let _ ← call L (Call.malloc (key_len + 1))
  let _ ← call L Call.BIO_free
  let _ ← call L (Call.main MainCall.RSA_free)
  let _ ← call L (Call.main MainCall.BN_free)
  pure (d.data, key_len)

/-- The function `read_private_key (char *key_file)`; `none` is `NULL`. -/
def read_private_key {σ : Type} (L : Lib σ) (key_file : String) : Prog σ (Option Nat) := do
  let _ ← call L Call.BIO_new
  let r ← call L (Call.BIO_read_filename key_file)
  if r.ret ≤ 0 then do
    let _ ← call L (Call.printf "\nUnable to read private key file %s\n" [Arg.str key_file])
    pure none
  else do
    let k ← call L (Call.main MainCall.PEM_read_bio_PrivateKey)
    match k.ptr with
    | none => do
      let _ ← call L (Call.printf "\nError while reading PEM encoded private key file %s\n"
                [Arg.str key_file])
      let _ ← call L Call.ERR_print_errors_fp
      pure none
    | some key => do
      let _ ← call L Call.BIO_free
      pure (some key)

/-- The part of `main` that provides the key for signing the CSR: a new key is
generated and written to `<out_dir>/newkey.pem` when none was named and the
operation is an enrollment; the result is `priv_key` (`none` is `NULL`). -/
def main_private_key {σ : Type} (L : Lib σ) (g : Globals) (m : MainVars) :
    Prog σ (Option Nat) := do
  let priv_key_file ←
    (if !(nonEmpty m.priv_key_file) && truthy g.enroll then do
      let _ ← call L (Call.printf
        "\nA private key is required for enrolling.  Creating a new RSA key pair since you didn\x27t provide a key using the -x option."
        [])
      let k ← generate_private_key L
      let file_name := snprintf MAX_FILENAME_LEN (g.out_dir ++ "/newkey.pem")
      let _ ← call L (Call.write_binary_file file_name k.1 k.2)
      let _ ← call L (Call.main MainCall.free)
      pure file_name
    else pure m.priv_key_file : Prog σ String)
  if truthy g.enroll then read_private_key L priv_key_file else pure none

/-- The end of `main` after `do_operation`: release keys, certificate and
trust anchor and shut the library down.  The buffers `c_cert` and `c_key` are
never allocated (`c_cert_len` and `c_key_len` stay 0). -/
def main_cleanup {σ : Type} (L : Lib σ) (priv_key client_priv_key client_cert : Option Nat) :
    Prog σ Unit := do
  (match priv_key with
    | some k => do let _ ← call L (Call.main (MainCall.EVP_PKEY_free k))
    | none => pure ())
  (match client_priv_key with
    | some k => do let _ ← call L (Call.main (MainCall.EVP_PKEY_free k))
    | none => pure ())
  (match client_cert with
    | some c => do let _ ← call L (Call.main (MainCall.X509_free c))
    | none => pure ())
  let _ ← call L (Call.main MainCall.free)
  let _ ← call L (Call.main MainCall.est_apps_shutdown)

/-- The function `main` from the end of the option loop on: the option
variables are `g` and `m`.  The result is the value `main` returns. -/
def main_after_options {σ : Type} (L : Lib σ) (g : Globals) (m : MainVars) (fuel : Nat) :
    Prog σ Int := do
  main_checks L g m
  main_trustanchor L m
  let client_cert ← main_client_cert L m
  let client_priv_key ← main_client_key L m
  let _ ← call L (Call.main MainCall.est_apps_startup)
  main_logger L g
  let priv_key ← main_private_key L g m
  let _ ← do_operation L g fuel
  main_cleanup L priv_key client_priv_key client_cert
  let _ ← call L (Call.printf "\n" [])
  pure 0

/-- Whether an event is console output or the end of the process with status
1: a `printf`, the version query of `print_version`, or `exit(1)`. -/
def consoleOrExit : Event → Bool
  | Event.call (Call.printf _ _) _ => true
  | Event.call (Call.main MainCall.SSLeay_version) _ => true
  | Event.call (Call.exit status) _ => decide (status = 1)
  | _ => false

/-- Every run of the program ends in `exit(1)` after console output only. -/
def Rejects {σ α : Type} (m : Prog σ α) : Prop :=
  ∀ s, (m s).1 = Res.exited 1 ∧ ∀ e ∈ (m s).2.2, consoleOrExit e = true

/-- Every run of the program makes console output only and either returns or
ends in `exit(1)`. -/
def Harmless {σ α : Type} (m : Prog σ α) : Prop :=
  ∀ s, ((∃ a, (m s).1 = Res.ok a) ∨ (m s).1 = Res.exited 1)
    ∧ ∀ e ∈ (m s).2.2, consoleOrExit e = true

/-- Options of a run `estclient -e -r -o out`: enroll and re-enroll together. -/
def enrollAndReenroll : Globals := { quietEnroll with reenroll := 1 }

/-- Options of a run `estclient -e -a -y req.pem -o out`. -/
def csrWithAttributes : Globals := { quietCsr with getcsr := 1 }

/-- A signing key named with `-x key.pem`, no trust anchor wanted
(`--trustanchor no`). -/
def keyNamed : MainVars :=
  { priv_key_file := "key.pem", client_key_file := "", client_cert_file := "",
    trustanchor := 0, trustanchor_file := none }

/-- Replies for a quiet run of `main` with a named signing key: library
start-up, logger, the four calls of `read_private_key`, then the replies of an
enrollment that issues a two-byte certificate. -/
def keyThenIssued : List Reply :=
  [Reply.zero, Reply.zero, Reply.zero, { Reply.zero with ret := 1 },
   { Reply.zero with ptr := some 3 }, Reply.zero] ++ issuedAtOnce

/-- No key, certificate or trust anchor file named; the trust anchor required. -/
def noFiles : MainVars :=
  { priv_key_file := "", client_key_file := "", client_cert_file := "",
    trustanchor := 1, trustanchor_file := none }

/-! ## Reading the CSR subject off a trace -/

/-- The subject entry an event adds to a CSR, as the pair of field and value
handed to `X509_NAME_add_entry_by_txt`, if the event is such a call. -/
def subjectEntry : Event → Option (String × String)
  | Event.call (Call.X509_NAME_add_entry_by_txt _ field value) _ => some (field, value)
  | _ => none

/-- The subject entries added to CSRs in a list of events, in order. -/
def subjectEntries (t : List Event) : List (String × String) := t.filterMap subjectEntry

/-- Whether an event adds a subject entry other than `CN=EST-client`. -/
def otherSubject (e : Event) : Bool :=
  match subjectEntry e with
  | some x => decide (x ≠ ("CN", "EST-client"))
  | none => false

/-- The submissions in a list of events, in order. -/
def submissions (t : List Event) : List Event := t.filter isSubmission

/-- The options of `g` with the subject common name replaced by `cn`. -/
def withCommonName (g : Globals) (cn : String) : Globals := { g with subj_cn := cn }

end EstClient

/-! # EST example proxy (`example/proxy/estproxy.c`)

The authentication callback `process_http_auth`.  A value of type `String`
stands for a C string: the characters before the terminating NUL. -/

namespace EstProxy

/-- Modelled from the spec: the enumeration `EST_HTTP_AUTH_MODE` of `est.h`
(not among the sources), with the four modes the callback names; any other
value of the `mode` field is `other v`. -/
inductive EST_HTTP_AUTH_MODE
  | AUTH_NONE
  | AUTH_BASIC
  | AUTH_DIGEST
  | AUTH_FAIL
  | other (value : Int)
  deriving DecidableEq, Repr

/-- Modelled from the spec: the structure `EST_HTTP_AUTH_HDR` of `est.h` (not
among the sources), with the fields of an HTTP authentication header. -/
structure EST_HTTP_AUTH_HDR where
  mode : EST_HTTP_AUTH_MODE
  user : String
  pwd : String
  uri : String
  cnonce : String
  qop : String
  nc : String
  nonce : String
  response : String
  deriving DecidableEq, Repr

/-- The C `strcmp` on the characters of two strings; the result is its sign. -/
def strcmp : List Char → List Char → Int
  | [], [] => 0
  | [], _ :: _ => -1
  | _ :: _, [] => 1
  | a :: as, b :: bs =>
    if a = b then strcmp as bs else if a.toNat < b.toNat then -1 else 1

/-- The C `strncmp` on the characters of two strings: at most `n` characters
are compared; the result is its sign. -/
def strncmp : List Char → List Char → Nat → Int
  | _, _, 0 => 0
  | [], [], _ + 1 => 0
  | [], _ :: _, _ + 1 => -1
  | _ :: _, [], _ + 1 => 1
  | a :: as, b :: bs, n + 1 =>
    if a = b then strncmp as bs n else if a.toNat < b.toNat then -1 else 1

/-- The table `digest_user[3][32]`: user name, realm and precalculated HA1. -/
def digest_user : Fin 3 → String
  | 0 => "estuser"
  | 1 => "estrealm"
  | 2 => "36807fa200741bb0e8fb04fcf08e2de6"

/-- Calls `process_http_auth` makes out of the proxy. -/
inductive AuthCall
  | est_server_generate_auth_digest (ah : EST_HTTP_AUTH_HDR) (ha1 : String)
  | free
  deriving DecidableEq, Repr

/-- A run of `process_http_auth`: the value returned (`none` when the callback
hands a `NULL` digest to `strncmp`) and the calls made, in order. -/
structure AuthRun where
  ret : Option Int
  calls : List AuthCall
  deriving DecidableEq, Repr

/-- The function `process_http_auth (ctx, ah, peer_cert, app_data)`.  The
library function `est_server_generate_auth_digest` is a parameter; `none` is
a `NULL` result.  `ctx` and `app_data` are not used by the C function. -/
def process_http_auth
    (est_server_generate_auth_digest : EST_HTTP_AUTH_HDR → String → Option String)
    (ah : EST_HTTP_AUTH_HDR) (peer_cert : Option Nat) : AuthRun :=
  let _ := peer_cert
  match ah.mode with
  | EST_HTTP_AUTH_MODE.AUTH_BASIC =>
    let user_valid : Int :=
      if strcmp ah.user.data "estuser".data = 0 ∧ strcmp ah.pwd.data "estpwd".data = 0
      then 1 else 0
    { ret := some user_valid, calls := [] }
  | EST_HTTP_AUTH_MODE.AUTH_DIGEST =>
    if strcmp ah.user.data (digest_user 0).data ≠ 0 then
      { ret := some 0, calls := [] }
    else
      match est_server_generate_auth_digest ah (digest_user 2) with
      | none =>
        { ret := none,
          calls := [AuthCall.est_server_generate_auth_digest ah (digest_user 2)] }
      | some digest =>
        let user_valid : Int :=
          if strncmp digest.data ah.response.data 32 = 0 then 1 else 0
        { ret := some user_valid,
          calls := [AuthCall.est_server_generate_auth_digest ah (digest_user 2),
                    AuthCall.free] }
  | _ => { ret := some 0, calls := [] }

/-- A header with every text field empty. -/
def emptyHeader (mode : EST_HTTP_AUTH_MODE) : EST_HTTP_AUTH_HDR :=
  { mode := mode, user := "", pwd := "", uri := "", cnonce := "", qop := "", nc := "",
    nonce := "", response := "" }

/-- A digest function that always computes the same 32 hexadecimal digits. -/
def fixedDigest : EST_HTTP_AUTH_HDR → String → Option String :=
  fun _ _ => some "0123456789abcdef0123456789abcdef"

/-- A Digest header of the configured user whose response is the 32 digits of
`fixedDigest` followed by one more character. -/
def longResponse : EST_HTTP_AUTH_HDR :=
  { emptyHeader EST_HTTP_AUTH_MODE.AUTH_DIGEST with
    user := "estuser", response := "0123456789abcdef0123456789abcdefX" }

/-! ## `process_ssl_srp_auth` -/

/-- OpenSSL `SSL_ERROR_NONE`. -/
def SSL_ERROR_NONE : Int := 0
/-- OpenSSL `SSL3_AL_FATAL`. -/
def SSL3_AL_FATAL : Int := 2
/-- OpenSSL `SSL_AD_INTERNAL_ERROR` (`SSL3_AD_INTERNAL_ERROR`). -/
def SSL_AD_INTERNAL_ERROR : Int := 80

/-- A record of the SRP verifier database (OpenSSL `SRP_user_pwd`): group
modulus `N`, generator `g`, salt `s`, verifier `v` (big numbers) and the text
`info`. -/
structure SRP_user_pwd where
  N : Nat
  g : Nat
  s : Nat
  v : Nat
  info : String
  deriving DecidableEq, Repr

/-- Calls `process_ssl_srp_auth` makes out of the proxy, with their arguments. -/
inductive SrpCall
  | SSL_get_srp_username
  | printf (fmt : String) (args : List String)
  | SRP_VBASE_get_by_user (login : String)
  | SSL_set_srp_server_param (N g s v : Nat) (info : String)
  | fflush
  deriving DecidableEq, Repr

/-- A run of `process_ssl_srp_auth`: the value returned, the value stored
through `ad` (`none` when nothing is stored) and the calls made, in order. -/
structure SrpRun where
  ret : Int
  ad : Option Int
  calls : List SrpCall
  deriving DecidableEq, Repr

/-- The function `process_ssl_srp_auth (SSL *s, int *ad, void *arg)`.  The
environment is given by three parameters: `login` is what
`SSL_get_srp_username` returns (`none` is `NULL`), `get_by_user` is the lookup
`SRP_VBASE_get_by_user` in `srp_db` (`none` is `NULL`), and `set_param` is the
result of `SSL_set_srp_server_param` for a record.  `arg` is not used. -/
def process_ssl_srp_auth (login : Option String)
    (get_by_user : String → Option SRP_user_pwd) (set_param : SRP_user_pwd → Int) : SrpRun :=
  match login with
  | none => { ret := -1, ad := none, calls := [SrpCall.SSL_get_srp_username] }
  | some login =>
    match get_by_user login with
    | none =>
      { ret := SSL3_AL_FATAL, ad := none,
        calls := [SrpCall.SSL_get_srp_username,
                  SrpCall.printf "SRP username = %s\n" [login],
                  SrpCall.SRP_VBASE_get_by_user login,
                  SrpCall.printf "User %s doesn\x27t exist in SRP database\n" [login]] }
    | some user =>
      if set_param user < 0 then
        { ret := SSL3_AL_FATAL, ad := some SSL_AD_INTERNAL_ERROR,
          calls := [SrpCall.SSL_get_srp_username,
                    SrpCall.printf "SRP username = %s\n" [login],
                    SrpCall.SRP_VBASE_get_by_user login,
                    SrpCall.SSL_set_srp_server_param user.N user.g user.s user.v user.info] }
      else
        { ret := SSL_ERROR_NONE, ad := none,
          calls := [SrpCall.SSL_get_srp_username,
                    SrpCall.printf "SRP username = %s\n" [login],
                    SrpCall.SRP_VBASE_get_by_user login,
                    SrpCall.SSL_set_srp_server_param user.N user.g user.s user.v user.info,
                    SrpCall.printf "SRP parameters set: username = \"%s\" info=\"%s\" \n"
                      [login, user.info],
                    SrpCall.fflush] }

/-- Whether a call hands verifier parameters to the TLS layer. -/
def suppliesParameters : SrpCall → Bool
  | SrpCall.SSL_set_srp_server_param _ _ _ _ _ => true
  | _ => false

/-- A verifier database with the one user `alice`. -/
def oneUser : String → Option SRP_user_pwd :=
  fun login =>
    if login = "alice" then some { N := 23, g := 5, s := 7, v := 11, info := "alice@example" }
    else none

end EstProxy

namespace EstClient

/-! ## The option loop of `main` -/

/-- Buffer sizes and read timeouts that `est.h` (not among the sources) defines
and `main` uses by name. -/
structure EstLimits where
  MAX_UID_LEN : Nat
  MAX_PWD_LEN : Nat
  EST_SSL_READ_TIMEOUT_DEF : Int
  EST_SSL_READ_TIMEOUT_MAX : Int
  deriving DecidableEq, Repr

/-- The `MAX_SERVER_LEN` of the client. -/
def MAX_SERVER_LEN : Nat := 255
/-- The `MAX_CN` of the client. -/
def MAX_CN : Nat := 64

/-- What `strncpy(dst, src, n)` leaves in `dst`: the first `n` characters of
`src`.  When `src` has `n` characters or more C writes no terminating NUL; the
model keeps the `n` characters. -/
def strncpy (n : Nat) (src : String) : String := String.mk (src.data.take n)

/-- The digits part of `atoi`: the value of the leading decimal digits. -/
def atoi_digits : List Char → Int → Int
  | [], acc => acc
  | c :: cs, acc =>
    if c.isDigit then atoi_digits cs (acc * 10 + ((c.toNat : Int) - 48)) else acc

/-- The C `atoi` for text whose number fits an `int`: leading blanks, an
optional sign, then decimal digits. -/
def atoi (s : String) : Int :=
  match s.data.dropWhile Char.isWhitespace with
  | '-' :: cs => - atoi_digits cs 0
  | '+' :: cs => atoi_digits cs 0
  | cs => atoi_digits cs 0

/-- The names in the table `long_options` of `main`, by index. -/
def long_options : List String :=
  ["trustanchor", "srp", "srp-user", "srp-password", "common-name", "pem-output"]

/-- One result of `getopt_long` other than -1: a long option (the value 0,
with `option_index` and `optarg`), or the character of a short option (with
`optarg`; an unknown option gives the character `?`).  `optarg` is read only
for options that take an argument. -/
inductive Getopt
  | long (option_index : Nat) (optarg : String)
  | short (c : Char) (optarg : String)
  deriving DecidableEq, Repr

/-- The text `show_usage_and_exit` writes to `stderr`. -/
def usage_text : String :=
  "\nAvailable EST client options\n"
  ++ "  -v                Verbose operation\n"
  ++ "  -g                Get CA certificate from EST server\n"
  ++ "  -e                Enroll with EST server and request a cert\n"
  ++ "  -a                Get CSR attributes from EST server\n"
  ++ "  -z                Force binding the PoP by including the challengePassword in the CSR\n"
  ++ "  -r                Re-enroll with EST server and request a cert, must use -c option\n"
  ++ "  -c <certfile>     Identity certificate to use for the TLS session, also the cert that will\n"
  ++ "                    be used when doing a re-enroll operation\n"
  ++ "  -k <keyfile>      Use with -c option to specify private key for the identity cert\n"
  ++ "  -x <keyfile>      Use existing private key in the given file for signing the CSR\n"
  ++ "  -y <csrfile>      Use existing CSR in the given file\n"
  ++ "  -s <server>       Enrollment server IP address\n"
  ++ "  -p <port>         TCP port number for enrollment server\n"
  ++ "  -o <dir>          Directory where pkcs7 certs will be written\n"
  ++ "  -w <count>        Timeout in seconds to wait for server response (default=10)\n"
  ++ "  -f                Runs EST Client in FIPS MODE = ON\n"
  ++ "  -u <string>       Specify user name for HTTP authentication\n"
  ++ "  -h <string>       Specify password for HTTP authentication\n"
  ++ "  -?                Print this help message and exit\n"
  ++ "  --common-name  <string>     Specify the common name to use in the Suject Name field of the new certificate.\n"
  ++ "                              127.0.0.1 will be used if this option is not specified\n"
  ++ "  --pem-output                Convert the new certificate to PEM format\n"
  ++ "  --srp                       Enable TLS-SRP cipher suites.  Use with --srp-user and --srp-password options\n"
  ++ "  --srp-user     <string>     Specify the SRP user name\n"
  ++ "  --srp-password <string>     Specify the SRP password\n"
  ++ "\n"

/-- The function `show_usage_and_exit ()`. -/
def show_usage_and_exit {σ α : Type} (L : Lib σ) : Prog σ α := do
  let _ ← call L (Call.printf "estclient \n" [])
  let _ ← call L (Call.printf "Usage:\n" [])
  let _ ← call L (Call.main (MainCall.fprintf_stderr usage_text))
  exit L 255

/-- The `case 0` of the option loop of `main`: a long option, found by name
in `long_options`; the tests run one after the other. -/
def main_long_option (lim : EstLimits) (option_index : Nat) (optarg : String)
    (st : Globals × MainVars) : Globals × MainVars :=
  let name := (long_options.getD option_index "").data
  let g := st.1
  let m := st.2
  let m1 : MainVars :=
    if EstProxy.strncmp name "trustanchor".data "trustanchor".length = 0 then
      if EstProxy.strncmp optarg.data "no".data "no".length = 0 then
        { m with trustanchor := 0 }
      else
        { m with trustanchor_file := some optarg }
    else m
  let g1 : Globals :=
    if EstProxy.strncmp name "srp".data "srp".length = 0 then { g with srp := 1 } else g
  let g2 : Globals :=
    if EstProxy.strncmp name "srp-user".data "srp-user".length = 0 then
      { g1 with est_srp_uid := strncpy lim.MAX_UID_LEN optarg }
    else g1
  let g3 : Globals :=
    if EstProxy.strncmp name "srp-password".data "srp-password".length = 0 then
      { g2 with est_srp_pwd := strncpy lim.MAX_PWD_LEN optarg }
    else g2
  let g4 : Globals :=
    if EstProxy.strncmp name "common-name".data "common-name".length = 0 then
      { g3 with subj_cn := strncpy MAX_CN optarg }
    else g3
  let g5 : Globals :=
    if EstProxy.strncmp name "pem-output".data "pem-output".length = 0 then
      { g4 with pem_out := 1 }
    else g4
  (g5, m1)

/-- The `case 'f'` of the option loop: turn FIPS mode on, or end the process. -/
def main_fips {σ : Type} (L : Lib σ) : Prog σ Unit := do
  let r ← call L (Call.main (MainCall.FIPS_mode_set 1))
  if r.ret = 0 then do
    let _ ← call L (Call.printf "\nERROR setting FIPS MODE ON ...\n" [])
    let _ ← call L (Call.main MainCall.ERR_load_crypto_strings)
    let _ ← call L (Call.main MainCall.BIO_new_fp)
    let _ ← call L (Call.main MainCall.ERR_print_errors)
    exit L 1
  else do
    let _ ← call L (Call.printf "\nRunning EST Sample Client with FIPS MODE = ON\n" [])

/-- One pass of the option loop of `main`: the `switch (c)` on a result of
`getopt_long`; `st` holds the option variables. -/
def main_option {σ : Type} (L : Lib σ) (lim : EstLimits) (o : Getopt)
    (st : Globals × MainVars) : Prog σ (Globals × MainVars) :=
  let g := st.1
  let m := st.2
  match o with
  | Getopt.long option_index optarg => pure (main_long_option lim option_index optarg st)
  | Getopt.short c optarg =>
    if c = 'v' then pure ({ g with verbose := 1 }, m)
    else if c = 'z' then pure ({ g with force_pop := 1 }, m)
    else if c = 'a' then pure ({ g with getcsr := 1 }, m)
    else if c = 'g' then pure ({ g with getcert := 1 }, m)
    else if c = 'e' then pure ({ g with enroll := 1 }, m)
    else if c = 'r' then pure ({ g with reenroll := 1 }, m)
    else if c = 'u' then pure ({ g with est_http_uid := strncpy lim.MAX_UID_LEN optarg }, m)
    else if c = 'h' then pure ({ g with est_http_pwd := strncpy lim.MAX_PWD_LEN optarg }, m)
    else if c = 's' then pure ({ g with est_server := strncpy MAX_SERVER_LEN optarg }, m)
    else if c = 'x' then pure (g, { m with priv_key_file := strncpy MAX_FILENAME_LEN optarg })
    else if c = 'y' then pure ({ g with csr_file := strncpy MAX_FILENAME_LEN optarg }, m)
    else if c = 'k' then
      pure (g, { m with client_key_file := strncpy MAX_FILENAME_LEN optarg })
    else if c = 'c' then
      pure (g, { m with client_cert_file := strncpy MAX_FILENAME_LEN optarg })
    else if c = 'o' then pure ({ g with out_dir := strncpy MAX_FILENAME_LEN optarg }, m)
    else if c = 'p' then pure ({ g with est_port := atoi optarg }, m)
    else if c = 'f' then do
      main_fips L
      pure (g, m)
    else if c = 'w' then do
      let read_timeout := atoi optarg
      whenC (decide (read_timeout > lim.EST_SSL_READ_TIMEOUT_MAX)) (do
        let _ ← call L (Call.printf "\nMaxium number of seconds to wait is %d, "
          [Arg.int lim.EST_SSL_READ_TIMEOUT_MAX])
        let _ ← call L (Call.printf "please use a lower value with the -w option\n" [])
        exit L 1)
      pure ({ g with read_timeout := read_timeout }, m)
    else show_usage_and_exit L

/-- The option loop of `main` over the results `getopt_long` gives before it
returns -1. -/
def main_options {σ : Type} (L : Lib σ) (lim : EstLimits) :
    List Getopt → Globals × MainVars → Prog σ (Globals × MainVars)
  | [], st => pure st
  | o :: os, st => do
    let st1 ← main_option L lim o st
    main_options L lim os st1

/-- The option variables as `main` sets them before the option loop (the
file-scope flags start at 0, `trustanchor` at 1). -/
def main_initial (lim : EstLimits) : Globals × MainVars :=
  ({ est_http_uid := "", est_http_pwd := "", est_srp_uid := "", est_srp_pwd := "",
     subj_cn := strncpy MAX_CN "127.0.0.1", est_server := "", est_port := 0, verbose := 0,
     srp := 0, pem_out := 0, csr_file := "", out_dir := "",
     read_timeout := lim.EST_SSL_READ_TIMEOUT_DEF,
     enroll := 0, getcsr := 0, getcert := 0, reenroll := 0, force_pop := 0 },
   { priv_key_file := "", client_key_file := "", client_cert_file := "",
     trustanchor := 1, trustanchor_file := none })

/-- The part of `main` that lists the arguments left after the options. -/
def main_non_options {σ : Type} (L : Lib σ) (rest : List String) : Prog σ Unit :=
  whenC (decide (rest ≠ [])) (do
    let _ ← call L (Call.printf "non-option ARGV-elements: " [])
    rest.forM (fun a => do let _ ← call L (Call.printf "%s " [Arg.str a]))
    let _ ← call L (Call.printf "\n" []))

/-- The function `main (argc, argv)`: `opts` are the results of `getopt_long`
on the command line, `rest` the arguments left after the options.  The result
is the value `main` returns. -/
def main {σ : Type} (L : Lib σ) (lim : EstLimits) (opts : List Getopt) (rest : List String)
    (fuel : Nat) : Prog σ Int := do
  let st ← main_options L lim opts (main_initial lim)
  main_non_options L rest
  main_after_options L st.1 st.2 fuel

/-- The exit status of the process: the status given to `exit`, or the value
`main` returns (`none` when the model ran out of loop fuel). -/
def exit_status : Res Int → Option Int
  | Res.ok v => some v
  | Res.exited c => some c
  | Res.timeout => none

/-- Whether the `switch` of the option loop has a case for a result of
`getopt_long`. -/
def recognised : Getopt → Bool
  | Getopt.long _ _ => true
  | Getopt.short c _ =>
    c ∈ ['v', 'z', 'a', 'g', 'e', 'r', 'u', 'h', 's', 'x', 'y', 'k', 'c', 'o', 'p', 'f', 'w']

/-- Limits for concrete runs: buffers of 255 characters, a read timeout of 10
seconds by default and of 60 at most. -/
def someLimits : EstLimits :=
  { MAX_UID_LEN := 255, MAX_PWD_LEN := 255, EST_SSL_READ_TIMEOUT_DEF := 10,
    EST_SSL_READ_TIMEOUT_MAX := 60 }

/-- The part of `main` between the option loop and `do_operation`: the checks
and the loading of trust anchor, certificate and keys.  The result is the
triple of `priv_key`, `client_priv_key` and `client_cert`. -/
def main_setup {σ : Type} (L : Lib σ) (g : Globals) (m : MainVars) :
    Prog σ (Option Nat × Option Nat × Option Nat) := do
  main_checks L g m
  main_trustanchor L m
  let client_cert ← main_client_cert L m
  let client_priv_key ← main_client_key L m
  let _ ← call L (Call.main MainCall.est_apps_startup)
  main_logger L g
  let priv_key ← main_private_key L g m
  pure (priv_key, client_priv_key, client_cert)

/-- The part of `main` from `do_operation` to `return 0`; `k` is the triple
of `priv_key`, `client_priv_key` and `client_cert`. -/
def main_operation {σ : Type} (L : Lib σ) (g : Globals) (fuel : Nat)
    (k : Option Nat × Option Nat × Option Nat) : Prog σ Int := do
  let _ ← do_operation L g fuel
  main_cleanup L k.1 k.2.1 k.2.2
  let _ ← call L (Call.printf "\n" [])
  pure 0

/-- Every `exit` the program can end in has status 1. -/
def ExitsOne {σ α : Type} (m : Prog σ α) : Prop :=
  ∀ s c, (m s).1 = Res.exited c → c = 1

/-- The program always returns. -/
def Returns {σ α : Type} (m : Prog σ α) : Prop :=
  ∀ s, ∃ a, (m s).1 = Res.ok a

/-- Options of a run `estclient -e -o out -x key.pem --trustanchor no`. -/
def enrollOptions : List Getopt :=
  [Getopt.short 'e' "", Getopt.short 'o' "out", Getopt.short 'x' "key.pem",
   Getopt.long 0 "no"]

/-- Replies for a quiet run of `main` with a named signing key in which the
server refuses the enrollment with the failure code 5. -/
def keyThenRefused : List Reply :=
  [Reply.zero, Reply.zero, Reply.zero, { Reply.zero with ret := 1 },
   { Reply.zero with ptr := some 3 }, Reply.zero] ++ refusedAtOnce

/-- Options of a run `estclient -r -y <csr> -o out --trustanchor no`. -/
def reenrollOptions (csr : String) : List Getopt :=
  [Getopt.short 'r' "", Getopt.short 'y' csr, Getopt.short 'o' "out", Getopt.long 0 "no"]

/-- Replies for a quiet run of `main` that needs no private key: library
start-up, logger, then the replies of an operation that issues a two-byte
certificate. -/
def startThenIssued : List Reply :=
  [Reply.zero, Reply.zero] ++ issuedAtOnce

/-- Options of a run `estclient -r -o out --trustanchor no --srp-user bob`;
`srp-user` is entry 2 of `long_options`. -/
def srpUserOptions : List Getopt :=
  [Getopt.short 'r' "", Getopt.short 'o' "out", Getopt.long 0 "no", Getopt.long 2 "bob"]

/-- Replies for a quiet run of `main` that needs no private key, up to the
creation of the EST context; every later call finds the zero reply. -/
def startThenContext : List Reply :=
  [Reply.zero, Reply.zero, { Reply.zero with ptr := some 1 }]

end EstClient

namespace EstClient

/-! ## Basic facts about sequencing -/

theorem seq_apply {σ α β : Type} (m : Prog σ α) (f : α → Prog σ β) (s : σ) :
    (m >>= f) s = Prog.seq m f s := rfl

theorem pure_apply {σ α : Type} (a : α) (s : σ) :
    (pure a : Prog σ α) s = (Res.ok a, s, []) := rfl

theorem call_apply {σ : Type} (L : Lib σ) (c : Call) (s : σ) :
    call L c s = (Res.ok (L c s).1, (L c s).2, [Event.call c (L c s).1]) := rfl

theorem whenC_true {σ : Type} (m : Prog σ Unit) : whenC true m = m := rfl

theorem whenC_false {σ : Type} (m : Prog σ Unit) (s : σ) :
    whenC false m s = (Res.ok (), s, []) := rfl

/-! ## Counting events -/

theorem bounded_mono {σ α : Type} {p : Event → Bool} {k k2 : Nat} {m : Prog σ α}
    (h : Bounded p k m) (hk : k ≤ k2) : Bounded p k2 m :=
  fun s => Nat.le_trans (h s) hk

theorem bounded_pure {σ α : Type} (p : Event → Bool) (a : α) :
    Bounded p 0 (pure a : Prog σ α) := by
  intro s
  simp [pure_apply]

theorem bounded_ret {σ α : Type} (p : Event → Bool) (a : α) :
    Bounded p 0 (Prog.ret a : Prog σ α) := by
  intro s
  simp [Prog.ret]

theorem bounded_outOfFuel {σ α : Type} (p : Event → Bool) :
    Bounded p 0 (outOfFuel : Prog σ α) := by
  intro s
  simp [EstClient.outOfFuel]

theorem bounded_seq {σ α β : Type} {p : Event → Bool} {k1 k2 : Nat} {m : Prog σ α}
    {f : α → Prog σ β} (h1 : Bounded p k1 m) (h2 : ∀ a, Bounded p k2 (f a)) :
    Bounded p (k1 + k2) (m >>= f) := by
  intro s
  have hm := h1 s
  rw [seq_apply]
  unfold Prog.seq
  rcases hms : m s with ⟨r, s1, t1⟩
  rw [hms] at hm
  cases r with
  | ok a =>
    have hf := h2 a s1
    simp only [List.countP_append]
    exact Nat.add_le_add hm hf
  | exited c =>
    simp only at hm ⊢
    omega
  | timeout =>
    simp only at hm ⊢
    omega

theorem bounded_seq_zero {σ α β : Type} {p : Event → Bool} {m : Prog σ α}
    {f : α → Prog σ β} (h1 : Bounded p 0 m) (h2 : ∀ a, Bounded p 0 (f a)) :
    Bounded p 0 (m >>= f) :=
  bounded_seq h1 h2

theorem bounded_seq_zero_left {σ α β : Type} {p : Event → Bool} {k : Nat} {m : Prog σ α}
    {f : α → Prog σ β} (h1 : Bounded p 0 m) (h2 : ∀ a, Bounded p k (f a)) :
    Bounded p k (m >>= f) :=
  bounded_mono (bounded_seq h1 h2) (by omega)

theorem bounded_seq_zero_right {σ α β : Type} {p : Event → Bool} {k : Nat} {m : Prog σ α}
    {f : α → Prog σ β} (h1 : Bounded p k m) (h2 : ∀ a, Bounded p 0 (f a)) :
    Bounded p k (m >>= f) :=
  bounded_mono (bounded_seq h1 h2) (by omega)

theorem bounded_call_zero {σ : Type} {p : Event → Bool} (L : Lib σ) (c : Call)
    (hc : ∀ r, p (Event.call c r) = false) : Bounded p 0 (call L c) := by
  intro s
  simp [call_apply, hc]

theorem bounded_emit_zero {σ : Type} {p : Event → Bool} (e : Event)
    (he : p e = false) : Bounded p 0 (emit e : Prog σ Unit) := by
  intro s
  simp [emit, he]

theorem bounded_emit_one {σ : Type} (p : Event → Bool) (e : Event) :
    Bounded p 1 (emit e : Prog σ Unit) := by
  intro s
  simp only [emit]
  exact List.countP_le_length p

theorem bounded_call_one {σ : Type} (p : Event → Bool) (L : Lib σ) (c : Call) :
    Bounded p 1 (call L c) := by
  intro s
  simp only [call_apply]
  exact List.countP_le_length p

theorem bounded_exit_plain {σ α : Type} {p : Event → Bool} (L : Lib σ) (status : Int)
    (hp : ∀ e, plain e = true → p e = false) :
    Bounded p 0 (exit L status : Prog σ α) := by
  intro s
  have h : plain (Event.call (Call.exit status) (L (Call.exit status) s).1) = true := rfl
  simp [exit, hp _ h]

theorem bounded_whenC {σ : Type} {p : Event → Bool} {k : Nat} (b : Bool) {m : Prog σ Unit}
    (h : Bounded p k m) : Bounded p k (whenC b m) := by
  cases b
  · exact bounded_mono (bounded_ret p ()) (Nat.zero_le k)
  · exact h

theorem bounded_ite {σ α : Type} {p : Event → Bool} {k : Nat} (c : Prop) [Decidable c]
    {m1 m2 : Prog σ α} (h1 : Bounded p k m1) (h2 : Bounded p k m2) :
    Bounded p k (if c then m1 else m2) := by
  split
  · exact h1
  · exact h2

theorem save_cert_plain {σ : Type} (L : Lib σ) (g : Globals) {p : Event → Bool}
    (hp : ∀ e, plain e = true → p e = false)
    (file_name : String) (cert_data : List Nat) (cert_len : Int) :
    Bounded p 0 (save_cert L g file_name cert_data cert_len) := by
  unfold save_cert
  repeat' first
    | exact bounded_pure p _
    | exact bounded_call_zero L _ (fun _ => hp _ rfl)
    | exact bounded_exit_plain L _ hp
    | apply bounded_seq_zero
    | apply bounded_whenC
    | apply bounded_ite
    | intro _

theorem read_csr_plain {σ : Type} (L : Lib σ) {p : Event → Bool}
    (hp : ∀ e, plain e = true → p e = false) (csr_file : String) :
    Bounded p 0 (read_csr L csr_file) := by
  unfold read_csr
  repeat' first
    | exact bounded_pure p _
    | exact bounded_call_zero L _ (fun _ => hp _ rfl)
    | apply bounded_seq_zero
    | apply bounded_ite
    | split
    | intro _

theorem retrieve_and_save_plain {σ : Type} (L : Lib σ) (g : Globals) {p : Event → Bool}
    (hp : ∀ e, plain e = true → p e = false) (pkcs7_len : Int) :
    Bounded p 0 (retrieve_and_save L g pkcs7_len) := by
  unfold retrieve_and_save
  repeat' first
    | exact bounded_pure p _
    | exact bounded_call_zero L _ (fun _ => hp _ rfl)
    | exact bounded_emit_zero _ (hp _ rfl)
    | exact bounded_exit_plain L _ hp
    | exact save_cert_plain L g hp _ _ _
    | apply bounded_seq_zero
    | apply bounded_whenC
    | apply bounded_ite
    | split
    | intro _

theorem populate_x509_csr_plain {σ : Type} (L : Lib σ) {p : Event → Bool}
    (hp : ∀ e, plain e = true → p e = false) (req : Nat) (cn : String) :
    Bounded p 0 (populate_x509_csr L req cn) := by
  unfold populate_x509_csr
  repeat' first
    | exact bounded_pure p _
    | exact bounded_call_zero L _ (fun _ => hp _ rfl)
    | apply bounded_seq_zero
    | apply bounded_ite
    | intro _

theorem add_attribute_quiet {σ : Type} (L : Lib σ) {p : Event → Bool}
    (hq : ∀ c r, isSleep (Event.call c r) = false → isSubmission (Event.call c r) = false →
      p (Event.call c r) = false) (csr : Nat) (nid : Int) :
    Bounded p 0 (add_attribute L csr nid) := by
  unfold add_attribute
  repeat' first
    | exact bounded_pure p _
    | exact bounded_call_zero L _ (fun _ => hq _ _ rfl rfl)
    | apply bounded_seq_zero
    | apply bounded_whenC
    | apply bounded_ite
    | intro _

theorem attribute_loop_quiet {σ : Type} (L : Lib σ) {p : Event → Bool}
    (hq : ∀ c r, isSleep (Event.call c r) = false → isSubmission (Event.call c r) = false →
      p (Event.call c r) = false) (csr : Nat) (fuel : Nat) :
    ∀ (der_ptr : Nat) (der_len : Int) (rv : EST_ERROR),
      Bounded p 0 (attribute_loop L csr fuel der_ptr der_len rv) := by
  induction fuel with
  | zero =>
    intro der_ptr der_len rv
    unfold attribute_loop
    apply bounded_ite
    · exact bounded_outOfFuel p
    · exact bounded_pure p _
  | succ n ih =>
    intro der_ptr der_len rv
    unfold attribute_loop
    repeat' first
      | exact bounded_pure p _
      | exact ih _ _ _
      | exact add_attribute_quiet L hq _ _
      | exact bounded_call_zero L _ (fun _ => hq _ _ rfl rfl)
      | apply bounded_seq_zero
      | apply bounded_ite
      | intro _

theorem regular_csr_attempt_plain {σ : Type} (L : Lib σ) (g : Globals) {p : Event → Bool}
    (hp : ∀ e, plain e = true → p e = false) :
    Bounded p 0 (regular_csr_attempt L g) := by
  unfold regular_csr_attempt
  repeat' first
    | exact bounded_pure p _
    | exact bounded_call_zero L _ (fun _ => hp _ rfl)
    | exact bounded_emit_zero _ (hp _ rfl)
    | exact bounded_exit_plain L _ hp
    | exact save_cert_plain L g hp _ _ _
    | apply bounded_seq_zero
    | apply bounded_whenC
    | apply bounded_ite
    | split
    | intro _

theorem do_operation_init_plain {σ : Type} (L : Lib σ) (g : Globals) {p : Event → Bool}
    (hp : ∀ e, plain e = true → p e = false) :
    Bounded p 0 (do_operation_init L g) := by
  unfold do_operation_init
  repeat' first
    | exact bounded_pure p _
    | exact bounded_call_zero L _ (fun _ => hp _ rfl)
    | exact bounded_emit_zero _ (hp _ rfl)
    | exact bounded_exit_plain L _ hp
    | exact save_cert_plain L g hp _ _ _
    | apply bounded_seq_zero
    | apply bounded_whenC
    | apply bounded_ite
    | split
    | intro _

theorem do_operation_getcert_plain {σ : Type} (L : Lib σ) (g : Globals) {p : Event → Bool}
    (hp : ∀ e, plain e = true → p e = false) (st : String × EST_ERROR) :
    Bounded p 0 (do_operation_getcert L g st) := by
  unfold do_operation_getcert
  repeat' first
    | exact bounded_pure p _
    | exact bounded_call_zero L _ (fun _ => hp _ rfl)
    | exact bounded_emit_zero _ (hp _ rfl)
    | exact bounded_exit_plain L _ hp
    | exact save_cert_plain L g hp _ _ _
    | apply bounded_seq_zero
    | apply bounded_whenC
    | apply bounded_ite
    | split
    | intro _

theorem do_operation_reenroll_plain {σ : Type} (L : Lib σ) (g : Globals) {p : Event → Bool}
    (hp : ∀ e, plain e = true → p e = false) (st : String × EST_ERROR) :
    Bounded p 0 (do_operation_reenroll L g st) := by
  unfold do_operation_reenroll
  repeat' first
    | exact bounded_pure p _
    | exact bounded_call_zero L _ (fun _ => hp _ rfl)
    | exact bounded_emit_zero _ (hp _ rfl)
    | exact bounded_exit_plain L _ hp
    | exact save_cert_plain L g hp _ _ _
    | apply bounded_seq_zero
    | apply bounded_whenC
    | apply bounded_ite
    | split
    | intro _


theorem plain_not_sleep (e : Event) (h : plain e = true) : isSleep e = false := by
  simp only [plain, Bool.and_eq_true, Bool.not_eq_true_eq_eq_false] at h
  exact h.1.1.1.1

theorem plain_not_submission (e : Event) (h : plain e = true) : isSubmission e = false := by
  simp only [plain, Bool.and_eq_true, Bool.not_eq_true_eq_eq_false] at h
  exact h.1.1.1.2

theorem plain_not_attempt (e : Event) (h : plain e = true) : isAttempt e = false := by
  simp only [plain, Bool.and_eq_true, Bool.not_eq_true_eq_eq_false] at h
  exact h.1.1.2

theorem plain_not_attempt_leave (e : Event) (h : plain e = true) :
    isAttemptLeave e = false := by
  simp only [plain, Bool.and_eq_true, Bool.not_eq_true_eq_eq_false] at h
  exact h.1.2

theorem plain_not_attribute_call (e : Event) (h : plain e = true) :
    isAttributeCall e = false := by
  simp only [plain, Bool.and_eq_true, Bool.not_eq_true_eq_eq_false] at h
  exact h.2

/-- Apart from `sleep`, `retry_enroll_delay` only prints and reads the clock. -/
theorem retry_enroll_delay_quiet {σ : Type} (L : Lib σ) (g : Globals) {p : Event → Bool}
    (hc : ∀ c r, isSubmission (Event.call c r) = false → p (Event.call c r) = false)
    (retry_delay retry_time : Int) :
    Bounded p 0 (retry_enroll_delay L g retry_delay retry_time) := by
  unfold retry_enroll_delay
  repeat' first
    | exact bounded_pure p _
    | exact bounded_call_zero L _ (fun _ => hc _ _ rfl)
    | apply bounded_seq_zero
    | apply bounded_whenC
    | apply bounded_ite
    | intro _

/-- The function `retry_enroll_delay` calls `sleep` at most once. -/
theorem retry_enroll_delay_sleeps {σ : Type} (L : Lib σ) (g : Globals)
    (retry_delay retry_time : Int) :
    Bounded isSleep 1 (retry_enroll_delay L g retry_delay retry_time) := by
  intro s
  by_cases h0 : retry_delay = 0 <;> by_cases h1 : retry_time = 0 <;>
    by_cases h2 : retry_time ≤ (L Call.time s).1.ret <;>
    by_cases h3 : retry_time ≤ 120 + (L Call.time s).1.ret <;>
    cases hv : truthy g.verbose <;>
    simp [retry_enroll_delay, h0, h1, h2, h3, hv, seq_apply, Prog.seq, pure_apply,
      call_apply, whenC, Prog.ret, isSleep]

theorem retry_after_step_quiet {σ : Type} (L : Lib σ) (g : Globals) {p : Event → Bool}
    (hc : ∀ c r, isSubmission (Event.call c r) = false → p (Event.call c r) = false) :
    Bounded p 0 (retry_after_step L g) := by
  unfold retry_after_step
  repeat' first
    | exact bounded_pure p _
    | exact bounded_call_zero L _ (fun _ => hc _ _ rfl)
    | exact retry_enroll_delay_quiet L g hc _ _
    | apply bounded_seq_zero
    | apply bounded_whenC
    | apply bounded_ite
    | intro _

theorem retry_after_step_sleeps {σ : Type} (L : Lib σ) (g : Globals) :
    Bounded isSleep 1 (retry_after_step L g) := by
  unfold retry_after_step
  apply bounded_seq_zero_left (bounded_call_zero L _ (fun _ => rfl))
  intro r
  apply bounded_seq_zero_left
  · apply bounded_whenC
    apply bounded_seq_zero (bounded_call_zero L _ (fun _ => rfl))
    intro _
    exact bounded_pure _ _
  intro _
  apply bounded_whenC
  apply bounded_seq_zero_right (retry_enroll_delay_sleeps L g _ _)
  intro _
  exact bounded_pure _ _

/-- Apart from the submission, an enrollment attempt makes only plain calls. -/
theorem simple_enroll_attempt_body_quiet {σ : Type} (L : Lib σ) (g : Globals)
    {p : Event → Bool} (hp : ∀ e, plain e = true → p e = false)
    (hs : ∀ c r, isSleep (Event.call c r) = false → p (Event.call c r) = false) :
    Bounded p 0 (simple_enroll_attempt_body L g) := by
  unfold simple_enroll_attempt_body
  repeat' first
    | exact bounded_pure p _
    | exact bounded_call_zero L _ (fun _ => hs _ _ rfl)
    | exact read_csr_plain L hp _
    | exact retrieve_and_save_plain L g hp _
    | apply bounded_seq_zero
    | apply bounded_whenC
    | apply bounded_ite
    | split
    | intro _

theorem simple_enroll_attempt_body_submissions {σ : Type} (L : Lib σ) (g : Globals) :
    Bounded isSubmission 1 (simple_enroll_attempt_body L g) := by
  have hp : ∀ e, plain e = true → isSubmission e = false := plain_not_submission
  unfold simple_enroll_attempt_body
  apply bounded_seq_zero_left
  · repeat' first
      | exact bounded_pure _ _
      | exact bounded_call_zero L _ (fun _ => rfl)
      | apply bounded_seq_zero
      | apply bounded_whenC
      | intro _
  intro _
  apply bounded_seq_zero_right
  · apply bounded_ite
    · apply bounded_seq_zero_left (read_csr_plain L hp _)
      intro csr
      split
      · exact bounded_mono (bounded_pure _ _) (Nat.zero_le 1)
      · apply bounded_seq_zero_right (bounded_call_one _ L _)
        intro _
        apply bounded_seq_zero (bounded_call_zero L _ (fun _ => rfl))
        intro _
        exact bounded_pure _ _
    · apply bounded_seq_zero_right (bounded_call_one _ L _)
      intro _
      exact bounded_pure _ _
  · intro x
    repeat' first
      | exact bounded_pure _ _
      | exact bounded_call_zero L _ (fun _ => rfl)
      | exact retrieve_and_save_plain L g hp _
      | apply bounded_seq_zero
      | apply bounded_whenC
      | apply bounded_ite
      | split
      | intro _

theorem regular_enroll_attempt_body_quiet {σ : Type} (L : Lib σ) (g : Globals) (fuel : Nat)
    {p : Event → Bool} (hp : ∀ e, plain e = true → p e = false)
    (hs : ∀ c r, isSleep (Event.call c r) = false → p (Event.call c r) = false) :
    Bounded p 0 (regular_enroll_attempt_body L g fuel) := by
  unfold regular_enroll_attempt_body
  repeat' first
    | exact bounded_pure p _
    | exact bounded_call_zero L _ (fun _ => hs _ _ rfl)
    | exact populate_x509_csr_plain L hp _ _
    | exact attribute_loop_quiet L (fun c r h _ => hs c r h) _ _ _ _ _
    | exact retrieve_and_save_plain L g hp _
    | apply bounded_seq_zero
    | apply bounded_whenC
    | apply bounded_ite
    | split
    | intro _

theorem regular_enroll_attempt_body_submissions {σ : Type} (L : Lib σ) (g : Globals)
    (fuel : Nat) : Bounded isSubmission 1 (regular_enroll_attempt_body L g fuel) := by
  have hp : ∀ e, plain e = true → isSubmission e = false := plain_not_submission
  unfold regular_enroll_attempt_body
  apply bounded_seq_zero_left (bounded_call_zero L _ (fun _ => rfl))
  intro a
  apply bounded_ite
  · apply bounded_seq_zero_left (bounded_call_zero L _ (fun _ => rfl))
    intro _
    exact bounded_mono (bounded_pure _ _) (Nat.zero_le 1)
  apply bounded_seq_zero_left (bounded_call_zero L _ (fun _ => rfl))
  intro q
  split
  · apply bounded_seq_zero_left (bounded_call_zero L _ (fun _ => rfl))
    intro _
    exact bounded_mono (bounded_pure _ _) (Nat.zero_le 1)
  apply bounded_seq_zero_left (populate_x509_csr_plain L hp _ _)
  intro pr
  apply bounded_ite
  · apply bounded_seq_zero_left (bounded_call_zero L _ (fun _ => rfl))
    intro _
    exact bounded_mono (bounded_pure _ _) (Nat.zero_le 1)
  apply bounded_seq_zero_left (bounded_call_zero L _ (fun _ => rfl))
  intro d
  apply bounded_ite
  · apply bounded_seq_zero_left (bounded_call_zero L _ (fun _ => rfl))
    intro _
    exact bounded_mono (bounded_pure _ _) (Nat.zero_le 1)
  apply bounded_seq_zero_left (attribute_loop_quiet L (fun _ _ _ h => h) _ _ _ _ _)
  intro _
  apply bounded_seq_zero_left (bounded_call_zero L _ (fun _ => rfl))
  intro _
  apply bounded_seq_zero_right (bounded_call_one _ L _)
  intro e
  repeat' first
    | exact bounded_pure _ _
    | exact bounded_call_zero L _ (fun _ => rfl)
    | exact retrieve_and_save_plain L g hp _
    | apply bounded_seq_zero
    | apply bounded_whenC
    | apply bounded_ite
    | intro _

/-- How often an enrollment attempt emits an event of kind `p`, given how often
its body does: the entry counts at most `a`, the return does not count. -/
theorem simple_enroll_attempt_bounded {σ : Type} (L : Lib σ) (g : Globals)
    {p : Event → Bool} {a k : Nat}
    (henter : Bounded p a (emit (Event.enter "simple_enroll_attempt") : Prog σ Unit))
    (hleave : ∀ rv, p (Event.leave "simple_enroll_attempt" rv) = false)
    (hbody : Bounded p k (simple_enroll_attempt_body L g)) :
    Bounded p (a + k) (simple_enroll_attempt L g) := by
  unfold simple_enroll_attempt
  apply bounded_seq henter
  intro _
  apply bounded_seq_zero_right hbody
  intro rv
  apply bounded_seq_zero (bounded_emit_zero _ (hleave rv))
  intro _
  exact bounded_pure _ _

theorem regular_enroll_attempt_bounded {σ : Type} (L : Lib σ) (g : Globals) (fuel : Nat)
    {p : Event → Bool} {a k : Nat}
    (henter : Bounded p a (emit (Event.enter "regular_enroll_attempt") : Prog σ Unit))
    (hleave : ∀ rv, p (Event.leave "regular_enroll_attempt" rv) = false)
    (hbody : Bounded p k (regular_enroll_attempt_body L g fuel)) :
    Bounded p (a + k) (regular_enroll_attempt L g fuel) := by
  unfold regular_enroll_attempt
  apply bounded_seq henter
  intro _
  apply bounded_seq_zero_right hbody
  intro rv
  apply bounded_seq_zero (bounded_emit_zero _ (hleave rv))
  intro _
  exact bounded_pure _ _

/-- The enroll part of `do_operation` runs at most two attempts around at most
one retry step. -/
theorem do_operation_enroll_bounded {σ : Type} (L : Lib σ) (g : Globals) (fuel : Nat)
    {p : Event → Bool} {a w : Nat}
    (hp : ∀ e, plain e = true → p e = false)
    (hsimple : Bounded p a (simple_enroll_attempt L g))
    (hregular : Bounded p a (regular_enroll_attempt L g fuel))
    (hretry : Bounded p w (retry_after_step L g))
    (st : String × EST_ERROR) :
    Bounded p (a + (w + a)) (do_operation_enroll L g fuel st) := by
  unfold do_operation_enroll
  apply bounded_ite
  · apply bounded_seq hregular
    intro rv
    apply bounded_ite
    · apply bounded_seq hretry
      intro _
      apply bounded_seq_zero_right hregular
      intro _
      exact bounded_pure _ _
    · exact bounded_mono (bounded_pure _ _) (Nat.zero_le _)
  apply bounded_ite
  · apply bounded_seq hsimple
    intro rv
    apply bounded_ite
    · apply bounded_seq hretry
      intro _
      apply bounded_seq_zero_right hsimple
      intro _
      exact bounded_pure _ _
    · exact bounded_mono (bounded_pure _ _) (Nat.zero_le _)
  apply bounded_ite
  · apply bounded_mono _ (Nat.zero_le _)
    apply bounded_seq_zero (regular_csr_attempt_plain L g hp)
    intro _
    exact bounded_pure _ _
  · exact bounded_mono (bounded_pure _ _) (Nat.zero_le _)

theorem do_operation_finish_plain {σ : Type} (L : Lib σ) {p : Event → Bool}
    (hp : ∀ e, plain e = true → p e = false) (st : String × EST_ERROR) :
    Bounded p 0 (do_operation_finish L st) := by
  unfold do_operation_finish
  repeat' first
    | exact bounded_pure _ _
    | exact bounded_call_zero L _ (fun _ => hp _ rfl)
    | apply bounded_seq_zero
    | apply bounded_whenC
    | intro _

/-- Outside its enroll part `do_operation` makes only plain calls. -/
theorem do_operation_bounded {σ : Type} (L : Lib σ) (g : Globals) (fuel : Nat)
    {p : Event → Bool} {k : Nat} (hp : ∀ e, plain e = true → p e = false)
    (henroll : ∀ st, Bounded p k (do_operation_enroll L g fuel st)) :
    Bounded p k (do_operation L g fuel) := by
  unfold do_operation
  apply bounded_seq_zero_left (do_operation_init_plain L g hp)
  intro _
  apply bounded_seq_zero_left (do_operation_getcert_plain L g hp _)
  intro _
  apply bounded_seq_zero_right (henroll _)
  intro _
  apply bounded_seq_zero (do_operation_reenroll_plain L g hp _)
  intro _
  exact do_operation_finish_plain L hp _

/-- The function `do_operation` calls `sleep` at most once. -/
theorem do_operation_sleeps {σ : Type} (L : Lib σ) (g : Globals) (fuel : Nat) :
    Bounded isSleep 1 (do_operation L g fuel) := by
  apply do_operation_bounded L g fuel plain_not_sleep
  intro st
  have h1 : Bounded isSleep (0 + 0) (simple_enroll_attempt L g) :=
    simple_enroll_attempt_bounded L g (bounded_emit_zero _ rfl) (fun _ => rfl)
      (simple_enroll_attempt_body_quiet L g plain_not_sleep (fun _ _ h => h))
  have h2 : Bounded isSleep (0 + 0) (regular_enroll_attempt L g fuel) :=
    regular_enroll_attempt_bounded L g fuel (bounded_emit_zero _ rfl) (fun _ => rfl)
      (regular_enroll_attempt_body_quiet L g fuel plain_not_sleep (fun _ _ h => h))
  exact do_operation_enroll_bounded L g fuel plain_not_sleep h1 h2
    (retry_after_step_sleeps L g) st

/-- The function `do_operation` enters at most two enrollment attempts. -/
theorem do_operation_attempts {σ : Type} (L : Lib σ) (g : Globals) (fuel : Nat) :
    Bounded isAttempt 2 (do_operation L g fuel) := by
  apply do_operation_bounded L g fuel plain_not_attempt
  intro st
  have h1 : Bounded isAttempt (1 + 0) (simple_enroll_attempt L g) :=
    simple_enroll_attempt_bounded L g (bounded_emit_one _ _) (fun _ => rfl)
      (simple_enroll_attempt_body_quiet L g plain_not_attempt (fun _ _ _ => rfl))
  have h2 : Bounded isAttempt (1 + 0) (regular_enroll_attempt L g fuel) :=
    regular_enroll_attempt_bounded L g fuel (bounded_emit_one _ _) (fun _ => rfl)
      (regular_enroll_attempt_body_quiet L g fuel plain_not_attempt (fun _ _ _ => rfl))
  exact do_operation_enroll_bounded L g fuel plain_not_attempt h1 h2
    (retry_after_step_quiet L g (fun _ _ _ => rfl)) st

/-- The function `do_operation` submits at most two requests. -/
theorem do_operation_submissions {σ : Type} (L : Lib σ) (g : Globals) (fuel : Nat) :
    Bounded isSubmission 2 (do_operation L g fuel) := by
  apply do_operation_bounded L g fuel plain_not_submission
  intro st
  have h1 : Bounded isSubmission (0 + 1) (simple_enroll_attempt L g) :=
    simple_enroll_attempt_bounded L g (bounded_emit_zero _ rfl) (fun _ => rfl)
      (simple_enroll_attempt_body_submissions L g)
  have h2 : Bounded isSubmission (0 + 1) (regular_enroll_attempt L g fuel) :=
    regular_enroll_attempt_bounded L g fuel (bounded_emit_zero _ rfl) (fun _ => rfl)
      (regular_enroll_attempt_body_submissions L g fuel)
  exact do_operation_enroll_bounded L g fuel plain_not_submission h1 h2
    (retry_after_step_quiet L g (fun _ _ h => h)) st

/-! ## Following a run through a sequence -/

theorem seq_ok {σ α β : Type} (m : Prog σ α) (f : α → Prog σ β) (s : σ) (a : α)
    (h : (m s).1 = Res.ok a) :
    (m >>= f) s
      = ((f a (m s).2.1).1, (f a (m s).2.1).2.1, (m s).2.2 ++ (f a (m s).2.1).2.2) := by
  rw [seq_apply]
  unfold Prog.seq
  rcases hms : m s with ⟨r, s1, t1⟩
  rw [hms] at h
  simp only at h
  subst h
  rfl

theorem seq_not_ok {σ α β : Type} (m : Prog σ α) (f : α → Prog σ β) (s : σ)
    (h : ∀ a, (m s).1 ≠ Res.ok a) :
    ((m >>= f) s).2.2 = (m s).2.2 ∧ ∀ b, ((m >>= f) s).1 ≠ Res.ok b := by
  rw [seq_apply]
  unfold Prog.seq
  rcases hms : m s with ⟨r, s1, t1⟩
  rw [hms] at h
  cases r with
  | ok a => exact absurd rfl (h a)
  | exited c => exact ⟨rfl, fun b hb => by cases hb⟩
  | timeout => exact ⟨rfl, fun b hb => by cases hb⟩

theorem res_ok_or_not {α : Type} (r : Res α) : (∃ a, r = Res.ok a) ∨ ∀ a, r ≠ Res.ok a := by
  cases r with
  | ok a => exact Or.inl ⟨a, rfl⟩
  | exited c => exact Or.inr (fun a h => by cases h)
  | timeout => exact Or.inr (fun a h => by cases h)

theorem attemptResults_append (t1 t2 : List Event) :
    attemptResults (t1 ++ t2) = attemptResults t1 ++ attemptResults t2 := by
  induction t1 with
  | nil => rfl
  | cons e t ih =>
    cases e with
    | call c r => simpa [attemptResults] using ih
    | enter fn => simpa [attemptResults] using ih
    | leave fn rv =>
      by_cases h : (fn = "simple_enroll_attempt" || fn = "regular_enroll_attempt") = true
      · simp only [List.cons_append, attemptResults, h, if_true]
        exact congrArg (List.cons rv) ih
      · simp only [List.cons_append, attemptResults, h]
        simpa using ih

theorem attemptResults_eq_nil (t : List Event) (h : List.countP isAttemptLeave t = 0) :
    attemptResults t = [] := by
  induction t with
  | nil => rfl
  | cons e t ih =>
    rw [List.countP_cons] at h
    have ht : List.countP isAttemptLeave t = 0 := by omega
    cases e with
    | call c r => simpa [attemptResults] using ih ht
    | enter fn => simpa [attemptResults] using ih ht
    | leave fn rv =>
      have he : isAttemptLeave (Event.leave fn rv) = false := by
        cases hb : isAttemptLeave (Event.leave fn rv)
        · rfl
        · rw [hb] at h
          simp at h
      have hf : ¬ ((fn = "simple_enroll_attempt" || fn = "regular_enroll_attempt") = true) := by
        simpa [isAttemptLeave] using he
      simp only [attemptResults, hf, if_false]
      exact ih ht

theorem bounded_attemptResults {σ α : Type} {m : Prog σ α}
    (h : Bounded isAttemptLeave 0 m) (s : σ) : attemptResults (m s).2.2 = [] :=
  attemptResults_eq_nil _ (Nat.le_zero.mp (h s))

/-- An attempt function records its result when it returns, and only then. -/
theorem wrapped_attempt_results {σ : Type} (fn : String)
    (hfn : (fn = "simple_enroll_attempt" || fn = "regular_enroll_attempt") = true)
    (body : Prog σ EST_ERROR) (hbody : Bounded isAttemptLeave 0 body) (s : σ) :
    (∃ rv, ((emit (Event.enter fn) >>= fun _ => body >>= fun rv =>
              emit (Event.leave fn rv) >>= fun _ => (pure rv : Prog σ EST_ERROR)) s).1
            = Res.ok rv
          ∧ attemptResults
              ((emit (Event.enter fn) >>= fun _ => body >>= fun rv =>
                emit (Event.leave fn rv) >>= fun _ => (pure rv : Prog σ EST_ERROR)) s).2.2
            = [rv])
      ∨ ((∀ rv, ((emit (Event.enter fn) >>= fun _ => body >>= fun rv =>
              emit (Event.leave fn rv) >>= fun _ => (pure rv : Prog σ EST_ERROR)) s).1
            ≠ Res.ok rv)
          ∧ attemptResults
              ((emit (Event.enter fn) >>= fun _ => body >>= fun rv =>
                emit (Event.leave fn rv) >>= fun _ => (pure rv : Prog σ EST_ERROR)) s).2.2
            = []) := by
  have hb := bounded_attemptResults hbody s
  rcases hbs : body s with ⟨r, s1, t1⟩
  rw [hbs] at hb
  simp only at hb
  cases r with
  | ok rv =>
    left
    refine ⟨rv, ?_, ?_⟩
    · simp [seq_apply, Prog.seq, emit, hbs, pure_apply, Prog.ret]
    · simp [seq_apply, Prog.seq, emit, hbs, pure_apply, Prog.ret, attemptResults,
        attemptResults_append, hb, hfn]
  | exited c =>
    right
    refine ⟨?_, ?_⟩
    · simp [seq_apply, Prog.seq, emit, hbs]
    · simp [seq_apply, Prog.seq, emit, hbs, attemptResults, hb]
  | timeout =>
    right
    refine ⟨?_, ?_⟩
    · simp [seq_apply, Prog.seq, emit, hbs]
    · simp [seq_apply, Prog.seq, emit, hbs, attemptResults, hb]

/-- Two attempts around a retry step: when both returned the same code `R`
that triggers the retry, the sequence returns with `R`. -/
theorem retry_sequence_result {σ : Type} (att : Prog σ EST_ERROR) (retry : Prog σ Unit)
    (op : String) (R : EST_ERROR)
    (hatt : ∀ s, (∃ rv, (att s).1 = Res.ok rv ∧ attemptResults (att s).2.2 = [rv])
      ∨ ((∀ rv, (att s).1 ≠ Res.ok rv) ∧ attemptResults (att s).2.2 = []))
    (hretry : ∀ s, attemptResults (retry s).2.2 = []) (s : σ)
    (h : attemptResults
          ((att >>= fun rv =>
            if rv = R then
              retry >>= fun _ => att >>= fun rv2 => (pure (op, rv2) : Prog σ (String × EST_ERROR))
            else pure (op, rv)) s).2.2 = [R, R]) :
    ((att >>= fun rv =>
        if rv = R then
          retry >>= fun _ => att >>= fun rv2 => (pure (op, rv2) : Prog σ (String × EST_ERROR))
        else pure (op, rv)) s).1 = Res.ok (op, R) := by
  rcases hatt s with ⟨rv, hok, hres⟩ | ⟨hno, hres⟩
  · rw [seq_ok _ _ s rv hok] at h ⊢
    simp only [attemptResults_append, hres] at h
    by_cases hrv : rv = R
    · subst hrv
      simp only [if_true] at h ⊢
      rcases res_ok_or_not (retry (att s).2.1).1 with ⟨u, hu⟩ | hu
      · rw [seq_ok _ _ _ u hu] at h ⊢
        simp only [attemptResults_append, hretry] at h
        rcases hatt (retry (att s).2.1).2.1 with ⟨rv2, hok2, hres2⟩ | ⟨hno2, hres2⟩
        · rw [seq_ok _ _ _ rv2 hok2] at h ⊢
          simp only [attemptResults_append, hres2, pure_apply, attemptResults] at h
          simp only [pure_apply]
          simp at h
          rw [h]
        · have h2 := (seq_not_ok att
            (fun rv2 => (pure (op, rv2) : Prog σ (String × EST_ERROR)))
            (retry (att s).2.1).2.1 hno2).1
          rw [h2, hres2] at h
          simp at h
      · have h2 := (seq_not_ok retry
          (fun _ => att >>= fun rv2 => (pure (op, rv2) : Prog σ (String × EST_ERROR)))
          (att s).2.1 hu).1
        rw [h2, hretry] at h
        simp at h
    · simp only [hrv, if_false, pure_apply, attemptResults] at h
      simp at h
  · have h2 := (seq_not_ok att
      (fun rv =>
        if rv = R then
          retry >>= fun _ => att >>= fun rv2 => (pure (op, rv2) : Prog σ (String × EST_ERROR))
        else pure (op, rv)) s hno).1
    rw [h2, hres] at h
    simp at h

theorem simple_enroll_attempt_results {σ : Type} (L : Lib σ) (g : Globals) (s : σ) :
    (∃ rv, (simple_enroll_attempt L g s).1 = Res.ok rv
        ∧ attemptResults (simple_enroll_attempt L g s).2.2 = [rv])
      ∨ ((∀ rv, (simple_enroll_attempt L g s).1 ≠ Res.ok rv)
        ∧ attemptResults (simple_enroll_attempt L g s).2.2 = []) :=
  wrapped_attempt_results "simple_enroll_attempt" rfl (simple_enroll_attempt_body L g)
    (simple_enroll_attempt_body_quiet L g plain_not_attempt_leave (fun _ _ _ => rfl)) s

theorem regular_enroll_attempt_results {σ : Type} (L : Lib σ) (g : Globals) (fuel : Nat)
    (s : σ) :
    (∃ rv, (regular_enroll_attempt L g fuel s).1 = Res.ok rv
        ∧ attemptResults (regular_enroll_attempt L g fuel s).2.2 = [rv])
      ∨ ((∀ rv, (regular_enroll_attempt L g fuel s).1 ≠ Res.ok rv)
        ∧ attemptResults (regular_enroll_attempt L g fuel s).2.2 = []) :=
  wrapped_attempt_results "regular_enroll_attempt" rfl (regular_enroll_attempt_body L g fuel)
    (regular_enroll_attempt_body_quiet L g fuel plain_not_attempt_leave (fun _ _ _ => rfl)) s

/-- When both attempts of the enroll part returned the retry code, the part
returns with the retry code and the name of the enrollment operation. -/
theorem do_operation_enroll_retry_twice {σ : Type} (L : Lib σ) (g : Globals) (fuel : Nat)
    (st : String × EST_ERROR) (s : σ)
    (h : attemptResults (do_operation_enroll L g fuel st s).2.2
          = [EST_ERROR.EST_ERR_CA_ENROLL_RETRY, EST_ERROR.EST_ERR_CA_ENROLL_RETRY]) :
    (do_operation_enroll L g fuel st s).1
      = Res.ok (if truthy g.getcsr
          then "Regular enrollment with server-defined attributes"
          else "Simple enrollment without server-defined attributes",
          EST_ERROR.EST_ERR_CA_ENROLL_RETRY) := by
  have hretry : ∀ s, attemptResults (retry_after_step L g s).2.2 = [] :=
    fun s => bounded_attemptResults (retry_after_step_quiet L g (fun _ _ _ => rfl)) s
  unfold do_operation_enroll at h ⊢
  cases he : truthy g.enroll <;> cases hc : truthy g.getcsr
  · simp only [he, hc, Bool.and_self, Bool.false_and, Bool.not_false, Bool.and_false,
      Bool.false_eq_true, if_false, pure_apply, attemptResults] at h
    simp at h
  · simp only [he, hc, Bool.and_self, Bool.false_and, Bool.not_false, Bool.not_true,
      Bool.and_false, Bool.and_true, Bool.true_and, Bool.false_eq_true, if_false,
      if_true] at h
    have h0 := bounded_attemptResults
      (bounded_seq_zero (regular_csr_attempt_plain L g plain_not_attempt_leave)
        (fun rv => bounded_pure isAttemptLeave ("Get CSR attribues", rv))) s
    rw [h0] at h
    simp at h
  · simp only [he, hc, Bool.and_self, Bool.false_and, Bool.not_false, Bool.not_true,
      Bool.and_false, Bool.and_true, Bool.true_and, Bool.false_eq_true, if_false,
      if_true] at h ⊢
    exact retry_sequence_result (simple_enroll_attempt L g) (retry_after_step L g) _ _
      (simple_enroll_attempt_results L g) hretry s h
  · simp only [he, hc, Bool.and_self, if_true] at h ⊢
    exact retry_sequence_result (regular_enroll_attempt L g fuel) (retry_after_step L g) _ _
      (regular_enroll_attempt_results L g fuel) hretry s h

/-- The end of `do_operation` on a failure code: the failure is reported with
the operation name and the code, and the code is returned. -/
theorem do_operation_finish_failure {σ : Type} (L : Lib σ) (op : String) (rv : EST_ERROR)
    (hrv : rv ≠ EST_ERROR.EST_ERR_NONE) (s : σ) :
    (do_operation_finish L (op, rv) s).1 = Res.ok rv
      ∧ ∃ r, Event.call (failure_report op rv) r ∈ (do_operation_finish L (op, rv) s).2.2 := by
  constructor
  · simp [do_operation_finish, hrv, seq_apply, Prog.seq, pure_apply, call_apply, whenC,
      Prog.ret]
  · refine ⟨(L (failure_report op rv) s).1, ?_⟩
    simp [do_operation_finish, hrv, seq_apply, Prog.seq, pure_apply, call_apply, whenC,
      Prog.ret]

/-! ## The attribute loop -/

theorem addedAttributes_append (t1 t2 : List Event) :
    addedAttributes (t1 ++ t2) = addedAttributes t1 ++ addedAttributes t2 := by
  simp [addedAttributes]

theorem extractedNids_append (t1 t2 : List Event) :
    extractedNids (t1 ++ t2) = extractedNids t1 ++ extractedNids t2 := by
  simp [extractedNids]

theorem no_attribute_calls (t : List Event) (h : List.countP isAttributeCall t = 0) :
    addedAttributes t = [] ∧ extractedNids t = [] := by
  induction t with
  | nil => exact ⟨rfl, rfl⟩
  | cons e t ih =>
    rw [List.countP_cons] at h
    have ht : List.countP isAttributeCall t = 0 := by omega
    have he : isAttributeCall e = false := by
      cases hb : isAttributeCall e
      · rfl
      · rw [hb] at h
        simp at h
    have h1 : addedAttribute e = none := by
      cases e with
      | call c r => cases c <;> first | rfl | simp [isAttributeCall] at he
      | enter fn => rfl
      | leave fn rv => rfl
    have h2 : extractedNid e = none := by
      cases e with
      | call c r => cases c <;> first | rfl | simp [isAttributeCall] at he
      | enter fn => rfl
      | leave fn rv => rfl
    obtain ⟨ia, ix⟩ := ih ht
    constructor
    · simpa [addedAttributes, h1] using ia
    · simpa [extractedNids, h2] using ix

theorem balanced_of_bounded {σ α : Type} {m : Prog σ α}
    (h : Bounded isAttributeCall 0 m) : Balanced m := by
  intro s
  obtain ⟨h1, h2⟩ := no_attribute_calls _ (Nat.le_zero.mp (h s))
  rw [h1, h2]
  rfl

theorem balanced_seq {σ α β : Type} {m : Prog σ α} {f : α → Prog σ β}
    (h1 : Balanced m) (h2 : ∀ a, Balanced (f a)) : Balanced (m >>= f) := by
  intro s
  rcases res_ok_or_not (m s).1 with ⟨a, ha⟩ | hn
  · rw [seq_ok m f s a ha]
    simp only [addedAttributes_append, extractedNids_append, List.filterMap_append,
      h1 s, h2 a (m s).2.1]
  · rw [(seq_not_ok m f s hn).1]
    exact h1 s

theorem balanced_ite {σ α : Type} (c : Prop) [Decidable c] {m1 m2 : Prog σ α}
    (h1 : Balanced m1) (h2 : Balanced m2) : Balanced (if c then m1 else m2) := by
  split
  · exact h1
  · exact h2

/-- The test after the `switch` only prints. -/
theorem add_attribute_report_events {σ : Type} (L : Lib σ) (b : Bool) (n : Int)
    (rv : EST_ERROR) (s : σ) :
    addedAttributes
        ((whenC b (call L (Call.printf "\n Error adding NID=%d" [Arg.int n]) >>= fun _ =>
            (pure PUnit.unit : Prog σ PUnit)) >>= fun _ => (pure rv : Prog σ EST_ERROR)) s).2.2
        = []
      ∧ extractedNids
        ((whenC b (call L (Call.printf "\n Error adding NID=%d" [Arg.int n]) >>= fun _ =>
            (pure PUnit.unit : Prog σ PUnit)) >>= fun _ => (pure rv : Prog σ EST_ERROR)) s).2.2
        = [] := by
  apply no_attribute_calls
  apply Nat.le_zero.mp
  revert s
  show Bounded isAttributeCall 0 _
  repeat' first
    | exact bounded_pure _ _
    | exact bounded_call_zero L _ (fun _ => rfl)
    | apply bounded_seq_zero
    | apply bounded_whenC
    | intro _

/-- The `switch` hands to `est_add_attributes_helper` what the policy names for
the NID, and extracts nothing. -/
theorem add_attribute_events {σ : Type} (L : Lib σ) (csr : Nat) (nid : Int) (s : σ) :
    addedAttributes (add_attribute L csr nid s).2.2 = (attribute_policy nid).toList
      ∧ extractedNids (add_attribute L csr nid s).2.2 = [] := by
  unfold add_attribute
  by_cases h1 : nid = NID_commonName
  · simp only [h1, if_true]
    rw [seq_ok _ _ s _ rfl]
    simp only [addedAttributes_append, extractedNids_append]
    rw [(add_attribute_report_events L _ _ _ _).1, (add_attribute_report_events L _ _ _ _).2]
    simp [seq_apply, Prog.seq, Prog.ret, call_apply, pure_apply, addedAttributes, addedAttribute,
      extractedNids, extractedNid, attribute_policy]
  · by_cases h2 : nid = NID_pkcs9_emailAddress
    · simp only [h1, h2, if_true, if_false]
      rw [seq_ok _ _ s _ rfl]
      simp only [addedAttributes_append, extractedNids_append]
      rw [(add_attribute_report_events L _ _ _ _).1,
        (add_attribute_report_events L _ _ _ _).2]
      simp [seq_apply, Prog.seq, Prog.ret, call_apply, pure_apply, addedAttributes, addedAttribute,
        extractedNids, extractedNid, attribute_policy, NID_pkcs9_emailAddress,
        NID_commonName]
    · by_cases h3 : nid = NID_undef
      · simp only [h1, h2, h3, if_true, if_false]
        rw [seq_ok _ _ s _ rfl]
        simp only [addedAttributes_append, extractedNids_append]
        rw [(add_attribute_report_events L _ _ _ _).1,
          (add_attribute_report_events L _ _ _ _).2]
        simp [seq_apply, Prog.seq, Prog.ret, call_apply, pure_apply, addedAttributes, addedAttribute,
          extractedNids, extractedNid, attribute_policy, NID_pkcs9_emailAddress,
          NID_commonName, NID_undef]
      · simp only [h1, h2, h3, if_false]
        rw [seq_ok _ _ s _ rfl]
        simp only [addedAttributes_append, extractedNids_append]
        rw [(add_attribute_report_events L _ _ _ _).1,
          (add_attribute_report_events L _ _ _ _).2]
        simp [seq_apply, Prog.seq, Prog.ret, call_apply, pure_apply, addedAttributes, addedAttribute,
          extractedNids, extractedNid, attribute_policy, h1, h2, h3]

theorem filterMap_policy_cons (nid : Int) (xs : List Int) :
    (nid :: xs).filterMap attribute_policy
      = (attribute_policy nid).toList ++ xs.filterMap attribute_policy := by
  cases h : attribute_policy nid <;> simp [List.filterMap_cons, h]

/-- The loop hands over, in order, what the policy names for each NID that it
extracted successfully, and nothing else. -/
theorem attribute_loop_balanced {σ : Type} (L : Lib σ) (csr : Nat) (fuel : Nat) :
    ∀ (der_ptr : Nat) (der_len : Int) (rv : EST_ERROR),
      Balanced (attribute_loop L csr fuel der_ptr der_len rv) := by
  induction fuel with
  | zero =>
    intro der_ptr der_len rv s
    unfold attribute_loop
    split <;> rfl
  | succ n ih =>
    intro der_ptr der_len rv s
    unfold attribute_loop
    split
    · rw [seq_ok _ _ s (L (Call.est_get_attributes_helper der_ptr der_len) s).1 rfl]
      generalize hr : (L (Call.est_get_attributes_helper der_ptr der_len) s).1 = r
      have hs1 : (call L (Call.est_get_attributes_helper der_ptr der_len) s).2.1
          = (L (Call.est_get_attributes_helper der_ptr der_len) s).2 := rfl
      have hev : (call L (Call.est_get_attributes_helper der_ptr der_len) s).2.2
          = [Event.call (Call.est_get_attributes_helper der_ptr der_len) r] := by
        rw [← hr]
        rfl
      rw [hs1, hev]
      generalize (L (Call.est_get_attributes_helper der_ptr der_len) s).2 = s1
      simp only [addedAttributes_append, extractedNids_append]
      by_cases hrv : r.rv = EST_ERROR.EST_ERR_NONE
      · simp only [hrv, if_true]
        have hget : extractedNids [Event.call (Call.est_get_attributes_helper der_ptr der_len) r]
            = [r.nid] := by
          simp [extractedNids, extractedNid, hrv]
        have hadd0 : addedAttributes
            [Event.call (Call.est_get_attributes_helper der_ptr der_len) r] = [] := rfl
        rw [hget, hadd0]
        obtain ⟨ha, hx⟩ := add_attribute_events L csr r.nid s1
        rcases res_ok_or_not (add_attribute L csr r.nid s1).1 with ⟨rv1, hok⟩ | hno
        · rw [seq_ok _ _ s1 rv1 hok]
          simp only [addedAttributes_append, extractedNids_append, ha, hx,
            ih r.der_ptr r.len rv1 (add_attribute L csr r.nid s1).2.1, List.nil_append,
            List.singleton_append, filterMap_policy_cons]
        · rw [(seq_not_ok _ _ s1 hno).1, ha, hx]
          simp [filterMap_policy_cons]
      · simp only [hrv, if_false]
        have hget : extractedNids [Event.call (Call.est_get_attributes_helper der_ptr der_len) r]
            = [] := by
          simp [extractedNids, extractedNid, hrv]
        have hadd0 : addedAttributes
            [Event.call (Call.est_get_attributes_helper der_ptr der_len) r] = [] := rfl
        rw [hget, hadd0]
        simpa using ih r.der_ptr r.len r.rv s1
    · rfl

theorem balanced_pure {σ α : Type} (a : α) : Balanced (pure a : Prog σ α) :=
  balanced_of_bounded (bounded_pure _ a)

theorem balanced_call_zero {σ : Type} (L : Lib σ) (c : Call)
    (hc : ∀ r, isAttributeCall (Event.call c r) = false) : Balanced (call L c) :=
  balanced_of_bounded (bounded_call_zero L c hc)

theorem balanced_emit {σ : Type} (e : Event) (he : isAttributeCall e = false) :
    Balanced (emit e : Prog σ Unit) :=
  balanced_of_bounded (bounded_emit_zero e he)

theorem balanced_whenC {σ : Type} (b : Bool) {m : Prog σ Unit} (h : Balanced m) :
    Balanced (whenC b m) := by
  cases b
  · exact balanced_of_bounded (bounded_ret _ ())
  · exact h

theorem populate_x509_csr_balanced {σ : Type} (L : Lib σ) (req : Nat) (cn : String) :
    Balanced (populate_x509_csr L req cn) :=
  balanced_of_bounded (populate_x509_csr_plain L plain_not_attribute_call req cn)

theorem retrieve_and_save_balanced {σ : Type} (L : Lib σ) (g : Globals) (pkcs7_len : Int) :
    Balanced (retrieve_and_save L g pkcs7_len) :=
  balanced_of_bounded (retrieve_and_save_plain L g plain_not_attribute_call pkcs7_len)

theorem regular_enroll_attempt_body_balanced {σ : Type} (L : Lib σ) (g : Globals)
    (fuel : Nat) : Balanced (regular_enroll_attempt_body L g fuel) := by
  unfold regular_enroll_attempt_body
  repeat' first
    | exact balanced_pure _
    | exact balanced_call_zero L _ (fun _ => rfl)
    | exact attribute_loop_balanced L _ fuel _ _ _
    | exact populate_x509_csr_balanced L _ _
    | exact retrieve_and_save_balanced L g _
    | apply balanced_seq
    | apply balanced_whenC
    | apply balanced_ite
    | split
    | intro _

theorem regular_enroll_attempt_balanced {σ : Type} (L : Lib σ) (g : Globals)
    (fuel : Nat) : Balanced (regular_enroll_attempt L g fuel) := by
  unfold regular_enroll_attempt
  repeat' first
    | exact regular_enroll_attempt_body_balanced L g fuel
    | exact balanced_pure _
    | exact balanced_emit _ rfl
    | apply balanced_seq
    | intro _

/-! ## Directives in the directive environment -/

theorem add_attribute_directiveLib (csr : Nat) (nid : Int) (s : List Int) :
    (add_attribute directiveLib csr nid s).1 = Res.ok EST_ERROR.EST_ERR_NONE
      ∧ (add_attribute directiveLib csr nid s).2.1 = s := by
  by_cases h1 : nid = NID_commonName
  · simp [add_attribute, h1, seq_apply, Prog.seq, Prog.ret, call_apply, pure_apply, whenC,
      directiveLib, Reply.zero]
  · by_cases h2 : nid = NID_pkcs9_emailAddress
    · simp [add_attribute, h2, seq_apply, Prog.seq, Prog.ret, call_apply, pure_apply,
        whenC, directiveLib, Reply.zero, NID_pkcs9_emailAddress, NID_commonName]
    · by_cases h3 : nid = NID_undef
      · simp [add_attribute, h3, seq_apply, Prog.seq, Prog.ret, call_apply,
          pure_apply, whenC, directiveLib, Reply.zero, NID_pkcs9_emailAddress,
          NID_commonName, NID_undef]
      · simp [add_attribute, h1, h2, h3, seq_apply, Prog.seq, Prog.ret, call_apply,
          pure_apply, whenC, directiveLib, Reply.zero]

/-- In the directive environment the loop, given as much fuel as the directive
has NIDs, returns after extracting exactly the NIDs of the directive. -/
theorem attribute_loop_directiveLib (csr : Nat) (nids : List Int) :
    ∀ (fuel der_ptr : Nat) (rv : EST_ERROR), nids.length ≤ fuel →
      (∃ rv1, (attribute_loop directiveLib csr fuel der_ptr nids.length rv nids).1
          = Res.ok rv1)
        ∧ (attribute_loop directiveLib csr fuel der_ptr nids.length rv nids).2.1 = []
        ∧ extractedNids (attribute_loop directiveLib csr fuel der_ptr nids.length rv nids).2.2
          = nids := by
  induction nids with
  | nil =>
    intro fuel der_ptr rv _
    cases fuel <;> simp [attribute_loop, pure_apply, extractedNids]
  | cons n ns ih =>
    intro fuel der_ptr rv hfuel
    cases fuel with
    | zero => simp at hfuel
    | succ f =>
      have hf : ns.length ≤ f := by simpa using hfuel
      have hlen : ((n :: ns).length : Int) ≠ 0 := by simp; omega
      unfold attribute_loop
      simp only [hlen, ne_eq, not_false_eq_true, if_true]
      rw [seq_ok _ _ (n :: ns) _ rfl]
      have hcall : call directiveLib (Call.est_get_attributes_helper der_ptr
            ((n :: ns).length : Int)) (n :: ns)
          = (Res.ok { Reply.zero with nid := n, len := ns.length }, ns,
              [Event.call (Call.est_get_attributes_helper der_ptr ((n :: ns).length : Int))
                { Reply.zero with nid := n, len := ns.length }]) := rfl
      simp only [hcall, Reply.zero, if_true]
      obtain ⟨hok, hst⟩ := add_attribute_directiveLib csr n ns
      obtain ⟨_, hx⟩ := add_attribute_events directiveLib csr n ns
      rw [seq_ok _ _ ns _ hok]
      simp only [hst, extractedNids_append, hx]
      obtain ⟨h1, h2, h3⟩ := ih f 0 EST_ERROR.EST_ERR_NONE hf
      refine ⟨h1, h2, ?_⟩
      rw [h3]
      simp [extractedNids, extractedNid]

/-- In the directive environment an attempt with as much fuel as the directive
has NIDs returns, with the refusal of the server, after extracting exactly the
NIDs of the directive. -/
theorem regular_enroll_attempt_directiveLib (g : Globals) (nids : List Int) :
    (regular_enroll_attempt directiveLib g nids.length).result nids
        = Res.ok (EST_ERROR.other 1)
      ∧ extractedNids ((regular_enroll_attempt directiveLib g nids.length).events nids)
        = nids := by
  obtain ⟨⟨rv1, h1⟩, h2, h3⟩ :=
    attribute_loop_directiveLib 1 nids nids.length 0 EST_ERROR.EST_ERR_NONE (Nat.le_refl _)
  rcases hloop : attribute_loop directiveLib 1 nids.length 0 nids.length
    EST_ERROR.EST_ERR_NONE nids with ⟨r, s1, t⟩
  rw [hloop] at h1 h2 h3
  simp only at h1 h2 h3
  subst h1 h2
  cases hv : truthy g.verbose <;>
    simp [Prog.result, Prog.events, regular_enroll_attempt, regular_enroll_attempt_body,
      populate_x509_csr, seq_apply, Prog.seq, Prog.ret, call_apply, pure_apply, emit, whenC,
      directiveLib, Reply.zero, hloop, hv, extractedNids_append, h3] <;>
    simp [extractedNids, extractedNid] <;>
    exact h3

/-! ## The retry wait -/

/-- C1. For every positive `int` value of `retry_delay`, `retry_enroll_delay`
takes the `WaitThen retry_delay` arm: it returns after exactly one `sleep`, of
`retry_delay` seconds, never reads the clock, and the whole run is the same
for any two values of `retry_time`. -/
theorem retry_enroll_delay_positive_delay {σ : Type} (L : Lib σ) (g : Globals) (s : σ)
    (retry_delay retry_time : Int) (hpos : 0 < retry_delay)
    (hint : retry_delay ≤ 2147483647) :
    (retry_enroll_delay L g retry_delay retry_time).result s
        = Res.ok (Decision.WaitThen retry_delay.toNat)
      ∧ sleeps ((retry_enroll_delay L g retry_delay retry_time).events s)
          = [retry_delay.toNat]
      ∧ ((retry_enroll_delay L g retry_delay retry_time).events s).all
          (fun e => !isTime e) = true
      ∧ ∀ retry_time2 : Int,
          retry_enroll_delay L g retry_delay retry_time2 s
            = retry_enroll_delay L g retry_delay retry_time s := by
  have hne : retry_delay ≠ 0 := by omega
  have hu : toUnsigned retry_delay = retry_delay.toNat := by
    unfold toUnsigned
    congr 1
    omega
  cases hv : truthy g.verbose <;>
    simp [Prog.result, Prog.events, retry_enroll_delay, hne, hu, hv, seq_apply, Prog.seq,
      pure_apply, call_apply, whenC, Prog.ret, sleeps, isTime]

/-- Witness of C1: a server delay of 5 seconds. -/
theorem retry_enroll_delay_positive_delay_witness :
    (0 : Int) < 5 ∧ (5 : Int) ≤ 2147483647
      ∧ (retry_enroll_delay scripted quietEnroll 5 0).result []
          = Res.ok (Decision.WaitThen 5)
      ∧ sleeps ((retry_enroll_delay scripted quietEnroll 5 0).events []) = [5] :=
  ⟨by decide, by decide,
    (retry_enroll_delay_positive_delay scripted quietEnroll [] 5 0 (by decide) (by decide)).1,
    (retry_enroll_delay_positive_delay scripted quietEnroll [] 5 0 (by decide) (by decide)).2.1⟩

/-- C2. With `retry_delay = 0` and a non-zero `retry_time` that lies between 1
and 120 seconds (120 included) after the clock value `time` returns,
`retry_enroll_delay` takes the `WaitThen (retry_time - now)` arm: it returns
after exactly one `sleep`, of `retry_time - now` seconds. -/
theorem retry_enroll_delay_within_two_minutes {σ : Type} (L : Lib σ) (g : Globals) (s : σ)
    (retry_time : Int) (hset : retry_time ≠ 0)
    (hlo : 0 < retry_time - (L Call.time s).1.ret)
    (hhi : retry_time - (L Call.time s).1.ret ≤ 120) :
    (retry_enroll_delay L g 0 retry_time).result s
        = Res.ok (Decision.WaitThen (retry_time - (L Call.time s).1.ret).toNat)
      ∧ sleeps ((retry_enroll_delay L g 0 retry_time).events s)
          = [(retry_time - (L Call.time s).1.ret).toNat] := by
  have h1 : ¬ (retry_time ≤ (L Call.time s).1.ret) := by omega
  have h2 : retry_time ≤ 120 + (L Call.time s).1.ret := by omega
  cases hv : truthy g.verbose <;>
    simp [Prog.result, Prog.events, retry_enroll_delay, hset, h1, h2, hv, seq_apply,
      Prog.seq, pure_apply, call_apply, whenC, Prog.ret, sleeps]

/-- A clock reading of 1000 followed by zero replies. -/
def clockAt1000 : List Reply := [{ Reply.zero with ret := 1000 }]

/-- Witness of C2: the clock reads 1000 and the server names second 1090, so
the client sleeps 90 seconds. -/
theorem retry_enroll_delay_within_two_minutes_witness :
    (1090 : Int) ≠ 0
      ∧ (retry_enroll_delay scripted quietEnroll 0 1090).result clockAt1000
          = Res.ok (Decision.WaitThen 90)
      ∧ sleeps ((retry_enroll_delay scripted quietEnroll 0 1090).events clockAt1000) = [90] :=
  ⟨by decide,
    retry_enroll_delay_within_two_minutes scripted quietEnroll clockAt1000 1090
      (by decide) (by decide) (by decide)⟩

/-- C3. With `retry_delay = 0` and a non-zero `retry_time` more than 120
seconds after the clock value, `retry_enroll_delay` takes an `Abort` arm: it
calls `sleep` not at all, and the last thing it does is print the absolute
time received from the server. -/
theorem retry_enroll_delay_beyond_two_minutes {σ : Type} (L : Lib σ) (g : Globals) (s : σ)
    (retry_time : Int) (hset : retry_time ≠ 0)
    (hfar : 120 < retry_time - (L Call.time s).1.ret) :
    (retry_enroll_delay L g 0 retry_time).result s = Res.ok Decision.Abort
      ∧ sleeps ((retry_enroll_delay L g 0 retry_time).events s) = []
      ∧ ∃ r : Reply,
          ((retry_enroll_delay L g 0 retry_time).events s).getLast?
            = some (Event.call
                (Call.printf " Delay time received from the server is: %s \n"
                  [Arg.ctime retry_time]) r) := by
  have h1 : ¬ (retry_time ≤ (L Call.time s).1.ret) := by omega
  have h2 : ¬ (retry_time ≤ 120 + (L Call.time s).1.ret) := by omega
  cases hv : truthy g.verbose <;>
    simp [Prog.result, Prog.events, retry_enroll_delay, hset, h1, h2, hv, seq_apply,
      Prog.seq, pure_apply, call_apply, whenC, Prog.ret, sleeps]

/-- Witness of C3: the clock reads 1000 and the server names second 1500. -/
theorem retry_enroll_delay_beyond_two_minutes_witness :
    (1500 : Int) ≠ 0
      ∧ (retry_enroll_delay scripted quietEnroll 0 1500).result clockAt1000
          = Res.ok Decision.Abort
      ∧ sleeps ((retry_enroll_delay scripted quietEnroll 0 1500).events clockAt1000) = [] :=
  ⟨by decide,
    (retry_enroll_delay_beyond_two_minutes scripted quietEnroll clockAt1000 1500
      (by decide) (by decide)).1,
    (retry_enroll_delay_beyond_two_minutes scripted quietEnroll clockAt1000 1500
      (by decide) (by decide)).2.1⟩

/-- C4. With `retry_delay = 0` and `retry_time = 0`, in every state of the
world, `retry_enroll_delay` takes the `Abort` arm for an invalid directive: it
neither sleeps nor reads the clock, and all it does is print, in verbose mode,
that both retry-after values are zero. -/
theorem retry_enroll_delay_both_zero {σ : Type} (L : Lib σ) (g : Globals) (s : σ) :
    (retry_enroll_delay L g 0 0).result s = Res.ok Decision.Abort
      ∧ sleeps ((retry_enroll_delay L g 0 0).events s) = []
      ∧ ((retry_enroll_delay L g 0 0).events s).all (fun e => !isTime e) = true
      ∧ ((retry_enroll_delay L g 0 0).events s).map
          (fun e => match e with
            | Event.call c _ => some c
            | _ => none)
          = if truthy g.verbose
            then [some (Call.printf "\nERROR: both retry after values returned are zero\n" [])]
            else [] := by
  cases hv : truthy g.verbose <;>
    simp [Prog.result, Prog.events, retry_enroll_delay, hv, seq_apply,
      Prog.seq, pure_apply, call_apply, whenC, Prog.ret, sleeps, isTime]

/-- C5. With `retry_delay = 0` and a non-zero `retry_time` that is not after
the clock value (equal included), `retry_enroll_delay` takes the
`ProceedImmediately` arm: it returns without calling `sleep`. -/
theorem retry_enroll_delay_in_the_past {σ : Type} (L : Lib σ) (g : Globals) (s : σ)
    (retry_time : Int) (hset : retry_time ≠ 0)
    (hpast : retry_time - (L Call.time s).1.ret ≤ 0) :
    (retry_enroll_delay L g 0 retry_time).result s = Res.ok Decision.ProceedImmediately
      ∧ sleeps ((retry_enroll_delay L g 0 retry_time).events s) = [] := by
  have h1 : retry_time ≤ (L Call.time s).1.ret := by omega
  cases hv : truthy g.verbose <;>
    simp [Prog.result, Prog.events, retry_enroll_delay, hset, h1, hv, seq_apply,
      Prog.seq, pure_apply, call_apply, whenC, Prog.ret, sleeps]

/-- Witness of C5: the clock reads 1000 and the server names second 990. -/
theorem retry_enroll_delay_in_the_past_witness :
    (990 : Int) ≠ 0
      ∧ (retry_enroll_delay scripted quietEnroll 0 990).result clockAt1000
          = Res.ok Decision.ProceedImmediately
      ∧ sleeps ((retry_enroll_delay scripted quietEnroll 0 990).events clockAt1000) = [] :=
  ⟨by decide,
    retry_enroll_delay_in_the_past scripted quietEnroll clockAt1000 990
      (by decide) (by decide)⟩

/-! ## The retry in `do_operation` -/

/-- C6. In every run of `do_operation` with the enroll flag set (and hence,
by the option check in `main`, the re-enroll flag clear), whatever the library
answers: at most two enrollment attempts are entered, at most two requests are
submitted and `sleep` is called at most once; and when the two attempts both
returned `EST_ERR_CA_ENROLL_RETRY`, `do_operation` returns with that code and
has reported the failure of the enrollment operation with that code. -/
theorem do_operation_retry_at_most_once {σ : Type} (L : Lib σ) (g : Globals) (fuel : Nat)
    (s : σ) (henroll : g.enroll ≠ 0) (hre : g.reenroll = 0) :
    List.countP isAttempt ((do_operation L g fuel).events s) ≤ 2
      ∧ List.countP isSubmission ((do_operation L g fuel).events s) ≤ 2
      ∧ List.countP isSleep ((do_operation L g fuel).events s) ≤ 1
      ∧ (attemptResults ((do_operation L g fuel).events s)
            = [EST_ERROR.EST_ERR_CA_ENROLL_RETRY, EST_ERROR.EST_ERR_CA_ENROLL_RETRY] →
          (do_operation L g fuel).result s = Res.ok EST_ERROR.EST_ERR_CA_ENROLL_RETRY
            ∧ ∃ r, Event.call
                (failure_report
                  (if truthy g.getcsr
                    then "Regular enrollment with server-defined attributes"
                    else "Simple enrollment without server-defined attributes")
                  EST_ERROR.EST_ERR_CA_ENROLL_RETRY) r
                ∈ (do_operation L g fuel).events s) := by
  refine ⟨do_operation_attempts L g fuel s, do_operation_submissions L g fuel s,
    do_operation_sleeps L g fuel s, ?_⟩
  have _ := henroll
  have hr : truthy g.reenroll = false := by simp [truthy, hre]
  intro h
  simp only [Prog.events, Prog.result] at h ⊢
  unfold do_operation at h ⊢
  have hinit := fun s =>
    bounded_attemptResults (do_operation_init_plain L g plain_not_attempt_leave) s
  have hget := fun st s =>
    bounded_attemptResults (do_operation_getcert_plain L g plain_not_attempt_leave st) s
  have hrest : ∀ st s, attemptResults
      ((do_operation_reenroll L g st >>= fun st3 => do_operation_finish L st3) s).2.2 = [] :=
    fun st s => bounded_attemptResults
      (bounded_seq_zero (do_operation_reenroll_plain L g plain_not_attempt_leave st)
        (fun st3 => do_operation_finish_plain L plain_not_attempt_leave st3)) s
  rcases res_ok_or_not (do_operation_init L g s).1 with ⟨rv0, h0⟩ | h0
  · rw [seq_ok _ _ s rv0 h0] at h ⊢
    simp only [attemptResults_append, hinit, List.nil_append] at h
    generalize (do_operation_init L g s).2.1 = s1 at h ⊢
    rcases res_ok_or_not (do_operation_getcert L g ("", rv0) s1).1 with ⟨st1, h1⟩ | h1
    · rw [seq_ok _ _ s1 st1 h1] at h ⊢
      simp only [attemptResults_append, hget, List.nil_append] at h
      generalize (do_operation_getcert L g ("", rv0) s1).2.1 = s2 at h ⊢
      rcases res_ok_or_not (do_operation_enroll L g fuel st1 s2).1 with ⟨st2, h2⟩ | h2
      · rw [seq_ok _ _ s2 st2 h2] at h ⊢
        simp only [attemptResults_append, hrest, List.append_nil] at h
        have h3 := do_operation_enroll_retry_twice L g fuel st1 s2 h
        rw [h2] at h3
        injection h3 with h3
        subst h3
        generalize (do_operation_enroll L g fuel st1 s2).2.1 = s3
        have hpure : do_operation_reenroll L g
            (if truthy g.getcsr
              then "Regular enrollment with server-defined attributes"
              else "Simple enrollment without server-defined attributes",
              EST_ERROR.EST_ERR_CA_ENROLL_RETRY) s3
            = (Res.ok (if truthy g.getcsr
              then "Regular enrollment with server-defined attributes"
              else "Simple enrollment without server-defined attributes",
              EST_ERROR.EST_ERR_CA_ENROLL_RETRY), s3, []) := by
          simp [do_operation_reenroll, hr, pure_apply]
        rw [seq_ok _ _ s3 _ (by rw [hpure])]
        simp only [hpure, List.nil_append]
        have hfin := do_operation_finish_failure L
          (if truthy g.getcsr
            then "Regular enrollment with server-defined attributes"
            else "Simple enrollment without server-defined attributes")
          EST_ERROR.EST_ERR_CA_ENROLL_RETRY (by decide) s3
        refine ⟨hfin.1, ?_⟩
        obtain ⟨r, hmem⟩ := hfin.2
        exact ⟨r, by simp [hmem]⟩
      · have h3 := seq_not_ok (do_operation_enroll L g fuel st1)
          (fun st2 => do_operation_reenroll L g st2 >>= fun st3 => do_operation_finish L st3)
          s2 h2
        rw [h3.1] at h
        have h4 := do_operation_enroll_retry_twice L g fuel st1 s2 h
        exact absurd h4 (h2 _)
    · have h3 := seq_not_ok (do_operation_getcert L g ("", rv0))
        (fun st1 => do_operation_enroll L g fuel st1 >>= fun st2 =>
          do_operation_reenroll L g st2 >>= fun st3 => do_operation_finish L st3) s1 h1
      rw [h3.1, hget] at h
      simp at h
  · have h3 := seq_not_ok (do_operation_init L g)
      (fun rv0 => do_operation_getcert L g ("", rv0) >>= fun st1 =>
        do_operation_enroll L g fuel st1 >>= fun st2 =>
        do_operation_reenroll L g st2 >>= fun st3 => do_operation_finish L st3) s h0
    rw [h3.1, hinit] at h
    simp at h

/-- Witness of C6: the server asks twice for a retry; the client sleeps once,
submits twice and ends with the retry code. -/
theorem do_operation_retry_at_most_once_witness :
    quietEnroll.enroll ≠ 0 ∧ quietEnroll.reenroll = 0
      ∧ attemptResults ((do_operation scripted quietEnroll 0).events retryTwice)
          = [EST_ERROR.EST_ERR_CA_ENROLL_RETRY, EST_ERROR.EST_ERR_CA_ENROLL_RETRY]
      ∧ (do_operation scripted quietEnroll 0).result retryTwice
          = Res.ok EST_ERROR.EST_ERR_CA_ENROLL_RETRY
      ∧ List.countP isSleep ((do_operation scripted quietEnroll 0).events retryTwice) ≤ 1 :=
  ⟨by decide, by decide, by decide,
    ((do_operation_retry_at_most_once scripted quietEnroll 0 retryTwice
      (by decide) (by decide)).2.2.2 (by decide)).1,
    (do_operation_retry_at_most_once scripted quietEnroll 0 retryTwice
      (by decide) (by decide)).2.2.1⟩

/-- C7 (the code departs from the claim). After a first attempt answered with
the retry code, `do_operation` submits a second time although
`retry_enroll_delay` took an `Abort` arm: with both Retry-After values zero,
and with a retry time 500 seconds ahead, the run submits twice without
sleeping, and here the second submission is accepted, so that the run ends
with `EST_ERR_NONE` and a saved certificate. -/
theorem do_operation_retries_after_abort :
    (retry_enroll_delay scripted quietEnroll 0 0).result [] = Res.ok Decision.Abort
      ∧ List.countP isSubmission ((do_operation scripted quietEnroll 0).events
          retryBothZeroThenIssued) = 2
      ∧ List.countP isSleep ((do_operation scripted quietEnroll 0).events
          retryBothZeroThenIssued) = 0
      ∧ attemptResults ((do_operation scripted quietEnroll 0).events retryBothZeroThenIssued)
          = [EST_ERROR.EST_ERR_CA_ENROLL_RETRY, EST_ERROR.EST_ERR_NONE]
      ∧ (do_operation scripted quietEnroll 0).result retryBothZeroThenIssued
          = Res.ok EST_ERROR.EST_ERR_NONE
      ∧ Event.call (Call.write_binary_file "out/newcert.pkcs7" [1, 2] 2) Reply.zero
          ∈ (do_operation scripted quietEnroll 0).events retryBothZeroThenIssued
      ∧ (retry_enroll_delay scripted quietEnroll 0 1500).result clockAt1000
          = Res.ok Decision.Abort
      ∧ List.countP isSubmission ((do_operation scripted quietEnroll 0).events
          retryFarThenIssued) = 2
      ∧ List.countP isSleep ((do_operation scripted quietEnroll 0).events
          retryFarThenIssued) = 0
      ∧ (do_operation scripted quietEnroll 0).result retryFarThenIssued
          = Res.ok EST_ERROR.EST_ERR_NONE := by
  refine ⟨by decide, by decide, by decide, by decide, by decide, by decide, by decide,
    by decide, by decide, by decide⟩

/-- C8 (the code departs from the claim). For a directive that names
`challengePassword`, `regular_enroll_attempt` hands a `challengePassword`
attribute with an empty value to `est_add_attributes_helper`, through the
`default` arm of its `switch`. -/
theorem regular_enroll_attempt_adds_challengePassword :
    extractedNids ((regular_enroll_attempt scripted quietRegular 1).events challengeDirective)
        = [NID_pkcs9_challengePassword]
      ∧ addedAttributes
          ((regular_enroll_attempt scripted quietRegular 1).events challengeDirective)
        = [(NID_pkcs9_challengePassword, "")]
      ∧ (regular_enroll_attempt scripted quietRegular 1).result challengeDirective
        = Res.ok EST_ERROR.EST_ERR_NONE := by
  refine ⟨by decide, by decide, by decide⟩

/-- C9. Whatever the library answers, the attributes that
`regular_enroll_attempt` hands to `est_add_attributes_helper` are, in order,
the policy applied to the NIDs it extracted successfully: `"test\n"` for each
`commonName`, `"bubba@notmyemail.com"` for each `emailAddress`, nothing for an
undefined NID, an empty value for any other NID, and nothing besides.  And for
every sequence of NIDs there is a run that returns after extracting exactly
that sequence. -/
theorem regular_enroll_attempt_attributes :
    (∀ {σ : Type} (L : Lib σ) (g : Globals) (fuel : Nat) (s : σ),
        addedAttributes ((regular_enroll_attempt L g fuel).events s)
          = (extractedNids ((regular_enroll_attempt L g fuel).events s)).filterMap
              attribute_policy)
      ∧ ∀ (g : Globals) (nids : List Int),
          (regular_enroll_attempt directiveLib g nids.length).result nids
              = Res.ok (EST_ERROR.other 1)
            ∧ extractedNids ((regular_enroll_attempt directiveLib g nids.length).events nids)
              = nids
            ∧ addedAttributes ((regular_enroll_attempt directiveLib g nids.length).events nids)
              = nids.filterMap attribute_policy := by
  refine ⟨fun L g fuel s => regular_enroll_attempt_balanced L g fuel s, fun g nids => ?_⟩
  obtain ⟨h1, h2⟩ := regular_enroll_attempt_directiveLib g nids
  refine ⟨h1, h2, ?_⟩
  have h3 := regular_enroll_attempt_balanced directiveLib g nids.length nids
  simp only [Prog.events] at h2 ⊢
  rw [h3, h2]

/-- C10 (the code departs from the claim). When `est_decode_attributes_helper`
reports an error, `regular_enroll_attempt` returns that error without
submitting.  When a call of `est_get_attributes_helper` reports an error, the
loop goes on, the CSR is submitted all the same, and the attempt returns what
the submission returned, here `EST_ERR_NONE` with a saved certificate. -/
theorem regular_enroll_attempt_submits_after_extraction_error :
    (regular_enroll_attempt scripted quietRegular 1).result undecodableDirective
        = Res.ok (EST_ERROR.other 7)
      ∧ List.countP isSubmission
          ((regular_enroll_attempt scripted quietRegular 1).events undecodableDirective) = 0
      ∧ Event.call (Call.est_get_attributes_helper 0 11)
            { Reply.zero with rv := EST_ERROR.other 7, der_ptr := 11 }
          ∈ (regular_enroll_attempt scripted quietRegular 1).events brokenDirective
      ∧ Event.call (Call.est_client_enroll_csr 5 true) { Reply.zero with len := 2 }
          ∈ (regular_enroll_attempt scripted quietRegular 1).events brokenDirective
      ∧ (regular_enroll_attempt scripted quietRegular 1).result brokenDirective
        = Res.ok EST_ERROR.EST_ERR_NONE
      ∧ Event.call (Call.write_binary_file "out/newcert.pkcs7" [1, 2] 2) Reply.zero
          ∈ (regular_enroll_attempt scripted quietRegular 1).events brokenDirective := by
  refine ⟨by decide, by decide, by decide, by decide, by decide, by decide⟩

/-! ## Persisting the certificate -/

theorem fileWrites_append (t1 t2 : List Event) :
    fileWrites (t1 ++ t2) = fileWrites t1 ++ fileWrites t2 := by
  simp [fileWrites]

theorem retrieve_and_save_persisted {σ : Type} (L : Lib σ) (g : Globals) (len : Int) (s : σ)
    (h : (retrieve_and_save L g len s).1 = Res.ok EST_ERROR.EST_ERR_NONE) :
    Persisted g len (retrieve_and_save L g len s).2.2 := by
  unfold Persisted
  rcases hm : (L (Call.malloc len) s).1.ptr with _ | p
  · cases hv : truthy g.verbose <;>
      simp [retrieve_and_save, hm, hv, whenC, seq_apply, Prog.seq, Prog.ret, pure_apply,
        call_apply] at h
  · generalize hs1 : (L (Call.malloc len) s).2 = s1 at *
    by_cases hc : (L Call.est_client_copy_enrolled_cert s1).1.rv = EST_ERROR.EST_ERR_NONE
    · refine ⟨(L Call.est_client_copy_enrolled_cert s1).1, ?_, hc, ?_⟩
      · simp [retrieve_and_save, hm, hs1, seq_apply, Prog.seq, Prog.ret, pure_apply, call_apply]
      · generalize hcr : (L Call.est_client_copy_enrolled_cert s1).1 = c at *
        generalize hs2 : (L Call.est_client_copy_enrolled_cert s1).2 = s2 at *
        cases hv : truthy g.verbose <;> cases hp : truthy g.pem_out
        · simp [retrieve_and_save, save_cert, certName, hm, hs1, hcr, hs2, hc, hv, hp, whenC,
            seq_apply, Prog.seq, Prog.ret, pure_apply, call_apply, fileWrites, fileWrite]
        · refine ⟨(L (Call.est_convert_p7b64_to_pem c.data len) s2).1, ?_, ?_⟩
          · by_cases hr : (L (Call.est_convert_p7b64_to_pem c.data len) s2).1.ret > 0 <;>
              simp [retrieve_and_save, save_cert, hm, hs1, hcr, hs2, hc, hv, hp, hr, whenC,
                seq_apply, Prog.seq, Prog.ret, pure_apply, call_apply]
          · by_cases hr : (L (Call.est_convert_p7b64_to_pem c.data len) s2).1.ret > 0 <;>
              simp [retrieve_and_save, save_cert, certName, hm, hs1, hcr, hs2, hc, hv, hp, hr,
                whenC, seq_apply, Prog.seq, Prog.ret, pure_apply, call_apply, fileWrites,
                fileWrite]
        · simp [retrieve_and_save, save_cert, certName, hm, hs1, hcr, hs2, hc, hv, hp, whenC,
            seq_apply, Prog.seq, Prog.ret, pure_apply, call_apply, fileWrites, fileWrite]
        · generalize hs3 : (L (Call.printf "\nenrollment copy rv = %d\n" [Arg.err EST_ERROR.EST_ERR_NONE]) s2).2
            = s3
          generalize hs4 : (L (Call.dumpbin c.data len) s3).2 = s4
          refine ⟨(L (Call.est_convert_p7b64_to_pem c.data len) s4).1, ?_, ?_⟩
          · by_cases hr : (L (Call.est_convert_p7b64_to_pem c.data len) s4).1.ret > 0 <;>
              simp [retrieve_and_save, save_cert, hm, hs1, hcr, hs2, hs3, hs4, hc, hv, hp, hr,
                whenC, seq_apply, Prog.seq, Prog.ret, pure_apply, call_apply]
          · by_cases hr : (L (Call.est_convert_p7b64_to_pem c.data len) s4).1.ret > 0 <;>
              simp [retrieve_and_save, save_cert, certName, hm, hs1, hcr, hs2, hs3, hs4, hc, hv,
                hp, hr, whenC, seq_apply, Prog.seq, Prog.ret, pure_apply, call_apply,
                fileWrites, fileWrite]
    · exfalso
      generalize hcr : (L Call.est_client_copy_enrolled_cert s1).1 = c at *
      generalize hs2 : (L Call.est_client_copy_enrolled_cert s1).2 = s2 at *
      cases hv : truthy g.verbose <;> cases hp : truthy g.pem_out
      · simp [retrieve_and_save, save_cert, hm, hs1, hcr, hs2, hc, hv, hp, whenC, seq_apply,
          Prog.seq, Prog.ret, pure_apply, call_apply] at h
      · by_cases hr : (L (Call.est_convert_p7b64_to_pem c.data len) s2).1.ret > 0 <;>
          simp [retrieve_and_save, save_cert, hm, hs1, hcr, hs2, hc, hv, hp, hr, whenC,
            seq_apply, Prog.seq, Prog.ret, pure_apply, call_apply] at h
      · simp [retrieve_and_save, save_cert, hm, hs1, hcr, hs2, hc, hv, hp, whenC, seq_apply,
          Prog.seq, Prog.ret, pure_apply, call_apply] at h
      · generalize hs3 : (L (Call.printf "\nenrollment copy rv = %d\n" [Arg.err c.rv]) s2).2
          = s3 at *
        by_cases hr : (L (Call.est_convert_p7b64_to_pem c.data len) s3).1.ret > 0 <;>
          simp [retrieve_and_save, save_cert, hm, hs1, hcr, hs2, hs3, hc, hv, hp, hr, whenC,
            seq_apply, Prog.seq, Prog.ret, pure_apply, call_apply] at h

theorem no_writes (t : List Event) (h : List.countP isWrite t = 0) : fileWrites t = [] := by
  induction t with
  | nil => rfl
  | cons e t ih =>
    rw [List.countP_cons] at h
    have ht : List.countP isWrite t = 0 := by omega
    have he : isWrite e = false := by
      cases hb : isWrite e
      · rfl
      · rw [hb] at h
        simp at h
    have h1 : fileWrite e = none := by
      cases e with
      | call c r => cases c <;> first | rfl | simp [isWrite] at he
      | enter fn => rfl
      | leave fn rv => rfl
    simpa [fileWrites, h1] using ih ht

theorem bounded_fileWrites {σ α : Type} {m : Prog σ α} (h : Bounded isWrite 0 m) (s : σ) :
    fileWrites (m s).2.2 = [] :=
  no_writes _ (Nat.le_zero.mp (h s))

theorem persisted_extend (g : Globals) (len : Int) (t1 t t2 : List Event)
    (h1 : fileWrites t1 = []) (h2 : fileWrites t2 = []) (h : Persisted g len t) :
    Persisted g len (t1 ++ t ++ t2) := by
  obtain ⟨c, hc, hrv, hrest⟩ := h
  refine ⟨c, by simp [hc], hrv, ?_⟩
  have hw : fileWrites (t1 ++ t ++ t2) = fileWrites t := by
    simp [fileWrites_append, h1, h2]
  rw [hw]
  split
  · rename_i hp
    rw [if_pos hp] at hrest
    obtain ⟨r, hr, hrw⟩ := hrest
    exact ⟨r, by simp [hr], hrw⟩
  · rename_i hp
    rw [if_neg hp] at hrest
    exact hrest

theorem issuedRun_extend {α : Type} (g : Globals) (code : α → EST_ERROR) (r : Res α)
    (t1 t t2 : List Event)
    (h1 : fileWrites t1 = []) (h2 : fileWrites t2 = []) (h : IssuedRun g code r t) :
    IssuedRun g code r (t1 ++ t ++ t2) := by
  intro a hr hcode
  obtain ⟨sub, hsub, hrv, hp⟩ := h a hr hcode
  refine ⟨sub, ?_, hrv, persisted_extend g sub.len t1 t t2 h1 h2 hp⟩
  simp only [List.filterMap_append, List.mem_append]
  exact Or.inl (Or.inr hsub)

theorem issues_seq {σ α β : Type} {g : Globals} {code : α → EST_ERROR} {m : Prog σ β}
    {f : β → Prog σ α}
    (h1 : Bounded isWrite 0 m) (h2 : ∀ b, Issues g code (f b)) : Issues g code (m >>= f) := by
  intro s
  rcases res_ok_or_not (m s).1 with ⟨b, hb⟩ | hn
  · rw [seq_ok m f s b hb]
    have h := issuedRun_extend g code _ (m s).2.2 _ [] (bounded_fileWrites h1 s) rfl
      (h2 b (m s).2.1)
    simpa using h
  · intro a hr
    exact absurd hr ((seq_not_ok m f s hn).2 _)

theorem issues_pure_ne {σ α : Type} {g : Globals} {code : α → EST_ERROR} {a : α}
    (h : code a ≠ EST_ERROR.EST_ERR_NONE) : Issues g code (pure a : Prog σ α) := by
  intro s b hr hcode
  simp [pure_apply] at hr
  subst hr
  exact absurd hcode h

/-- The end of an enrollment attempt, from the verbose report of the submission
on: when it returns `EST_ERR_NONE` the submission had returned `EST_ERR_NONE`
and the certificate is persisted. -/
theorem attempt_end_issued {σ : Type} (L : Lib σ) (g : Globals) (rv : EST_ERROR) (len : Int)
    (s : σ)
    (h : ((whenC (truthy g.verbose)
            (call L (Call.printf "\nenrollment rv = %d (%s) with pkcs7 length = %d\n"
              [Arg.err rv, Arg.errstr rv, Arg.int len]) >>= fun _ =>
              (pure PUnit.unit : Prog σ PUnit)) >>= fun _ =>
          if rv = EST_ERROR.EST_ERR_NONE then retrieve_and_save L g len else pure rv) s).1
        = Res.ok EST_ERROR.EST_ERR_NONE) :
    rv = EST_ERROR.EST_ERR_NONE
      ∧ Persisted g len
          ((whenC (truthy g.verbose)
            (call L (Call.printf "\nenrollment rv = %d (%s) with pkcs7 length = %d\n"
              [Arg.err rv, Arg.errstr rv, Arg.int len]) >>= fun _ =>
              (pure PUnit.unit : Prog σ PUnit)) >>= fun _ =>
          if rv = EST_ERROR.EST_ERR_NONE then retrieve_and_save L g len else pure rv) s).2.2 := by
  by_cases hrv : rv = EST_ERROR.EST_ERR_NONE
  · refine ⟨hrv, ?_⟩
    subst hrv
    cases hv : truthy g.verbose
    · rw [hv] at h
      rw [seq_ok _ _ s () rfl] at h ⊢
      simp only [if_true] at h ⊢
      have := persisted_extend g len [] _ [] rfl rfl (retrieve_and_save_persisted L g len _ h)
      simpa [whenC, Prog.ret] using this
    · rw [hv] at h
      rw [seq_ok _ _ s () rfl] at h ⊢
      simp only [if_true] at h ⊢
      have := persisted_extend g len
        [Event.call (Call.printf "\nenrollment rv = %d (%s) with pkcs7 length = %d\n"
          [Arg.err EST_ERROR.EST_ERR_NONE, Arg.errstr EST_ERROR.EST_ERR_NONE, Arg.int len])
          (L (Call.printf "\nenrollment rv = %d (%s) with pkcs7 length = %d\n"
          [Arg.err EST_ERROR.EST_ERR_NONE, Arg.errstr EST_ERROR.EST_ERR_NONE, Arg.int len]) s).1]
        _ [] rfl rfl (retrieve_and_save_persisted L g len _ h)
      simpa [whenC, Prog.ret, seq_apply, Prog.seq, call_apply, pure_apply] using this
  · exfalso
    cases hv : truthy g.verbose <;>
      simp [hv, hrv, whenC, seq_apply, Prog.seq, Prog.ret, call_apply, pure_apply] at h

theorem read_csr_write_free {σ : Type} (L : Lib σ) (csr_file : String) :
    Bounded isWrite 0 (read_csr L csr_file) := by
  unfold read_csr
  repeat' first
    | exact bounded_pure _ _
    | exact bounded_call_zero L _ (fun _ => rfl)
    | apply bounded_seq_zero
    | apply bounded_ite
    | split
    | intro _

theorem populate_x509_csr_write_free {σ : Type} (L : Lib σ) (req : Nat) (cn : String) :
    Bounded isWrite 0 (populate_x509_csr L req cn) := by
  unfold populate_x509_csr
  repeat' first
    | exact bounded_pure _ _
    | exact bounded_call_zero L _ (fun _ => rfl)
    | apply bounded_seq_zero
    | apply bounded_ite
    | intro _

theorem add_attribute_write_free {σ : Type} (L : Lib σ) (csr : Nat) (nid : Int) :
    Bounded isWrite 0 (add_attribute L csr nid) := by
  unfold add_attribute
  repeat' first
    | exact bounded_pure _ _
    | exact bounded_call_zero L _ (fun _ => rfl)
    | apply bounded_seq_zero
    | apply bounded_whenC
    | apply bounded_ite
    | intro _

theorem attribute_loop_write_free {σ : Type} (L : Lib σ) (csr : Nat) (fuel : Nat) :
    ∀ (der_ptr : Nat) (der_len : Int) (rv : EST_ERROR),
      Bounded isWrite 0 (attribute_loop L csr fuel der_ptr der_len rv) := by
  induction fuel with
  | zero =>
    intro der_ptr der_len rv
    unfold attribute_loop
    apply bounded_ite
    · exact bounded_outOfFuel _
    · exact bounded_pure _ _
  | succ n ih =>
    intro der_ptr der_len rv
    unfold attribute_loop
    repeat' first
      | exact bounded_pure _ _
      | exact ih _ _ _
      | exact add_attribute_write_free L _ _
      | exact bounded_call_zero L _ (fun _ => rfl)
      | apply bounded_seq_zero
      | apply bounded_ite
      | intro _

/-- A request followed by the end of an attempt: when the whole returns
`EST_ERR_NONE`, the request was answered with `EST_ERR_NONE` and the
certificate is persisted. -/
theorem issues_after_request {σ : Type} (L : Lib σ) (g : Globals) (c : Call)
    (hc : ∀ r, requestReply (Event.call c r) = some r) :
    Issues g id (call L c >>= fun e =>
      whenC (truthy g.verbose)
        (call L (Call.printf "\nenrollment rv = %d (%s) with pkcs7 length = %d\n"
          [Arg.err e.rv, Arg.errstr e.rv, Arg.int e.len]) >>= fun _ =>
          (pure PUnit.unit : Prog σ PUnit)) >>= fun _ =>
      if e.rv = EST_ERROR.EST_ERR_NONE then retrieve_and_save L g e.len else pure e.rv) := by
  intro s a hr hcode
  simp only [id] at hcode
  subst hcode
  rw [seq_ok _ _ s (L c s).1 rfl] at hr ⊢
  obtain ⟨hrv, hp⟩ := attempt_end_issued L g (L c s).1.rv (L c s).1.len _ hr
  refine ⟨(L c s).1, ?_, hrv, ?_⟩
  · simp [call_apply, hc]
  · have := persisted_extend g (L c s).1.len [Event.call c (L c s).1] _ [] ?_ rfl hp
    · simpa [call_apply] using this
    · have h0 := hc (L c s).1
      cases c <;> first | rfl | simp [requestReply] at h0

theorem regular_enroll_attempt_body_issues {σ : Type} (L : Lib σ) (g : Globals) (fuel : Nat) :
    Issues g id (regular_enroll_attempt_body L g fuel) := by
  unfold regular_enroll_attempt_body
  repeat' first
    | exact issues_pure_ne (by assumption)
    | exact issues_pure_ne (by decide)
    | exact issues_after_request L g _ (fun _ => rfl)
    | exact bounded_call_zero L _ (fun _ => rfl)
    | exact populate_x509_csr_write_free L _ _
    | exact attribute_loop_write_free L _ _ _ _ _
    | apply issues_seq
    | split
    | intro _

theorem issues_wrapped {σ : Type} (g : Globals) (fn : String) (body : Prog σ EST_ERROR)
    (h : Issues g id body) :
    Issues g id (emit (Event.enter fn) >>= fun _ => body >>= fun rv =>
      emit (Event.leave fn rv) >>= fun _ => (pure rv : Prog σ EST_ERROR)) := by
  intro s
  have hb := h s
  rcases hbs : body s with ⟨r, s1, t⟩
  rw [hbs] at hb
  simp only at hb
  cases r with
  | ok rv =>
    have := issuedRun_extend g id (Res.ok rv) [Event.enter fn] t [Event.leave fn rv] rfl rfl hb
    simpa [seq_apply, Prog.seq, emit, hbs, pure_apply, Prog.ret] using this
  | exited c =>
    intro a hr
    simp [seq_apply, Prog.seq, emit, hbs] at hr
  | timeout =>
    intro a hr
    simp [seq_apply, Prog.seq, emit, hbs] at hr

theorem regular_enroll_attempt_issues {σ : Type} (L : Lib σ) (g : Globals) (fuel : Nat) :
    Issues g id (regular_enroll_attempt L g fuel) :=
  issues_wrapped g "regular_enroll_attempt" _ (regular_enroll_attempt_body_issues L g fuel)

/-- The function `read_csr` always returns. -/
theorem read_csr_returns {σ : Type} (L : Lib σ) (csr_file : String) (s : σ) :
    ∃ c, (read_csr L csr_file s).1 = Res.ok c := by
  by_cases h1 : (L (Call.BIO_read_filename csr_file) (L Call.BIO_new s).2).1.ret ≤ 0
  · exact ⟨none, by
      simp [read_csr, h1, seq_apply, Prog.seq, Prog.ret, pure_apply, call_apply]⟩
  · rcases h2 : (L Call.PEM_read_bio_X509_REQ
        (L (Call.BIO_read_filename csr_file) (L Call.BIO_new s).2).2).1.ptr with _ | c
    · exact ⟨none, by
        simp [read_csr, h1, h2, seq_apply, Prog.seq, Prog.ret, pure_apply, call_apply]⟩
    · exact ⟨some c, by
        simp [read_csr, h1, h2, seq_apply, Prog.seq, Prog.ret, pure_apply, call_apply]⟩

/-- The submission step of `simple_enroll_attempt`: it returns a code and a
length, writes no file, and when the code is `EST_ERR_NONE` it is the answer
to a submission, which named that length. -/
theorem simple_submission_step {σ : Type} (L : Lib σ) (g : Globals) (s : σ) :
    ∃ rv len,
      ((if nonEmpty g.csr_file = true then
          read_csr L g.csr_file >>= fun csr =>
            match csr with
            | none => (pure (EST_ERROR.EST_ERR_PEM_READ, (0 : Int)) : Prog σ (EST_ERROR × Int))
            | some c =>
              call L (Call.est_client_enroll_csr c false) >>= fun r =>
                call L (Call.X509_REQ_free c) >>= fun _ => pure (r.rv, r.len)
        else
          call L (Call.est_client_enroll g.subj_cn) >>= fun r =>
            (pure (r.rv, r.len) : Prog σ (EST_ERROR × Int))) s).1 = Res.ok (rv, len)
      ∧ (rv = EST_ERROR.EST_ERR_NONE →
          ∃ sub, sub ∈ ((if nonEmpty g.csr_file = true then
              read_csr L g.csr_file >>= fun csr =>
                match csr with
                | none =>
                  (pure (EST_ERROR.EST_ERR_PEM_READ, (0 : Int)) : Prog σ (EST_ERROR × Int))
                | some c =>
                  call L (Call.est_client_enroll_csr c false) >>= fun r =>
                    call L (Call.X509_REQ_free c) >>= fun _ => pure (r.rv, r.len)
            else
              call L (Call.est_client_enroll g.subj_cn) >>= fun r =>
                (pure (r.rv, r.len) : Prog σ (EST_ERROR × Int))) s).2.2.filterMap requestReply
            ∧ sub.rv = EST_ERROR.EST_ERR_NONE ∧ sub.len = len) := by
  cases hf : nonEmpty g.csr_file
  · refine ⟨(L (Call.est_client_enroll g.subj_cn) s).1.rv,
      (L (Call.est_client_enroll g.subj_cn) s).1.len, ?_, ?_⟩
    · simp [seq_apply, Prog.seq, Prog.ret, pure_apply, call_apply]
    · intro hrv
      refine ⟨(L (Call.est_client_enroll g.subj_cn) s).1, ?_, hrv, rfl⟩
      simp [seq_apply, Prog.seq, Prog.ret, pure_apply, call_apply, requestReply]
  · obtain ⟨c, hc⟩ := read_csr_returns L g.csr_file s
    simp only [if_true]
    rw [seq_ok _ _ s c hc]
    cases c with
    | none =>
      refine ⟨EST_ERROR.EST_ERR_PEM_READ, 0, ?_, ?_⟩
      · simp [pure_apply]
      · intro h
        cases h
    | some c =>
      generalize (read_csr L g.csr_file s).2.1 = s1
      refine ⟨(L (Call.est_client_enroll_csr c false) s1).1.rv,
        (L (Call.est_client_enroll_csr c false) s1).1.len, ?_, ?_⟩
      · simp [seq_apply, Prog.seq, Prog.ret, pure_apply, call_apply]
      · intro hrv
        refine ⟨(L (Call.est_client_enroll_csr c false) s1).1, ?_, hrv, rfl⟩
        simp [seq_apply, Prog.seq, Prog.ret, pure_apply, call_apply, requestReply]

theorem simple_enroll_attempt_body_issues {σ : Type} (L : Lib σ) (g : Globals) :
    Issues g id (simple_enroll_attempt_body L g) := by
  unfold simple_enroll_attempt_body
  apply issues_seq
  · repeat' first
      | exact bounded_pure _ _
      | exact bounded_call_zero L _ (fun _ => rfl)
      | apply bounded_seq_zero
      | apply bounded_whenC
      | intro _
  intro _ s a hr hcode
  simp only [id] at hcode
  subst hcode
  generalize hmid : (ite (nonEmpty g.csr_file = true) _ _ : Prog σ (EST_ERROR × Int)) = mid
    at hr ⊢
  have hw : Bounded isWrite 0 mid := by
    rw [← hmid]
    repeat' first
      | exact bounded_pure _ _
      | exact bounded_call_zero L _ (fun _ => rfl)
      | exact read_csr_write_free L _
      | apply bounded_seq_zero
      | apply bounded_ite
      | split
      | intro _
  have hstep := simple_submission_step L g s
  have hstep2 : ∃ rv len, (mid s).1 = Res.ok (rv, len)
      ∧ (rv = EST_ERROR.EST_ERR_NONE →
          ∃ sub, sub ∈ (mid s).2.2.filterMap requestReply
            ∧ sub.rv = EST_ERROR.EST_ERR_NONE ∧ sub.len = len) := by
    rw [← hmid]
    exact hstep
  obtain ⟨rv, len, hok, hsub⟩ := hstep2
  rw [seq_ok mid _ s (rv, len) hok] at hr ⊢
  obtain ⟨hrv, hp⟩ := attempt_end_issued L g rv len _ hr
  obtain ⟨sub, hmem, hsrv, hlen⟩ := hsub hrv
  refine ⟨sub, ?_, hsrv, ?_⟩
  · simp only [List.filterMap_append, List.mem_append]
    exact Or.inl hmem
  · rw [hlen]
    have := persisted_extend g len _ _ [] (bounded_fileWrites hw s) rfl hp
    simpa using this

theorem simple_enroll_attempt_issues {σ : Type} (L : Lib σ) (g : Globals) :
    Issues g id (simple_enroll_attempt L g) :=
  issues_wrapped g "simple_enroll_attempt" _ (simple_enroll_attempt_body_issues L g)

theorem persists_seq {σ α β : Type} {g : Globals} {rv : EST_ERROR} {len : Int}
    {code : α → EST_ERROR} {m : Prog σ β} {f : β → Prog σ α}
    (h1 : Bounded isWrite 0 m) (h2 : ∀ b, Persists g rv len code (f b)) :
    Persists g rv len code (m >>= f) := by
  intro s a ha hcode
  rcases res_ok_or_not (m s).1 with ⟨b, hb⟩ | hn
  · rw [seq_ok m f s b hb] at ha ⊢
    obtain ⟨hrv, hp⟩ := h2 b (m s).2.1 a ha hcode
    refine ⟨hrv, ?_⟩
    have := persisted_extend g len (m s).2.2 _ [] (bounded_fileWrites h1 s) rfl hp
    simpa using this
  · exact absurd ha ((seq_not_ok m f s hn).2 _)

theorem persists_pure_ne {σ α : Type} {g : Globals} {rv : EST_ERROR} {len : Int}
    {code : α → EST_ERROR} {a : α}
    (h : code a ≠ EST_ERROR.EST_ERR_NONE) : Persists g rv len code (pure a : Prog σ α) := by
  intro s b hr hcode
  simp [pure_apply] at hr
  subst hr
  exact absurd hcode h

/-- The function `save_cert` always returns, and writes as `Persisted` says. -/
theorem save_cert_writes {σ : Type} (L : Lib σ) (g : Globals) (data : List Nat) (len : Int)
    (s : σ) :
    (save_cert L g (snprintf MAX_FILENAME_LEN (g.out_dir ++ "/newcert")) data len s).1
        = Res.ok ()
      ∧ if truthy g.pem_out = true then
          ∃ r : Reply, Event.call (Call.est_convert_p7b64_to_pem data len) r
              ∈ (save_cert L g (snprintf MAX_FILENAME_LEN (g.out_dir ++ "/newcert"))
                  data len s).2.2
            ∧ fileWrites (save_cert L g (snprintf MAX_FILENAME_LEN (g.out_dir ++ "/newcert"))
                  data len s).2.2
              = if r.ret > 0 then [(certName g "pem", r.data, r.ret)] else []
        else fileWrites (save_cert L g (snprintf MAX_FILENAME_LEN (g.out_dir ++ "/newcert"))
                  data len s).2.2 = [(certName g "pkcs7", data, len)] := by
  cases hp : truthy g.pem_out
  · simp [save_cert, certName, hp, seq_apply, Prog.seq, Prog.ret, pure_apply, call_apply,
      fileWrites, fileWrite]
  · simp only [if_true]
    by_cases hr : (L (Call.est_convert_p7b64_to_pem data len) s).1.ret > 0
    · refine ⟨?_, (L (Call.est_convert_p7b64_to_pem data len) s).1, ?_, ?_⟩ <;>
        simp [save_cert, certName, hp, hr, seq_apply, Prog.seq, Prog.ret, pure_apply,
          call_apply, fileWrites, fileWrite]
    · refine ⟨?_, (L (Call.est_convert_p7b64_to_pem data len) s).1, ?_, ?_⟩ <;>
        simp [save_cert, certName, hp, hr, seq_apply, Prog.seq, Prog.ret, pure_apply,
          call_apply, fileWrites, fileWrite]

/-- The end of the re-enroll part, from the copy of the certificate on. -/
theorem persists_copy_save {σ : Type} (L : Lib σ) (g : Globals) (rv : EST_ERROR) (len : Int)
    (hrv : rv = EST_ERROR.EST_ERR_NONE) :
    Persists g rv len Prod.snd
      (call L Call.est_client_copy_enrolled_cert >>= fun c =>
        whenC (truthy g.verbose)
          (call L (Call.printf "\nreenroll copy rv = %d\n" [Arg.err c.rv]) >>= fun _ =>
            (pure PUnit.unit : Prog σ PUnit)) >>= fun _ =>
        whenC (decide (c.rv = EST_ERROR.EST_ERR_NONE))
          (whenC (truthy g.verbose)
            (call L (Call.dumpbin c.data len) >>= fun _ =>
              (pure PUnit.unit : Prog σ PUnit))) >>= fun _ =>
        save_cert L g (snprintf MAX_FILENAME_LEN (g.out_dir ++ "/newcert")) c.data len
          >>= fun _ => (pure ("Re-enrollment", c.rv) : Prog σ (String × EST_ERROR))) := by
  intro s a ha hcode
  refine ⟨hrv, ?_⟩
  rw [seq_ok _ _ s (L Call.est_client_copy_enrolled_cert s).1 rfl] at ha ⊢
  generalize hc : (L Call.est_client_copy_enrolled_cert s).1 = c at ha ⊢
  have hev : (call L Call.est_client_copy_enrolled_cert s).2.2
      = [Event.call Call.est_client_copy_enrolled_cert c] := by
    rw [← hc]
    rfl
  rw [hev]
  generalize (call L Call.est_client_copy_enrolled_cert s).2.1 = s1 at ha ⊢
  have hw1 : Bounded isWrite 0 (whenC (truthy g.verbose)
      (call L (Call.printf "\nreenroll copy rv = %d\n" [Arg.err c.rv]) >>= fun _ =>
        (pure PUnit.unit : Prog σ PUnit))) :=
    bounded_whenC _ (bounded_seq_zero (bounded_call_zero L _ (fun _ => rfl))
      (fun _ => bounded_pure _ _))
  have hw2 : Bounded isWrite 0 (whenC (decide (c.rv = EST_ERROR.EST_ERR_NONE))
      (whenC (truthy g.verbose)
        (call L (Call.dumpbin c.data len) >>= fun _ => (pure PUnit.unit : Prog σ PUnit)))) :=
    bounded_whenC _ (bounded_whenC _ (bounded_seq_zero (bounded_call_zero L _ (fun _ => rfl))
      (fun _ => bounded_pure _ _)))
  rcases res_ok_or_not ((whenC (truthy g.verbose)
      (call L (Call.printf "\nreenroll copy rv = %d\n" [Arg.err c.rv]) >>= fun _ =>
        (pure PUnit.unit : Prog σ PUnit))) s1).1 with ⟨u1, h1⟩ | h1
  · rw [seq_ok _ _ s1 u1 h1] at ha ⊢
    generalize hs2 : ((whenC (truthy g.verbose)
      (call L (Call.printf "\nreenroll copy rv = %d\n" [Arg.err c.rv]) >>= fun _ =>
        (pure PUnit.unit : Prog σ PUnit))) s1).2.1 = s2 at ha ⊢
    rcases res_ok_or_not ((whenC (decide (c.rv = EST_ERROR.EST_ERR_NONE))
      (whenC (truthy g.verbose)
        (call L (Call.dumpbin c.data len) >>= fun _ =>
          (pure PUnit.unit : Prog σ PUnit)))) s2).1 with ⟨u2, h2⟩ | h2
    · rw [seq_ok _ _ s2 u2 h2] at ha ⊢
      generalize hs3 : ((whenC (decide (c.rv = EST_ERROR.EST_ERR_NONE))
        (whenC (truthy g.verbose)
          (call L (Call.dumpbin c.data len) >>= fun _ =>
            (pure PUnit.unit : Prog σ PUnit)))) s2).2.1 = s3 at ha ⊢
      obtain ⟨hsok, hsw⟩ := save_cert_writes L g c.data len s3
      rw [seq_ok _ _ s3 () hsok] at ha ⊢
      simp only [pure_apply] at ha ⊢
      injection ha with ha
      subst ha
      simp only at hcode
      refine ⟨c, by simp, hcode, ?_⟩
      have e1 := bounded_fileWrites hw1 s1
      have e2 := bounded_fileWrites hw2 s2
      split
      · rename_i hp
        rw [if_pos hp] at hsw
        obtain ⟨r, hr, hrw⟩ := hsw
        refine ⟨r, by simp [hr], ?_⟩
        simp only [fileWrites_append, e1, e2, hrw]
        simp [fileWrites, fileWrite]
      · rename_i hp
        rw [if_neg hp] at hsw
        simp only [fileWrites_append, e1, e2, hsw]
        simp [fileWrites, fileWrite]
    · exact absurd ha ((seq_not_ok _ _ s2 h2).2 _)
  · exact absurd ha ((seq_not_ok _ _ s1 h1).2 _)

theorem issues_of_request {σ α : Type} (L : Lib σ) (g : Globals) (code : α → EST_ERROR)
    (c : Call) (f : Reply → Prog σ α)
    (hc : ∀ r, requestReply (Event.call c r) = some r)
    (h : ∀ r, Persists g r.rv r.len code (f r)) : Issues g code (call L c >>= f) := by
  intro s a ha hcode
  rw [seq_ok _ _ s (L c s).1 rfl] at ha ⊢
  obtain ⟨hrv, hp⟩ := h (L c s).1 _ a ha hcode
  refine ⟨(L c s).1, ?_, hrv, ?_⟩
  · simp [call_apply, hc]
  · have := persisted_extend g (L c s).1.len [Event.call c (L c s).1] _ [] ?_ rfl hp
    · simpa [call_apply] using this
    · have h0 := hc (L c s).1
      cases c <;> first | rfl | simp [requestReply] at h0

/-- The re-enroll part of `do_operation` persists the certificate it obtained. -/
theorem do_operation_reenroll_issues {σ : Type} (L : Lib σ) (g : Globals)
    (st : String × EST_ERROR) (hre : truthy g.reenroll = true) :
    Issues g Prod.snd (do_operation_reenroll L g st) := by
  unfold do_operation_reenroll
  simp only [hre, if_true]
  refine issues_of_request L g _ Call.est_client_reenroll _ (fun _ => rfl) ?_
  intro r
  repeat' first
    | exact persists_pure_ne (by assumption)
    | exact persists_copy_save L g _ _ (by assumption)
    | exact bounded_call_zero L _ (fun _ => rfl)
    | exact bounded_pure _ _
    | apply persists_seq
    | apply bounded_seq_zero
    | apply bounded_whenC
    | split
    | intro _


/-! ## Writing the attribute directive -/

theorem snprintf_short (n : Nat) (s : String) (h : s.length < n) : snprintf n s = s := by
  unfold snprintf
  have h2 : s.data.length ≤ n - 1 := by
    have : s.data.length = s.length := rfl
    omega
  rw [List.take_of_length_le h2]

set_option maxRecDepth 100000 in
/-- C15 as stated fails: with an output directory name of 250 characters the
attribute bytes are written to a file whose name is the first 254 characters
of `<out_dir>/csr.base64`, not to `<out_dir>/csr.base64`. -/
theorem regular_csr_attempt_long_out_dir :
    fileWrites ((regular_csr_attempt scripted { quietEnroll with out_dir := longDir }).events
        twoAttributeBytes)
        = [(longDir ++ "/csr", [7, 8], 2)]
      ∧ longDir ++ "/csr" ≠ longDir ++ "/csr.base64" := by
  refine ⟨by decide, by decide⟩

/-- C15, amended. When the CSR-attributes query succeeds, `regular_csr_attempt`
calls `write_binary_file` exactly once, with the buffer `attr_data` and the
length `attr_len` that the query handed back, unchanged, and the file name
`<out_dir>/csr.base64` cut to the 254 characters the name buffer holds, which
is `<out_dir>/csr.base64` itself when that name has fewer than 255 characters;
when the query fails it writes nothing and returns the failure code. -/
theorem regular_csr_attempt_writes {σ : Type} (L : Lib σ) (g : Globals) (s : σ) :
    ((L Call.est_client_get_csrattrs s).1.rv = EST_ERROR.EST_ERR_NONE →
        (regular_csr_attempt L g).result s = Res.ok EST_ERROR.EST_ERR_NONE
          ∧ fileWrites ((regular_csr_attempt L g).events s)
            = [(snprintf MAX_FILENAME_LEN (g.out_dir ++ "/csr.base64"),
                (L Call.est_client_get_csrattrs s).1.data,
                (L Call.est_client_get_csrattrs s).1.len)])
      ∧ ((L Call.est_client_get_csrattrs s).1.rv ≠ EST_ERROR.EST_ERR_NONE →
        (regular_csr_attempt L g).result s = Res.ok (L Call.est_client_get_csrattrs s).1.rv
          ∧ fileWrites ((regular_csr_attempt L g).events s) = [])
      ∧ ((g.out_dir ++ "/csr.base64").length < MAX_FILENAME_LEN →
        snprintf MAX_FILENAME_LEN (g.out_dir ++ "/csr.base64") = g.out_dir ++ "/csr.base64") := by
  refine ⟨?_, ?_, snprintf_short _ _⟩
  · intro h
    simp [Prog.result, Prog.events, regular_csr_attempt, h, seq_apply, Prog.seq, Prog.ret,
      pure_apply, call_apply, emit, fileWrites, fileWrite]
  · intro h
    simp [Prog.result, Prog.events, regular_csr_attempt, h, seq_apply, Prog.seq, Prog.ret,
      pure_apply, call_apply, emit, fileWrites, fileWrite]

/-! ## The certificate file -/

/-- C16 as stated fails: with PEM output on, a submission answered with
`EST_ERR_NONE` whose certificate cannot be converted to PEM ends the run with
`EST_ERR_NONE` and no file written at all. -/
theorem do_operation_issued_without_file :
    attemptResults ((do_operation scripted quietPem 0).events issuedButNotConverted)
        = [EST_ERROR.EST_ERR_NONE]
      ∧ (do_operation scripted quietPem 0).result issuedButNotConverted
        = Res.ok EST_ERROR.EST_ERR_NONE
      ∧ Event.call (Call.est_client_enroll "127.0.0.1") { Reply.zero with len := 2 }
          ∈ (do_operation scripted quietPem 0).events issuedButNotConverted
      ∧ fileWrites ((do_operation scripted quietPem 0).events issuedButNotConverted) = [] := by
  refine ⟨by decide, by decide, by decide, by decide⟩

/-- C16, amended. Every enrollment attempt (`simple_enroll_attempt`,
`regular_enroll_attempt`) and every re-enroll part of `do_operation` that ends
with `EST_ERR_NONE` has made a request answered with `EST_ERR_NONE` and has
copied the certificate out of the library; with PEM output off it has called
`write_binary_file` exactly once, for `<out_dir>/newcert.pkcs7`, with the
copied bytes and the length the request named; with PEM output on it has
converted those bytes and has called `write_binary_file` exactly once, for
`<out_dir>/newcert.pem` with the converted bytes, when the conversion returned
a positive length, and not at all otherwise.  The names are cut to the 254
characters the name buffer holds, which leaves names shorter than 255
characters as they are. -/
theorem issued_certificate_persisted {σ : Type} (L : Lib σ) (g : Globals) (fuel : Nat)
    (s : σ) :
    ((simple_enroll_attempt L g).result s = Res.ok EST_ERROR.EST_ERR_NONE →
        ∃ sub, sub ∈ ((simple_enroll_attempt L g).events s).filterMap requestReply
          ∧ sub.rv = EST_ERROR.EST_ERR_NONE
          ∧ Persisted g sub.len ((simple_enroll_attempt L g).events s))
      ∧ ((regular_enroll_attempt L g fuel).result s = Res.ok EST_ERROR.EST_ERR_NONE →
        ∃ sub, sub ∈ ((regular_enroll_attempt L g fuel).events s).filterMap requestReply
          ∧ sub.rv = EST_ERROR.EST_ERR_NONE
          ∧ Persisted g sub.len ((regular_enroll_attempt L g fuel).events s))
      ∧ (∀ st op, truthy g.reenroll = true →
        (do_operation_reenroll L g st).result s = Res.ok (op, EST_ERROR.EST_ERR_NONE) →
        ∃ sub, sub ∈ ((do_operation_reenroll L g st).events s).filterMap requestReply
          ∧ sub.rv = EST_ERROR.EST_ERR_NONE
          ∧ Persisted g sub.len ((do_operation_reenroll L g st).events s))
      ∧ ((g.out_dir ++ "/newcert.pkcs7").length < MAX_FILENAME_LEN →
        certName g "pkcs7" = g.out_dir ++ "/newcert.pkcs7")
      ∧ ((g.out_dir ++ "/newcert.pem").length < MAX_FILENAME_LEN →
        certName g "pem" = g.out_dir ++ "/newcert.pem") := by
  have hname : ∀ ext : String, (g.out_dir ++ "/newcert." ++ ext).length < MAX_FILENAME_LEN →
      certName g ext = g.out_dir ++ "/newcert." ++ ext := by
    intro ext h
    have hl : (g.out_dir ++ "/newcert").length < MAX_FILENAME_LEN := by
      simp only [String.length_append] at h ⊢
      have e1 : "/newcert.".length = 9 := by decide
      have e2 : "/newcert".length = 8 := by decide
      omega
    have e3 : g.out_dir ++ "/newcert" ++ "." ++ ext = g.out_dir ++ "/newcert." ++ ext := by
      rw [String.append_assoc g.out_dir "/newcert" "."]
      rfl
    unfold certName
    rw [snprintf_short _ _ hl, e3, snprintf_short _ _ h]
  refine ⟨?_, ?_, ?_, ?_, ?_⟩
  · intro h
    exact simple_enroll_attempt_issues L g s _ h rfl
  · intro h
    exact regular_enroll_attempt_issues L g fuel s _ h rfl
  · intro st op hre h
    exact do_operation_reenroll_issues L g st hre s _ h rfl
  · intro h
    have e : g.out_dir ++ "/newcert.pkcs7" = g.out_dir ++ "/newcert." ++ "pkcs7" := by
      rw [String.append_assoc]
      rfl
    rw [e] at h ⊢
    exact hname "pkcs7" h
  · intro h
    have e : g.out_dir ++ "/newcert.pem" = g.out_dir ++ "/newcert." ++ "pem" := by
      rw [String.append_assoc]
      rfl
    rw [e] at h ⊢
    exact hname "pem" h

/-- Witness of C16 amended: the server issues a two-byte certificate at once;
the quiet simple enrollment writes it, and only it, to `out/newcert.pkcs7`. -/
theorem issued_certificate_persisted_witness :
    (simple_enroll_attempt scripted quietEnroll).result (issuedAtOnce.drop 4)
        = Res.ok EST_ERROR.EST_ERR_NONE
      ∧ (∃ sub, sub ∈ ((simple_enroll_attempt scripted quietEnroll).events
              (issuedAtOnce.drop 4)).filterMap requestReply
          ∧ sub.rv = EST_ERROR.EST_ERR_NONE
          ∧ Persisted quietEnroll sub.len
              ((simple_enroll_attempt scripted quietEnroll).events (issuedAtOnce.drop 4)))
      ∧ fileWrites ((simple_enroll_attempt scripted quietEnroll).events (issuedAtOnce.drop 4))
        = [("out/newcert.pkcs7", [1, 2], 2)] :=
  ⟨by decide,
    (issued_certificate_persisted scripted quietEnroll 0 (issuedAtOnce.drop 4)).1 (by decide),
    by decide⟩

/-- C17 (the code departs from the claim). An attempt whose request is answered
with `EST_ERR_NONE` but whose certificate copy fails returns the failure code
of the copy and all the same writes the buffer, which the copy did not fill,
to `newcert.pkcs7`: in `simple_enroll_attempt` and in the re-enroll part of
`do_operation` alike. -/
theorem failed_copy_still_writes_file :
    (simple_enroll_attempt scripted quietEnroll).result issuedButNotCopied
        = Res.ok (EST_ERROR.other 9)
      ∧ fileWrites ((simple_enroll_attempt scripted quietEnroll).events issuedButNotCopied)
        = [("out/newcert.pkcs7", [170, 187], 2)]
      ∧ (do_operation_reenroll scripted quietReenroll ("", EST_ERROR.EST_ERR_NONE)).result
          issuedButNotCopied = Res.ok ("Re-enrollment", EST_ERROR.other 9)
      ∧ fileWrites ((do_operation_reenroll scripted quietReenroll
          ("", EST_ERROR.EST_ERR_NONE)).events issuedButNotCopied)
        = [("out/newcert.pkcs7", [170, 187], 2)] := by
  refine ⟨by decide, by decide, by decide, by decide⟩

/-! ## A failure code of the first submission -/

theorem submissionResults_append (t1 t2 : List Event) :
    submissionResults (t1 ++ t2) = submissionResults t1 ++ submissionResults t2 := by
  simp [submissionResults]

theorem submissionResult_eq_none (e : Event) (h : isSubmission e = false) :
    submissionResult e = none := by
  cases e with
  | call c r => cases c <;> first | rfl | simp [isSubmission] at h
  | enter fn => rfl
  | leave fn rv => rfl

theorem countP_cons_zero {p : Event → Bool} {e : Event} {t : List Event}
    (h : List.countP p (e :: t) = 0) : p e = false ∧ List.countP p t = 0 := by
  rw [List.countP_cons] at h
  constructor
  · cases hb : p e
    · rfl
    · rw [hb] at h
      simp at h
  · omega

theorem no_submissions (t : List Event) (h : List.countP isSubmission t = 0) :
    submissionResults t = [] := by
  induction t with
  | nil => rfl
  | cons e t ih =>
    obtain ⟨he, ht⟩ := countP_cons_zero h
    simpa [submissionResults, submissionResult_eq_none e he] using ih ht

theorem bounded_submissionResults {σ α : Type} {m : Prog σ α}
    (h : Bounded isSubmission 0 m) (s : σ) : submissionResults (m s).2.2 = [] :=
  no_submissions _ (Nat.le_zero.mp (h s))

/-- Events without the return of an attempt are skipped up to their first
submission. -/
theorem firstAttemptSubmission_append (b t2 : List Event)
    (h : List.countP isAttemptLeave b = 0) :
    firstAttemptSubmission (b ++ t2)
      = match (submissionResults b).head? with
        | some rv => some rv
        | none => firstAttemptSubmission t2 := by
  induction b with
  | nil => rfl
  | cons e t ih =>
    obtain ⟨he, ht⟩ := countP_cons_zero h
    cases e with
    | enter fn => exact ih ht
    | leave fn rv =>
      have h2 : firstAttemptSubmission (Event.leave fn rv :: (t ++ t2))
          = firstAttemptSubmission (t ++ t2) := by
        simp [firstAttemptSubmission, he]
      rw [List.cons_append, h2]
      exact ih ht
    | call c r => cases c <;> first | exact ih ht | rfl

theorem sd_seq {σ α : Type} {m : Prog σ α} {f : α → Prog σ EST_ERROR}
    (h1 : Bounded isSubmission 0 m) (h2 : ∀ a, SubmissionDecides (f a)) :
    SubmissionDecides (m >>= f) := by
  intro s rv hmem hne
  rcases res_ok_or_not (m s).1 with ⟨a, ha⟩ | hn
  · rw [seq_ok m f s a ha] at hmem ⊢
    simp only [submissionResults_append, bounded_submissionResults h1 s, List.nil_append]
      at hmem
    exact h2 a _ rv hmem hne
  · rw [(seq_not_ok m f s hn).1, bounded_submissionResults h1 s] at hmem
    simp at hmem

theorem sd_pure {σ : Type} (rv : EST_ERROR) :
    SubmissionDecides (pure rv : Prog σ EST_ERROR) := by
  intro s x hmem
  simp [pure_apply, submissionResults] at hmem

/-- The end of an enrollment attempt returns the code of the submission when
that is not `EST_ERR_NONE`. -/
theorem attempt_end_failure {σ : Type} (L : Lib σ) (g : Globals) (rv : EST_ERROR) (len : Int)
    (s : σ) (hrv : rv ≠ EST_ERROR.EST_ERR_NONE) :
    ((whenC (truthy g.verbose)
        (call L (Call.printf "\nenrollment rv = %d (%s) with pkcs7 length = %d\n"
          [Arg.err rv, Arg.errstr rv, Arg.int len]) >>= fun _ =>
          (pure PUnit.unit : Prog σ PUnit)) >>= fun _ =>
      if rv = EST_ERROR.EST_ERR_NONE then retrieve_and_save L g len else pure rv) s).1
      = Res.ok rv := by
  cases hv : truthy g.verbose <;>
    simp [hv, hrv, whenC, seq_apply, Prog.seq, Prog.ret, call_apply, pure_apply]

theorem attempt_end_no_submission {σ : Type} (L : Lib σ) (g : Globals) (rv : EST_ERROR)
    (len : Int) :
    Bounded isSubmission 0
      (whenC (truthy g.verbose)
        (call L (Call.printf "\nenrollment rv = %d (%s) with pkcs7 length = %d\n"
          [Arg.err rv, Arg.errstr rv, Arg.int len]) >>= fun _ =>
          (pure PUnit.unit : Prog σ PUnit)) >>= fun _ =>
      if rv = EST_ERROR.EST_ERR_NONE then retrieve_and_save L g len else pure rv) := by
  repeat' first
    | exact bounded_pure _ _
    | exact bounded_call_zero L _ (fun _ => rfl)
    | exact retrieve_and_save_plain L g plain_not_submission _
    | apply bounded_seq_zero
    | apply bounded_whenC
    | apply bounded_ite
    | intro _

/-- A submission followed by the end of an attempt. -/
theorem sd_submit {σ : Type} (L : Lib σ) (g : Globals) (c : Call)
    (hc : ∀ r, submissionResult (Event.call c r) = some r.rv) :
    SubmissionDecides (call L c >>= fun e =>
      whenC (truthy g.verbose)
        (call L (Call.printf "\nenrollment rv = %d (%s) with pkcs7 length = %d\n"
          [Arg.err e.rv, Arg.errstr e.rv, Arg.int e.len]) >>= fun _ =>
          (pure PUnit.unit : Prog σ PUnit)) >>= fun _ =>
      if e.rv = EST_ERROR.EST_ERR_NONE then retrieve_and_save L g e.len else pure e.rv) := by
  intro s rv hmem hne
  rw [seq_ok _ _ s (L c s).1 rfl] at hmem ⊢
  have h0 := bounded_submissionResults
    (attempt_end_no_submission L g (L c s).1.rv (L c s).1.len) (call L c s).2.1
  simp only [submissionResults_append, h0, List.append_nil] at hmem
  have h1 : submissionResults (call L c s).2.2 = [(L c s).1.rv] := by
    simp [call_apply, submissionResults, hc]
  rw [h1] at hmem
  simp at hmem
  subst hmem
  exact attempt_end_failure L g _ _ _ hne

theorem regular_enroll_attempt_body_sd {σ : Type} (L : Lib σ) (g : Globals) (fuel : Nat) :
    SubmissionDecides (regular_enroll_attempt_body L g fuel) := by
  unfold regular_enroll_attempt_body
  repeat' first
    | exact sd_pure _
    | exact sd_submit L g _ (fun _ => rfl)
    | exact bounded_call_zero L _ (fun _ => rfl)
    | exact populate_x509_csr_plain L plain_not_submission _ _
    | exact attribute_loop_quiet L (fun _ _ _ h => h) _ _ _ _ _
    | apply sd_seq
    | split
    | intro _

/-- A submission of `simple_enroll_attempt` hands its result code on. -/
theorem simple_submission_results {σ : Type} (L : Lib σ) (g : Globals) (s : σ)
    (x : EST_ERROR)
    (hx : x ∈ submissionResults ((if nonEmpty g.csr_file = true then
          read_csr L g.csr_file >>= fun csr =>
            match csr with
            | none => (pure (EST_ERROR.EST_ERR_PEM_READ, (0 : Int)) : Prog σ (EST_ERROR × Int))
            | some c =>
              call L (Call.est_client_enroll_csr c false) >>= fun r =>
                call L (Call.X509_REQ_free c) >>= fun _ => pure (r.rv, r.len)
        else
          call L (Call.est_client_enroll g.subj_cn) >>= fun r =>
            (pure (r.rv, r.len) : Prog σ (EST_ERROR × Int))) s).2.2) :
    ∃ len, ((if nonEmpty g.csr_file = true then
          read_csr L g.csr_file >>= fun csr =>
            match csr with
            | none => (pure (EST_ERROR.EST_ERR_PEM_READ, (0 : Int)) : Prog σ (EST_ERROR × Int))
            | some c =>
              call L (Call.est_client_enroll_csr c false) >>= fun r =>
                call L (Call.X509_REQ_free c) >>= fun _ => pure (r.rv, r.len)
        else
          call L (Call.est_client_enroll g.subj_cn) >>= fun r =>
            (pure (r.rv, r.len) : Prog σ (EST_ERROR × Int))) s).1 = Res.ok (x, len) := by
  cases hf : nonEmpty g.csr_file
  · rw [hf] at hx
    simp [seq_apply, Prog.seq, Prog.ret, pure_apply, call_apply, submissionResults,
      submissionResult] at hx
    subst hx
    exact ⟨(L (Call.est_client_enroll g.subj_cn) s).1.len, by
      simp [seq_apply, Prog.seq, Prog.ret, pure_apply, call_apply]⟩
  · rw [hf] at hx
    obtain ⟨c, hc⟩ := read_csr_returns L g.csr_file s
    simp only [if_true] at hx ⊢
    rw [seq_ok _ _ s c hc] at hx ⊢
    have h0 := bounded_submissionResults (read_csr_plain L plain_not_submission g.csr_file) s
    simp only [submissionResults_append, h0, List.nil_append] at hx
    cases c with
    | none => simp [pure_apply, submissionResults] at hx
    | some c =>
      simp [seq_apply, Prog.seq, Prog.ret, pure_apply, call_apply, submissionResults,
        submissionResult] at hx
      subst hx
      exact ⟨(L (Call.est_client_enroll_csr c false) (read_csr L g.csr_file s).2.1).1.len, by
        simp [seq_apply, Prog.seq, Prog.ret, pure_apply, call_apply]⟩

theorem simple_enroll_attempt_body_sd {σ : Type} (L : Lib σ) (g : Globals) :
    SubmissionDecides (simple_enroll_attempt_body L g) := by
  unfold simple_enroll_attempt_body
  apply sd_seq
  · repeat' first
      | exact bounded_pure _ _
      | exact bounded_call_zero L _ (fun _ => rfl)
      | apply bounded_seq_zero
      | apply bounded_whenC
      | intro _
  intro _ s rv hmem hne
  generalize hmid : (ite (nonEmpty g.csr_file = true) _ _ : Prog σ (EST_ERROR × Int)) = mid
    at hmem ⊢
  have hres : ∀ x, x ∈ submissionResults (mid s).2.2 → ∃ len, (mid s).1 = Res.ok (x, len) := by
    rw [← hmid]
    exact simple_submission_results L g s
  rcases res_ok_or_not (mid s).1 with ⟨a, ha⟩ | hn
  · rw [seq_ok mid _ s a ha] at hmem ⊢
    obtain ⟨rv0, len0⟩ := a
    have h0 := bounded_submissionResults (attempt_end_no_submission L g rv0 len0) (mid s).2.1
    simp only [submissionResults_append] at hmem
    rw [h0, List.append_nil] at hmem
    obtain ⟨len, hlen⟩ := hres rv hmem
    rw [hlen] at ha
    injection ha with ha
    injection ha with h1 h2
    subst h1 h2
    exact attempt_end_failure L g _ _ _ hne
  · rw [(seq_not_ok mid _ s hn).1] at hmem
    obtain ⟨len, hlen⟩ := hres rv hmem
    exact absurd hlen (hn _)

theorem head_mem_of_eq_some {α : Type} (l : List α) (a : α) (h : l.head? = some a) :
    a ∈ l := by
  cases l with
  | nil => simp at h
  | cons x xs =>
    simp at h
    subst h
    simp

/-- The first attempt returns the failure code of its submission: `rest` is
what the run emits after the attempt, nothing if the attempt does not return. -/
theorem wrapped_attempt_first {σ : Type} (fn : String)
    (hfn : isAttemptLeave (Event.leave fn EST_ERROR.EST_ERR_NONE) = true)
    (body : Prog σ EST_ERROR) (hleave : Bounded isAttemptLeave 0 body)
    (hsd : SubmissionDecides body) (s : σ) (rest : List Event) (rv : EST_ERROR)
    (hrest : (∀ a, ((emit (Event.enter fn) >>= fun _ => body >>= fun rv =>
        emit (Event.leave fn rv) >>= fun _ => (pure rv : Prog σ EST_ERROR)) s).1 ≠ Res.ok a)
        → rest = [])
    (hfirst : firstAttemptSubmission
        (((emit (Event.enter fn) >>= fun _ => body >>= fun rv =>
          emit (Event.leave fn rv) >>= fun _ => (pure rv : Prog σ EST_ERROR)) s).2.2 ++ rest)
        = some rv)
    (hne : rv ≠ EST_ERROR.EST_ERR_NONE) :
    ((emit (Event.enter fn) >>= fun _ => body >>= fun rv =>
        emit (Event.leave fn rv) >>= fun _ => (pure rv : Prog σ EST_ERROR)) s).1 = Res.ok rv := by
  have hb := hsd s
  have hl : List.countP isAttemptLeave (body s).2.2 = 0 := Nat.le_zero.mp (hleave s)
  have hfn2 : ∀ x, isAttemptLeave (Event.leave fn x) = true := fun x => hfn
  rcases hbs : body s with ⟨r, s1, t⟩
  rw [hbs] at hb hl
  simp only at hb hl
  cases r with
  | ok rv0 =>
    have hev : ((emit (Event.enter fn) >>= fun _ => body >>= fun rv =>
          emit (Event.leave fn rv) >>= fun _ => (pure rv : Prog σ EST_ERROR)) s).2.2 ++ rest
        = Event.enter fn :: (t ++ (Event.leave fn rv0 :: rest)) := by
      simp [seq_apply, Prog.seq, emit, hbs, pure_apply, Prog.ret]
    rw [hev] at hfirst
    have h1 : firstAttemptSubmission (Event.enter fn :: (t ++ (Event.leave fn rv0 :: rest)))
        = firstAttemptSubmission (t ++ (Event.leave fn rv0 :: rest)) := rfl
    rw [h1, firstAttemptSubmission_append t _ hl] at hfirst
    cases hh : (submissionResults t).head? with
    | none =>
      rw [hh] at hfirst
      simp [firstAttemptSubmission, hfn2] at hfirst
    | some x =>
      rw [hh] at hfirst
      simp only [Option.some.injEq] at hfirst
      subst hfirst
      have := hb x (head_mem_of_eq_some _ _ hh) hne
      injection this with h2
      subst h2
      simp [seq_apply, Prog.seq, emit, hbs, pure_apply, Prog.ret]
  | exited c =>
    have hr : rest = [] := hrest (by
      intro a
      simp [seq_apply, Prog.seq, emit, hbs])
    subst hr
    have hev : ((emit (Event.enter fn) >>= fun _ => body >>= fun rv =>
          emit (Event.leave fn rv) >>= fun _ => (pure rv : Prog σ EST_ERROR)) s).2.2 ++ []
        = Event.enter fn :: (t ++ []) := by
      simp [seq_apply, Prog.seq, emit, hbs]
    rw [hev] at hfirst
    have h1 : firstAttemptSubmission (Event.enter fn :: (t ++ []))
        = firstAttemptSubmission (t ++ []) := rfl
    rw [h1, firstAttemptSubmission_append t _ hl] at hfirst
    cases hh : (submissionResults t).head? with
    | none =>
      rw [hh] at hfirst
      simp [firstAttemptSubmission] at hfirst
    | some x =>
      have := hb x (head_mem_of_eq_some _ _ hh)
      rw [hh] at hfirst
      simp only [Option.some.injEq] at hfirst
      subst hfirst
      exact absurd (this hne) (by simp)
  | timeout =>
    have hr : rest = [] := hrest (by
      intro a
      simp [seq_apply, Prog.seq, emit, hbs])
    subst hr
    have hev : ((emit (Event.enter fn) >>= fun _ => body >>= fun rv =>
          emit (Event.leave fn rv) >>= fun _ => (pure rv : Prog σ EST_ERROR)) s).2.2 ++ []
        = Event.enter fn :: (t ++ []) := by
      simp [seq_apply, Prog.seq, emit, hbs]
    rw [hev] at hfirst
    have h1 : firstAttemptSubmission (Event.enter fn :: (t ++ []))
        = firstAttemptSubmission (t ++ []) := rfl
    rw [h1, firstAttemptSubmission_append t _ hl] at hfirst
    cases hh : (submissionResults t).head? with
    | none =>
      rw [hh] at hfirst
      simp [firstAttemptSubmission] at hfirst
    | some x =>
      have := hb x (head_mem_of_eq_some _ _ hh)
      rw [hh] at hfirst
      simp only [Option.some.injEq] at hfirst
      subst hfirst
      exact absurd (this hne) (by simp)

/-- Two attempts around a retry step: when the first attempt returns the
failure code `rv` of its submission and `rv` is not the retry code `R`, the
sequence is the first attempt alone and returns `rv`. -/
theorem retry_sequence_first_failure {σ : Type} (att : Prog σ EST_ERROR)
    (retry : Prog σ Unit) (op : String) (R : EST_ERROR)
    (hatt : ∀ s rest rv, ((∀ a, (att s).1 ≠ Res.ok a) → rest = []) →
      firstAttemptSubmission ((att s).2.2 ++ rest) = some rv →
      rv ≠ EST_ERROR.EST_ERR_NONE → (att s).1 = Res.ok rv)
    (s : σ) (rest : List Event) (rv : EST_ERROR)
    (hrest : (∀ a, ((att >>= fun rv =>
        if rv = R then
          retry >>= fun _ => att >>= fun rv2 => (pure (op, rv2) : Prog σ (String × EST_ERROR))
        else pure (op, rv)) s).1 ≠ Res.ok a) → rest = [])
    (hfirst : firstAttemptSubmission (((att >>= fun rv =>
        if rv = R then
          retry >>= fun _ => att >>= fun rv2 => (pure (op, rv2) : Prog σ (String × EST_ERROR))
        else pure (op, rv)) s).2.2 ++ rest) = some rv)
    (hne : rv ≠ EST_ERROR.EST_ERR_NONE) (hnr : rv ≠ R) :
    (att >>= fun rv =>
        if rv = R then
          retry >>= fun _ => att >>= fun rv2 => (pure (op, rv2) : Prog σ (String × EST_ERROR))
        else pure (op, rv)) s = (Res.ok (op, rv), (att s).2.1, (att s).2.2)
      ∧ (att s).1 = Res.ok rv := by
  rcases res_ok_or_not (att s).1 with ⟨rv0, h0⟩ | hn
  · rw [seq_ok _ _ s rv0 h0] at hfirst ⊢
    rw [List.append_assoc] at hfirst
    have h1 := hatt s _ rv (fun h => absurd h0 (h rv0)) hfirst hne
    refine ⟨?_, h1⟩
    rw [h1] at h0
    injection h0 with h0
    subst h0
    simp [hnr, pure_apply]
  · have h2 := seq_not_ok att (fun rv =>
        if rv = R then
          retry >>= fun _ => att >>= fun rv2 => (pure (op, rv2) : Prog σ (String × EST_ERROR))
        else pure (op, rv)) s hn
    have hr : rest = [] := hrest h2.2
    subst hr
    rw [h2.1] at hfirst
    exact absurd (hatt s [] rv (fun _ => rfl) hfirst hne) (hn rv)

theorem first_skip (p x : List Event) (h1 : List.countP isAttemptLeave p = 0)
    (h2 : List.countP isSubmission p = 0) :
    firstAttemptSubmission (p ++ x) = firstAttemptSubmission x := by
  rw [firstAttemptSubmission_append p x h1, no_submissions p h2]
  rfl

theorem first_some_pos (t : List Event) (rv : EST_ERROR)
    (h : firstAttemptSubmission t = some rv) : 0 < List.countP isSubmission t := by
  induction t with
  | nil => simp [firstAttemptSubmission] at h
  | cons e t ih =>
    rw [List.countP_cons]
    cases e with
    | enter fn => exact Nat.lt_of_lt_of_le (ih h) (Nat.le_add_right _ _)
    | leave fn x =>
      by_cases hl : isAttemptLeave (Event.leave fn x) = true
      · simp [firstAttemptSubmission, hl] at h
      · have h2 : firstAttemptSubmission t = some rv := by
          simpa [firstAttemptSubmission, hl] using h
        exact Nat.lt_of_lt_of_le (ih h2) (Nat.le_add_right _ _)
    | call c r =>
      cases c <;>
        first
        | exact Nat.lt_of_lt_of_le (ih h) (Nat.le_add_right _ _)
        | simp [isSubmission]

theorem simple_enroll_attempt_first {σ : Type} (L : Lib σ) (g : Globals) (s : σ)
    (rest : List Event) (rv : EST_ERROR)
    (hrest : (∀ a, (simple_enroll_attempt L g s).1 ≠ Res.ok a) → rest = [])
    (hfirst : firstAttemptSubmission ((simple_enroll_attempt L g s).2.2 ++ rest) = some rv)
    (hne : rv ≠ EST_ERROR.EST_ERR_NONE) : (simple_enroll_attempt L g s).1 = Res.ok rv :=
  wrapped_attempt_first "simple_enroll_attempt" rfl (simple_enroll_attempt_body L g)
    (simple_enroll_attempt_body_quiet L g plain_not_attempt_leave (fun _ _ _ => rfl))
    (simple_enroll_attempt_body_sd L g) s rest rv hrest hfirst hne

theorem regular_enroll_attempt_first {σ : Type} (L : Lib σ) (g : Globals) (fuel : Nat)
    (s : σ) (rest : List Event) (rv : EST_ERROR)
    (hrest : (∀ a, (regular_enroll_attempt L g fuel s).1 ≠ Res.ok a) → rest = [])
    (hfirst : firstAttemptSubmission ((regular_enroll_attempt L g fuel s).2.2 ++ rest)
        = some rv)
    (hne : rv ≠ EST_ERROR.EST_ERR_NONE) :
    (regular_enroll_attempt L g fuel s).1 = Res.ok rv :=
  wrapped_attempt_first "regular_enroll_attempt" rfl (regular_enroll_attempt_body L g fuel)
    (regular_enroll_attempt_body_quiet L g fuel plain_not_attempt_leave (fun _ _ _ => rfl))
    (regular_enroll_attempt_body_sd L g fuel) s rest rv hrest hfirst hne

/-- When the submission of the first attempt returns a failure code other than
the retry code, the enroll part of `do_operation` is that attempt alone. -/
theorem do_operation_enroll_first_failure {σ : Type} (L : Lib σ) (g : Globals) (fuel : Nat)
    (st : String × EST_ERROR) (s : σ) (rest : List Event) (rv : EST_ERROR)
    (he : truthy g.enroll = true)
    (hrest : (∀ a, (do_operation_enroll L g fuel st s).1 ≠ Res.ok a) → rest = [])
    (hfirst : firstAttemptSubmission ((do_operation_enroll L g fuel st s).2.2 ++ rest)
        = some rv)
    (hne : rv ≠ EST_ERROR.EST_ERR_NONE) (hnr : rv ≠ EST_ERROR.EST_ERR_CA_ENROLL_RETRY) :
    do_operation_enroll L g fuel st s
        = (Res.ok (enrollOperation g, rv), (firstAttempt L g fuel s).2.1,
            (firstAttempt L g fuel s).2.2)
      ∧ (firstAttempt L g fuel s).1 = Res.ok rv := by
  unfold do_operation_enroll at hrest hfirst ⊢
  unfold firstAttempt enrollOperation
  cases hc : truthy g.getcsr
  · simp only [he, hc, Bool.and_self, Bool.not_false, Bool.and_false, Bool.and_true,
      Bool.false_eq_true, if_false, if_true] at hrest hfirst ⊢
    exact retry_sequence_first_failure (simple_enroll_attempt L g) (retry_after_step L g) _ _
      (simple_enroll_attempt_first L g) s rest rv hrest hfirst hne hnr
  · simp only [he, hc, Bool.and_self, if_true] at hrest hfirst ⊢
    exact retry_sequence_first_failure (regular_enroll_attempt L g fuel)
      (retry_after_step L g) _ _
      (regular_enroll_attempt_first L g fuel) s rest rv hrest hfirst hne hnr

theorem wrapped_attempt_count {σ : Type} (fn : String)
    (hfn : isAttempt (Event.enter fn) = true)
    (body : Prog σ EST_ERROR) (hbody : Bounded isAttempt 0 body) (s : σ) :
    List.countP isAttempt ((emit (Event.enter fn) >>= fun _ => body >>= fun rv =>
        emit (Event.leave fn rv) >>= fun _ => (pure rv : Prog σ EST_ERROR)) s).2.2 = 1 := by
  have hb : List.countP isAttempt (body s).2.2 = 0 := Nat.le_zero.mp (hbody s)
  rcases hbs : body s with ⟨r, s1, t⟩
  rw [hbs] at hb
  simp only at hb
  have hl : ∀ x, isAttempt (Event.leave fn x) = false := fun _ => rfl
  cases r <;>
    simp [seq_apply, Prog.seq, emit, hbs, pure_apply, Prog.ret, List.countP_cons,
      List.countP_append, hb, hfn, hl]

theorem firstAttempt_facts {σ : Type} (L : Lib σ) (g : Globals) (fuel : Nat) (s : σ) :
    List.countP isAttempt (firstAttempt L g fuel s).2.2 = 1
      ∧ List.countP isSubmission (firstAttempt L g fuel s).2.2 ≤ 1
      ∧ List.countP isSleep (firstAttempt L g fuel s).2.2 = 0
      ∧ ∀ rv, (firstAttempt L g fuel s).1 = Res.ok rv
          → attemptResults (firstAttempt L g fuel s).2.2 = [rv] := by
  unfold firstAttempt
  cases hc : truthy g.getcsr
  · simp only [Bool.false_eq_true, if_false]
    refine ⟨?_, ?_, ?_, ?_⟩
    · exact wrapped_attempt_count "simple_enroll_attempt" rfl _
        (simple_enroll_attempt_body_quiet L g plain_not_attempt (fun _ _ _ => rfl)) s
    · exact (simple_enroll_attempt_bounded L g (bounded_emit_zero _ rfl) (fun _ => rfl)
        (simple_enroll_attempt_body_submissions L g)) s
    · exact Nat.le_zero.mp ((simple_enroll_attempt_bounded L g (bounded_emit_zero _ rfl)
        (fun _ => rfl)
        (simple_enroll_attempt_body_quiet L g plain_not_sleep (fun _ _ h => h))) s)
    · intro rv hok
      rcases simple_enroll_attempt_results L g s with ⟨rv2, h1, h2⟩ | ⟨h1, _⟩
      · rw [hok] at h1
        injection h1 with h1
        rw [h2, h1]
      · exact absurd hok (h1 rv)
  · simp only [if_true]
    refine ⟨?_, ?_, ?_, ?_⟩
    · exact wrapped_attempt_count "regular_enroll_attempt" rfl _
        (regular_enroll_attempt_body_quiet L g fuel plain_not_attempt (fun _ _ _ => rfl)) s
    · exact (regular_enroll_attempt_bounded L g fuel (bounded_emit_zero _ rfl) (fun _ => rfl)
        (regular_enroll_attempt_body_submissions L g fuel)) s
    · exact Nat.le_zero.mp ((regular_enroll_attempt_bounded L g fuel (bounded_emit_zero _ rfl)
        (fun _ => rfl)
        (regular_enroll_attempt_body_quiet L g fuel plain_not_sleep (fun _ _ h => h))) s)
    · intro rv hok
      rcases regular_enroll_attempt_results L g fuel s with ⟨rv2, h1, h2⟩ | ⟨h1, _⟩
      · rw [hok] at h1
        injection h1 with h1
        rw [h2, h1]
      · exact absurd hok (h1 rv)

/-- C18. In every run of `do_operation` with the enroll flag set (and hence,
by the option check in `main`, the re-enroll flag clear) in which the
submission of the first enrollment attempt returns a code `rv` other than
`EST_ERR_NONE` and `EST_ERR_CA_ENROLL_RETRY`: exactly one enrollment attempt is
entered and it returns `rv`, exactly one request is submitted, `sleep` is not
called, and `do_operation` reports the failure of the enrollment operation
with the code `rv` and ends with `rv`. -/
theorem do_operation_failure_verbatim {σ : Type} (L : Lib σ) (g : Globals) (fuel : Nat)
    (s : σ) (rv : EST_ERROR) (henroll : g.enroll ≠ 0) (hre : g.reenroll = 0)
    (hfirst : firstAttemptSubmission ((do_operation L g fuel).events s) = some rv)
    (hne : rv ≠ EST_ERROR.EST_ERR_NONE) (hnr : rv ≠ EST_ERROR.EST_ERR_CA_ENROLL_RETRY) :
    List.countP isAttempt ((do_operation L g fuel).events s) = 1
      ∧ attemptResults ((do_operation L g fuel).events s) = [rv]
      ∧ List.countP isSubmission ((do_operation L g fuel).events s) = 1
      ∧ List.countP isSleep ((do_operation L g fuel).events s) = 0
      ∧ (do_operation L g fuel).result s = Res.ok rv
      ∧ ∃ r, Event.call (failure_report (enrollOperation g) rv) r
          ∈ (do_operation L g fuel).events s := by
  have he : truthy g.enroll = true := by simp [truthy, henroll]
  have hr : truthy g.reenroll = false := by simp [truthy, hre]
  have hpos := first_some_pos _ _ hfirst
  simp only [Prog.events, Prog.result] at hfirst hpos ⊢
  unfold do_operation at hfirst hpos ⊢
  have hinit : ∀ (p : Event → Bool), (∀ e, plain e = true → p e = false) → ∀ s,
      List.countP p (do_operation_init L g s).2.2 = 0 :=
    fun p hp s => Nat.le_zero.mp (do_operation_init_plain L g hp s)
  have hget : ∀ (p : Event → Bool), (∀ e, plain e = true → p e = false) → ∀ st s,
      List.countP p (do_operation_getcert L g st s).2.2 = 0 :=
    fun p hp st s => Nat.le_zero.mp (do_operation_getcert_plain L g hp st s)
  have hfin : ∀ (p : Event → Bool), (∀ e, plain e = true → p e = false) → ∀ st s,
      List.countP p (do_operation_finish L st s).2.2 = 0 :=
    fun p hp st s => Nat.le_zero.mp (do_operation_finish_plain L hp st s)
  rcases res_ok_or_not (do_operation_init L g s).1 with ⟨rv0, h0⟩ | h0
  · rw [seq_ok _ _ s rv0 h0] at hfirst hpos ⊢
    rw [first_skip _ _ (hinit _ plain_not_attempt_leave s) (hinit _ plain_not_submission s)]
      at hfirst
    simp only [List.countP_append, attemptResults_append, hinit _ plain_not_attempt s,
      hinit _ plain_not_submission s, hinit _ plain_not_sleep s,
      attemptResults_eq_nil _ (hinit _ plain_not_attempt_leave s), List.nil_append,
      Nat.zero_add, List.mem_append] at hpos ⊢
    generalize (do_operation_init L g s).2.1 = s1 at hfirst hpos ⊢
    generalize (do_operation_init L g s).2.2 = t0 at hfirst hpos ⊢
    rcases res_ok_or_not (do_operation_getcert L g ("", rv0) s1).1 with ⟨st1, h1⟩ | h1
    · rw [seq_ok _ _ s1 st1 h1] at hfirst hpos ⊢
      rw [first_skip _ _ (hget _ plain_not_attempt_leave _ s1)
        (hget _ plain_not_submission _ s1)] at hfirst
      simp only [List.countP_append, attemptResults_append, hget _ plain_not_attempt _ s1,
        hget _ plain_not_submission _ s1, hget _ plain_not_sleep _ s1,
        attemptResults_eq_nil _ (hget _ plain_not_attempt_leave _ s1), List.nil_append,
        Nat.zero_add, List.mem_append] at hpos ⊢
      generalize (do_operation_getcert L g ("", rv0) s1).2.1 = s2 at hfirst hpos ⊢
      generalize (do_operation_getcert L g ("", rv0) s1).2.2 = t1 at hfirst hpos ⊢
      rcases res_ok_or_not (do_operation_enroll L g fuel st1 s2).1 with ⟨st2, h2⟩ | h2
      · rw [seq_ok _ _ s2 st2 h2] at hfirst hpos ⊢
        obtain ⟨hE, hok⟩ := do_operation_enroll_first_failure L g fuel st1 s2 _ rv he
          (fun h => absurd h2 (h st2)) hfirst hne hnr
        rw [hE] at h2
        injection h2 with h2
        subst h2
        rw [hE] at hpos ⊢
        simp only at hpos ⊢
        obtain ⟨f1, f2, f3, f4⟩ := firstAttempt_facts L g fuel s2
        have f5 := f4 rv hok
        clear hfirst
        generalize (firstAttempt L g fuel s2).2.1 = s3 at hpos ⊢
        generalize (firstAttempt L g fuel s2).2.2 = ta at hpos f1 f2 f3 f5 ⊢
        have hpure : do_operation_reenroll L g (enrollOperation g, rv) s3
            = (Res.ok (enrollOperation g, rv), s3, []) := by
          simp [do_operation_reenroll, hr, pure_apply]
        rw [seq_ok _ _ s3 _ (by rw [hpure])] at hpos ⊢
        simp only [hpure, List.nil_append] at hpos ⊢
        have hf := do_operation_finish_failure L (enrollOperation g) rv hne s3
        simp only [List.countP_append, attemptResults_append, hfin _ plain_not_attempt _ s3,
          hfin _ plain_not_submission _ s3, hfin _ plain_not_sleep _ s3,
          attemptResults_eq_nil _ (hfin _ plain_not_attempt_leave _ s3), List.append_nil,
          Nat.add_zero] at hpos ⊢
        refine ⟨f1, f5, by omega, f3, hf.1, ?_⟩
        obtain ⟨r, hmem⟩ := hf.2
        exact ⟨r, Or.inr (Or.inr (List.mem_append.mpr (Or.inr hmem)))⟩
      · exfalso
        have h3 := seq_not_ok (do_operation_enroll L g fuel st1)
          (fun st2 => do_operation_reenroll L g st2 >>= fun st3 => do_operation_finish L st3)
          s2 h2
        rw [h3.1] at hfirst
        have hE := (do_operation_enroll_first_failure L g fuel st1 s2 [] rv he
          (fun _ => rfl) (by simpa using hfirst) hne hnr).1
        rw [hE] at h2
        exact h2 _ rfl
    · exfalso
      have h3 := seq_not_ok (do_operation_getcert L g ("", rv0))
        (fun st1 => do_operation_enroll L g fuel st1 >>= fun st2 =>
          do_operation_reenroll L g st2 >>= fun st3 => do_operation_finish L st3) s1 h1
      rw [h3.1] at hfirst
      have := first_skip (do_operation_getcert L g ("", rv0) s1).2.2 []
        (hget _ plain_not_attempt_leave _ s1) (hget _ plain_not_submission _ s1)
      rw [List.append_nil] at this
      rw [this] at hfirst
      simp [firstAttemptSubmission] at hfirst
  · exfalso
    have h3 := seq_not_ok (do_operation_init L g)
      (fun rv0 => do_operation_getcert L g ("", rv0) >>= fun st1 =>
        do_operation_enroll L g fuel st1 >>= fun st2 =>
        do_operation_reenroll L g st2 >>= fun st3 => do_operation_finish L st3) s h0
    rw [h3.1] at hfirst
    have := first_skip (do_operation_init L g s).2.2 []
      (hinit _ plain_not_attempt_leave s) (hinit _ plain_not_submission s)
    rw [List.append_nil] at this
    rw [this] at hfirst
    simp [firstAttemptSubmission] at hfirst

/-- C18 on a quiet simple enrollment that the server refuses with the code 5. -/
theorem do_operation_failure_verbatim_witness :
    quietEnroll.enroll ≠ 0 ∧ quietEnroll.reenroll = 0
      ∧ firstAttemptSubmission ((do_operation scripted quietEnroll 0).events refusedAtOnce)
          = some (EST_ERROR.other 5)
      ∧ attemptResults ((do_operation scripted quietEnroll 0).events refusedAtOnce)
          = [(EST_ERROR.other 5)]
      ∧ (do_operation scripted quietEnroll 0).result refusedAtOnce
          = Res.ok (EST_ERROR.other 5) :=
  ⟨by decide, by decide, by decide,
    (do_operation_failure_verbatim scripted quietEnroll 0 refusedAtOnce
      (EST_ERROR.other 5) (by decide) (by decide) (by decide) (by decide)
      (by decide)).2.1,
    (do_operation_failure_verbatim scripted quietEnroll 0 refusedAtOnce
      (EST_ERROR.other 5) (by decide) (by decide) (by decide) (by decide)
      (by decide)).2.2.2.2.1⟩

/-! ## A CSR file that cannot be read -/

theorem no_csr_failure (t : List Event) (h : List.countP csrReadFailed t = 0) :
    ¬ ∃ e ∈ t, csrReadFailed e = true := by
  rintro ⟨e, he, hp⟩
  rw [List.countP_eq_zero] at h
  exact h e he hp

theorem ca_of_bounded {σ : Type} {m : Prog σ EST_ERROR} (h : Bounded csrReadFailed 0 m) :
    CsrAborts m :=
  fun s he => absurd he (no_csr_failure _ (Nat.le_zero.mp (h s)))

theorem ca_seq {σ α : Type} {m : Prog σ α} {f : α → Prog σ EST_ERROR}
    (h1 : Bounded csrReadFailed 0 m) (h2 : Bounded isSubmission 0 m)
    (h3 : Bounded isWrite 0 m) (hf : ∀ a, CsrAborts (f a)) : CsrAborts (m >>= f) := by
  intro s he
  have hn := no_csr_failure _ (Nat.le_zero.mp (h1 s))
  rcases res_ok_or_not (m s).1 with ⟨a, ha⟩ | hn2
  · rw [seq_ok m f s a ha] at he ⊢
    simp only at he ⊢
    obtain ⟨e, hmem, hp⟩ := he
    rcases List.mem_append.mp hmem with hm | hm
    · exact absurd ⟨e, hm, hp⟩ hn
    · obtain ⟨r1, r2, r3⟩ := hf a _ ⟨e, hm, hp⟩
      refine ⟨r1, ?_, ?_⟩
      · rw [List.countP_append, r2, Nat.le_zero.mp (h2 s)]
      · rw [fileWrites_append, r3, bounded_fileWrites h3 s]
        rfl
  · rw [(seq_not_ok m f s hn2).1] at he
    exact absurd he hn

/-- The function `read_csr` returns `NULL` exactly when one of its two library
calls failed. -/
theorem read_csr_failed_iff {σ : Type} (L : Lib σ) (csr_file : String) (s : σ) :
    (read_csr L csr_file s).1 = Res.ok none
      ↔ ∃ e ∈ (read_csr L csr_file s).2.2, csrReadFailed e = true := by
  by_cases h1 : (L (Call.BIO_read_filename csr_file) (L Call.BIO_new s).2).1.ret ≤ 0
  · constructor
    · intro _
      refine ⟨Event.call (Call.BIO_read_filename csr_file)
        (L (Call.BIO_read_filename csr_file) (L Call.BIO_new s).2).1, ?_, ?_⟩
      · simp [read_csr, h1, seq_apply, Prog.seq, Prog.ret, pure_apply, call_apply]
      · simp [csrReadFailed, h1]
    · intro _
      simp [read_csr, h1, seq_apply, Prog.seq, Prog.ret, pure_apply, call_apply]
  · rcases h2 : (L Call.PEM_read_bio_X509_REQ
        (L (Call.BIO_read_filename csr_file) (L Call.BIO_new s).2).2).1.ptr with _ | c
    · constructor
      · intro _
        refine ⟨Event.call Call.PEM_read_bio_X509_REQ (L Call.PEM_read_bio_X509_REQ
          (L (Call.BIO_read_filename csr_file) (L Call.BIO_new s).2).2).1, ?_, ?_⟩
        · simp [read_csr, h1, h2, seq_apply, Prog.seq, Prog.ret, pure_apply, call_apply]
        · simp [csrReadFailed, h2]
      · intro _
        simp [read_csr, h1, h2, seq_apply, Prog.seq, Prog.ret, pure_apply, call_apply]
    · constructor
      · intro h
        simp [read_csr, h1, h2, seq_apply, Prog.seq, Prog.ret, pure_apply, call_apply] at h
      · rintro ⟨e, he, hp⟩
        simp [read_csr, h1, h2, seq_apply, Prog.seq, Prog.ret, pure_apply, call_apply] at he
        rcases he with he | he | he | he <;> subst he <;>
          simp [csrReadFailed, h1, h2] at hp

theorem retrieve_and_save_csr_free {σ : Type} (L : Lib σ) (g : Globals) (pkcs7_len : Int) :
    Bounded csrReadFailed 0 (retrieve_and_save L g pkcs7_len) := by
  unfold retrieve_and_save save_cert
  repeat' first
    | exact bounded_pure _ _
    | exact bounded_call_zero L _ (fun _ => rfl)
    | apply bounded_seq_zero
    | apply bounded_whenC
    | apply bounded_ite
    | split
    | intro _

/-- The CSR step of `simple_enroll_attempt` after a failed read: the code is
`EST_ERR_PEM_READ` and nothing was submitted or written. -/
theorem simple_csr_step {σ : Type} (L : Lib σ) (g : Globals) (s : σ)
    (h : ∃ e ∈ ((if nonEmpty g.csr_file = true then
          read_csr L g.csr_file >>= fun csr =>
            match csr with
            | none => (pure (EST_ERROR.EST_ERR_PEM_READ, (0 : Int)) : Prog σ (EST_ERROR × Int))
            | some c =>
              call L (Call.est_client_enroll_csr c false) >>= fun r =>
                call L (Call.X509_REQ_free c) >>= fun _ => pure (r.rv, r.len)
        else
          call L (Call.est_client_enroll g.subj_cn) >>= fun r =>
            (pure (r.rv, r.len) : Prog σ (EST_ERROR × Int))) s).2.2, csrReadFailed e = true) :
    ((if nonEmpty g.csr_file = true then
          read_csr L g.csr_file >>= fun csr =>
            match csr with
            | none => (pure (EST_ERROR.EST_ERR_PEM_READ, (0 : Int)) : Prog σ (EST_ERROR × Int))
            | some c =>
              call L (Call.est_client_enroll_csr c false) >>= fun r =>
                call L (Call.X509_REQ_free c) >>= fun _ => pure (r.rv, r.len)
        else
          call L (Call.est_client_enroll g.subj_cn) >>= fun r =>
            (pure (r.rv, r.len) : Prog σ (EST_ERROR × Int))) s).1
        = Res.ok (EST_ERROR.EST_ERR_PEM_READ, 0)
      ∧ List.countP isSubmission ((if nonEmpty g.csr_file = true then
          read_csr L g.csr_file >>= fun csr =>
            match csr with
            | none => (pure (EST_ERROR.EST_ERR_PEM_READ, (0 : Int)) : Prog σ (EST_ERROR × Int))
            | some c =>
              call L (Call.est_client_enroll_csr c false) >>= fun r =>
                call L (Call.X509_REQ_free c) >>= fun _ => pure (r.rv, r.len)
        else
          call L (Call.est_client_enroll g.subj_cn) >>= fun r =>
            (pure (r.rv, r.len) : Prog σ (EST_ERROR × Int))) s).2.2 = 0
      ∧ fileWrites ((if nonEmpty g.csr_file = true then
          read_csr L g.csr_file >>= fun csr =>
            match csr with
            | none => (pure (EST_ERROR.EST_ERR_PEM_READ, (0 : Int)) : Prog σ (EST_ERROR × Int))
            | some c =>
              call L (Call.est_client_enroll_csr c false) >>= fun r =>
                call L (Call.X509_REQ_free c) >>= fun _ => pure (r.rv, r.len)
        else
          call L (Call.est_client_enroll g.subj_cn) >>= fun r =>
            (pure (r.rv, r.len) : Prog σ (EST_ERROR × Int))) s).2.2 = [] := by
  obtain ⟨e, he, hp⟩ := h
  cases hf : nonEmpty g.csr_file
  · rw [hf] at he
    simp [seq_apply, Prog.seq, Prog.ret, pure_apply, call_apply] at he
    subst he
    simp [csrReadFailed] at hp
  · rw [hf] at he
    obtain ⟨c, hc⟩ := read_csr_returns L g.csr_file s
    simp only [if_true] at he ⊢
    rw [seq_ok _ _ s c hc] at he ⊢
    cases c with
    | none =>
      refine ⟨rfl, ?_, ?_⟩
      · simpa [pure_apply] using
          Nat.le_zero.mp (read_csr_plain L plain_not_submission g.csr_file s)
      · simpa [pure_apply] using bounded_fileWrites (read_csr_write_free L g.csr_file) s
    | some c =>
      exfalso
      have hno : ¬ ∃ e ∈ (read_csr L g.csr_file s).2.2, csrReadFailed e = true := by
        rw [← read_csr_failed_iff, hc]
        simp
      simp only [List.mem_append] at he
      rcases he with he | he
      · exact hno ⟨e, he, hp⟩
      · simp [seq_apply, Prog.seq, Prog.ret, pure_apply, call_apply] at he
        rcases he with he | he <;> subst he <;> simp [csrReadFailed] at hp

theorem attempt_end_csr_free {σ : Type} (L : Lib σ) (g : Globals) (rv : EST_ERROR)
    (len : Int) :
    Bounded csrReadFailed 0
      (whenC (truthy g.verbose)
        (call L (Call.printf "\nenrollment rv = %d (%s) with pkcs7 length = %d\n"
          [Arg.err rv, Arg.errstr rv, Arg.int len]) >>= fun _ =>
          (pure PUnit.unit : Prog σ PUnit)) >>= fun _ =>
      if rv = EST_ERROR.EST_ERR_NONE then retrieve_and_save L g len else pure rv) := by
  repeat' first
    | exact bounded_pure _ _
    | exact bounded_call_zero L _ (fun _ => rfl)
    | exact retrieve_and_save_csr_free L g _
    | apply bounded_seq_zero
    | apply bounded_whenC
    | apply bounded_ite
    | intro _

theorem attempt_end_failure_writes {σ : Type} (L : Lib σ) (g : Globals) (rv : EST_ERROR)
    (len : Int) (s : σ) (hrv : rv ≠ EST_ERROR.EST_ERR_NONE) :
    fileWrites ((whenC (truthy g.verbose)
        (call L (Call.printf "\nenrollment rv = %d (%s) with pkcs7 length = %d\n"
          [Arg.err rv, Arg.errstr rv, Arg.int len]) >>= fun _ =>
          (pure PUnit.unit : Prog σ PUnit)) >>= fun _ =>
      if rv = EST_ERROR.EST_ERR_NONE then retrieve_and_save L g len else pure rv) s).2.2
      = [] := by
  cases hv : truthy g.verbose <;>
    simp [hv, hrv, whenC, seq_apply, Prog.seq, Prog.ret, call_apply, pure_apply, fileWrites,
      fileWrite]

theorem simple_enroll_attempt_body_csr {σ : Type} (L : Lib σ) (g : Globals) :
    CsrAborts (simple_enroll_attempt_body L g) := by
  unfold simple_enroll_attempt_body
  apply ca_seq
  · repeat' first
      | exact bounded_pure _ _
      | exact bounded_call_zero L _ (fun _ => rfl)
      | apply bounded_seq_zero
      | apply bounded_whenC
      | intro _
  · repeat' first
      | exact bounded_pure _ _
      | exact bounded_call_zero L _ (fun _ => rfl)
      | apply bounded_seq_zero
      | apply bounded_whenC
      | intro _
  · repeat' first
      | exact bounded_pure _ _
      | exact bounded_call_zero L _ (fun _ => rfl)
      | apply bounded_seq_zero
      | apply bounded_whenC
      | intro _
  intro _ s he
  generalize hmid : (ite (nonEmpty g.csr_file = true) _ _ : Prog σ (EST_ERROR × Int)) = mid
    at he ⊢
  have hstep : (∃ e ∈ (mid s).2.2, csrReadFailed e = true) →
      (mid s).1 = Res.ok (EST_ERROR.EST_ERR_PEM_READ, 0)
        ∧ List.countP isSubmission (mid s).2.2 = 0 ∧ fileWrites (mid s).2.2 = [] := by
    rw [← hmid]
    exact simple_csr_step L g s
  rcases res_ok_or_not (mid s).1 with ⟨a, ha⟩ | hn
  · rw [seq_ok mid _ s a ha] at he ⊢
    obtain ⟨rv0, len0⟩ := a
    simp only at he ⊢
    obtain ⟨e, hmem, hp⟩ := he
    rcases List.mem_append.mp hmem with hm | hm
    · obtain ⟨r1, r2, r3⟩ := hstep ⟨e, hm, hp⟩
      rw [r1] at ha
      injection ha with ha
      injection ha with h1 h2
      subst h1 h2
      refine ⟨attempt_end_failure L g _ _ _ (by decide), ?_, ?_⟩
      · rw [List.countP_append, r2,
          Nat.le_zero.mp (attempt_end_no_submission L g _ _ (mid s).2.1)]
      · rw [fileWrites_append, r3, attempt_end_failure_writes L g _ _ _ (by decide)]
        rfl
    · exact absurd ⟨e, hm, hp⟩
        (no_csr_failure _ (Nat.le_zero.mp (attempt_end_csr_free L g rv0 len0 (mid s).2.1)))
  · rw [(seq_not_ok mid _ s hn).1] at he
    exact absurd (hstep he).1 (hn _)

theorem ca_wrapped {σ : Type} (fn : String) (body : Prog σ EST_ERROR)
    (h : CsrAborts body) :
    CsrAborts (emit (Event.enter fn) >>= fun _ => body >>= fun rv =>
      emit (Event.leave fn rv) >>= fun _ => (pure rv : Prog σ EST_ERROR)) := by
  intro s he
  have hb := h s
  rcases hbs : body s with ⟨r, s1, t⟩
  rw [hbs] at hb
  simp only at hb
  obtain ⟨e, hmem, hp⟩ := he
  cases r with
  | ok rv =>
    simp [seq_apply, Prog.seq, emit, hbs, pure_apply, Prog.ret] at hmem
    rcases hmem with hm | hm | hm
    · subst hm
      simp [csrReadFailed] at hp
    · obtain ⟨r1, r2, r3⟩ := hb ⟨e, hm, hp⟩
      injection r1 with r1
      subst r1
      have w1 : fileWrite (Event.enter fn) = none := rfl
      have w2 : fileWrite (Event.leave fn EST_ERROR.EST_ERR_PEM_READ) = none := rfl
      have r4 : List.filterMap fileWrite t = [] := r3
      simp [seq_apply, Prog.seq, emit, hbs, pure_apply, Prog.ret, List.countP_cons,
        List.countP_append, r2, isSubmission, fileWrites, List.filterMap_cons,
        List.filterMap_append, w1, w2, r4]
    · subst hm
      simp [csrReadFailed] at hp
  | exited c =>
    simp [seq_apply, Prog.seq, emit, hbs] at hmem
    rcases hmem with hm | hm
    · subst hm
      simp [csrReadFailed] at hp
    · exact absurd (hb ⟨e, hm, hp⟩).1 (by simp)
  | timeout =>
    simp [seq_apply, Prog.seq, emit, hbs] at hmem
    rcases hmem with hm | hm
    · subst hm
      simp [csrReadFailed] at hp
    · exact absurd (hb ⟨e, hm, hp⟩).1 (by simp)

theorem simple_enroll_attempt_csr {σ : Type} (L : Lib σ) (g : Globals) :
    CsrAborts (simple_enroll_attempt L g) :=
  ca_wrapped "simple_enroll_attempt" _ (simple_enroll_attempt_body_csr L g)

theorem firstAttemptEvents_append (p x : List Event)
    (h : List.countP isAttemptLeave p = 0) :
    firstAttemptEvents (p ++ x) = p ++ firstAttemptEvents x := by
  induction p with
  | nil => rfl
  | cons e t ih =>
    obtain ⟨he, ht⟩ := countP_cons_zero h
    have h1 : firstAttemptEvents (e :: (t ++ x)) = e :: firstAttemptEvents (t ++ x) := by
      simp [firstAttemptEvents, he]
    rw [List.cons_append, h1, ih ht]
    rfl

theorem firstAttemptEvents_mem (t : List Event) (e : Event)
    (h : e ∈ firstAttemptEvents t) : e ∈ t := by
  induction t with
  | nil => simp [firstAttemptEvents] at h
  | cons x t ih =>
    by_cases hx : isAttemptLeave x = true
    · have h1 : firstAttemptEvents (x :: t) = [x] := by simp [firstAttemptEvents, hx]
      rw [h1] at h
      rw [List.mem_singleton.mp h]
      exact List.mem_cons_self _ _
    · have h1 : firstAttemptEvents (x :: t) = x :: firstAttemptEvents t := by
        simp [firstAttemptEvents, hx]
      rw [h1] at h
      rcases List.mem_cons.mp h with h2 | h2
      · rw [h2]
        exact List.mem_cons_self _ _
      · exact List.mem_cons_of_mem _ (ih h2)

theorem first_events_skip (p x : List Event) (h1 : List.countP isAttemptLeave p = 0)
    (h2 : List.countP csrReadFailed p = 0)
    (h : ∃ e ∈ firstAttemptEvents (p ++ x), csrReadFailed e = true) :
    ∃ e ∈ firstAttemptEvents x, csrReadFailed e = true := by
  obtain ⟨e, he, hp⟩ := h
  rw [firstAttemptEvents_append p x h1] at he
  rcases List.mem_append.mp he with hm | hm
  · exact absurd ⟨e, hm, hp⟩ (no_csr_failure _ h2)
  · exact ⟨e, hm, hp⟩

/-- The events up to the return from the first attempt are the events of that
attempt: `rest` is what the run emits after the attempt, nothing if the attempt
does not return. -/
theorem wrapped_attempt_events {σ : Type} (fn : String)
    (hfn : isAttemptLeave (Event.leave fn EST_ERROR.EST_ERR_NONE) = true)
    (body : Prog σ EST_ERROR) (hleave : Bounded isAttemptLeave 0 body)
    (s : σ) (rest : List Event) (e : Event)
    (hrest : (∀ a, ((emit (Event.enter fn) >>= fun _ => body >>= fun rv =>
        emit (Event.leave fn rv) >>= fun _ => (pure rv : Prog σ EST_ERROR)) s).1 ≠ Res.ok a)
        → rest = [])
    (he : e ∈ firstAttemptEvents
        (((emit (Event.enter fn) >>= fun _ => body >>= fun rv =>
          emit (Event.leave fn rv) >>= fun _ => (pure rv : Prog σ EST_ERROR)) s).2.2 ++ rest)) :
    e ∈ ((emit (Event.enter fn) >>= fun _ => body >>= fun rv =>
        emit (Event.leave fn rv) >>= fun _ => (pure rv : Prog σ EST_ERROR)) s).2.2 := by
  have hl : List.countP isAttemptLeave (body s).2.2 = 0 := Nat.le_zero.mp (hleave s)
  have hfn2 : ∀ x, isAttemptLeave (Event.leave fn x) = true := fun x => hfn
  rcases hbs : body s with ⟨r, s1, t⟩
  rw [hbs] at hl
  simp only at hl
  cases r with
  | ok rv0 =>
    have hev : ((emit (Event.enter fn) >>= fun _ => body >>= fun rv =>
          emit (Event.leave fn rv) >>= fun _ => (pure rv : Prog σ EST_ERROR)) s).2.2
        = Event.enter fn :: (t ++ [Event.leave fn rv0]) := by
      simp [seq_apply, Prog.seq, emit, hbs, pure_apply, Prog.ret]
    rw [hev] at he ⊢
    have h1 : firstAttemptEvents (Event.enter fn :: (t ++ [Event.leave fn rv0]) ++ rest)
        = Event.enter fn :: (t ++ [Event.leave fn rv0]) := by
      have h2 : Event.enter fn :: (t ++ [Event.leave fn rv0]) ++ rest
          = (Event.enter fn :: t) ++ (Event.leave fn rv0 :: rest) := by simp
      have h3 : List.countP isAttemptLeave (Event.enter fn :: t) = 0 := by
        rw [List.countP_cons, hl]
        rfl
      rw [h2, firstAttemptEvents_append _ _ h3]
      simp [firstAttemptEvents, hfn2]
    rw [h1] at he
    exact he
  | exited c =>
    have hr : rest = [] := hrest (by
      intro a
      simp [seq_apply, Prog.seq, emit, hbs])
    subst hr
    rw [List.append_nil] at he
    exact firstAttemptEvents_mem _ _ he
  | timeout =>
    have hr : rest = [] := hrest (by
      intro a
      simp [seq_apply, Prog.seq, emit, hbs])
    subst hr
    rw [List.append_nil] at he
    exact firstAttemptEvents_mem _ _ he

/-- A failed read of the CSR in the first attempt: the attempt returns
`EST_ERR_PEM_READ` without a submission and without a file written. -/
theorem simple_enroll_attempt_csr_first {σ : Type} (L : Lib σ) (g : Globals) (s : σ)
    (rest : List Event)
    (hrest : (∀ a, (simple_enroll_attempt L g s).1 ≠ Res.ok a) → rest = [])
    (h : ∃ e ∈ firstAttemptEvents ((simple_enroll_attempt L g s).2.2 ++ rest),
      csrReadFailed e = true) :
    (simple_enroll_attempt L g s).1 = Res.ok EST_ERROR.EST_ERR_PEM_READ
      ∧ List.countP isSubmission (simple_enroll_attempt L g s).2.2 = 0
      ∧ fileWrites (simple_enroll_attempt L g s).2.2 = [] := by
  obtain ⟨e, he, hp⟩ := h
  have hm : e ∈ (simple_enroll_attempt L g s).2.2 :=
    wrapped_attempt_events "simple_enroll_attempt" rfl (simple_enroll_attempt_body L g)
      (simple_enroll_attempt_body_quiet L g plain_not_attempt_leave (fun _ _ _ => rfl))
      s rest e hrest he
  exact simple_enroll_attempt_csr L g s ⟨e, hm, hp⟩

/-- When a property of the trace fixes the result `rv` of the first attempt
and `rv` is not the retry code `R`, the retry sequence is that attempt alone. -/
theorem retry_sequence_decided {σ : Type} (att : Prog σ EST_ERROR)
    (retry : Prog σ Unit) (op : String) (R : EST_ERROR) (P : List Event → Prop)
    (rv : EST_ERROR)
    (hatt : ∀ s rest, ((∀ a, (att s).1 ≠ Res.ok a) → rest = []) →
      P ((att s).2.2 ++ rest) → (att s).1 = Res.ok rv)
    (s : σ) (rest : List Event)
    (hrest : (∀ a, ((att >>= fun rv =>
        if rv = R then
          retry >>= fun _ => att >>= fun rv2 => (pure (op, rv2) : Prog σ (String × EST_ERROR))
        else pure (op, rv)) s).1 ≠ Res.ok a) → rest = [])
    (hfirst : P (((att >>= fun rv =>
        if rv = R then
          retry >>= fun _ => att >>= fun rv2 => (pure (op, rv2) : Prog σ (String × EST_ERROR))
        else pure (op, rv)) s).2.2 ++ rest))
    (hnr : rv ≠ R) :
    (att >>= fun rv =>
        if rv = R then
          retry >>= fun _ => att >>= fun rv2 => (pure (op, rv2) : Prog σ (String × EST_ERROR))
        else pure (op, rv)) s = (Res.ok (op, rv), (att s).2.1, (att s).2.2)
      ∧ (att s).1 = Res.ok rv := by
  rcases res_ok_or_not (att s).1 with ⟨rv0, h0⟩ | hn
  · rw [seq_ok _ _ s rv0 h0] at hfirst ⊢
    rw [List.append_assoc] at hfirst
    have h1 := hatt s _ (fun h => absurd h0 (h rv0)) hfirst
    refine ⟨?_, h1⟩
    rw [h1] at h0
    injection h0 with h0
    subst h0
    simp [hnr, pure_apply]
  · have h2 := seq_not_ok att (fun rv =>
        if rv = R then
          retry >>= fun _ => att >>= fun rv2 => (pure (op, rv2) : Prog σ (String × EST_ERROR))
        else pure (op, rv)) s hn
    have hr : rest = [] := hrest h2.2
    subst hr
    rw [h2.1] at hfirst
    exact absurd (hatt s [] (fun _ => rfl) hfirst) (hn rv)

/-- When `read_csr` fails in the first attempt of a simple enrollment, the
enroll part of `do_operation` is that attempt alone. -/
theorem do_operation_enroll_csr {σ : Type} (L : Lib σ) (g : Globals) (fuel : Nat)
    (st : String × EST_ERROR) (s : σ) (rest : List Event)
    (he : truthy g.enroll = true) (hc : truthy g.getcsr = false)
    (hrest : (∀ a, (do_operation_enroll L g fuel st s).1 ≠ Res.ok a) → rest = [])
    (hfirst : ∃ e ∈ firstAttemptEvents ((do_operation_enroll L g fuel st s).2.2 ++ rest),
      csrReadFailed e = true) :
    do_operation_enroll L g fuel st s
        = (Res.ok ("Simple enrollment without server-defined attributes",
            EST_ERROR.EST_ERR_PEM_READ), (simple_enroll_attempt L g s).2.1,
            (simple_enroll_attempt L g s).2.2)
      ∧ (simple_enroll_attempt L g s).1 = Res.ok EST_ERROR.EST_ERR_PEM_READ := by
  unfold do_operation_enroll at hrest hfirst ⊢
  simp only [he, hc, Bool.and_self, Bool.not_false, Bool.and_false, Bool.and_true,
    Bool.false_eq_true, if_false, if_true] at hrest hfirst ⊢
  exact retry_sequence_decided (simple_enroll_attempt L g) (retry_after_step L g) _ _
    (fun t => ∃ e ∈ firstAttemptEvents t, csrReadFailed e = true) _
    (fun s rest hr h => (simple_enroll_attempt_csr_first L g s rest hr h).1)
    s rest hrest hfirst (by decide)

theorem do_operation_init_csr_free {σ : Type} (L : Lib σ) (g : Globals) :
    Bounded csrReadFailed 0 (do_operation_init L g) := by
  unfold do_operation_init
  repeat' first
    | exact bounded_pure _ _
    | exact bounded_call_zero L _ (fun _ => rfl)
    | exact bounded_exit_plain L _ (fun _ _ => rfl)
    | apply bounded_seq_zero
    | apply bounded_whenC
    | apply bounded_ite
    | split
    | intro _

theorem do_operation_getcert_csr_free {σ : Type} (L : Lib σ) (g : Globals)
    (st : String × EST_ERROR) :
    Bounded csrReadFailed 0 (do_operation_getcert L g st) := by
  unfold do_operation_getcert
  repeat' first
    | exact bounded_pure _ _
    | exact bounded_call_zero L _ (fun _ => rfl)
    | exact bounded_exit_plain L _ (fun _ _ => rfl)
    | apply bounded_seq_zero
    | apply bounded_whenC
    | apply bounded_ite
    | split
    | intro _

/-- A run of `do_operation` for a simple enrollment in which `read_csr` fails
in the first attempt: that attempt is the only one, nothing is submitted,
`sleep` is not called, and the failure is reported with `EST_ERR_PEM_READ`. -/
theorem do_operation_csr_failure {σ : Type} (L : Lib σ) (g : Globals) (fuel : Nat)
    (s : σ) (henroll : g.enroll ≠ 0) (hgetcsr : g.getcsr = 0) (hre : g.reenroll = 0)
    (hfirst : ∃ e ∈ firstAttemptEvents ((do_operation L g fuel).events s),
      csrReadFailed e = true) :
    List.countP isAttempt ((do_operation L g fuel).events s) = 1
      ∧ attemptResults ((do_operation L g fuel).events s) = [EST_ERROR.EST_ERR_PEM_READ]
      ∧ List.countP isSleep ((do_operation L g fuel).events s) = 0
      ∧ List.countP isSubmission ((do_operation L g fuel).events s) = 0
      ∧ (do_operation L g fuel).result s = Res.ok EST_ERROR.EST_ERR_PEM_READ
      ∧ ∃ r, Event.call (failure_report "Simple enrollment without server-defined attributes"
          EST_ERROR.EST_ERR_PEM_READ) r ∈ (do_operation L g fuel).events s := by
  have he : truthy g.enroll = true := by simp [truthy, henroll]
  have hc : truthy g.getcsr = false := by simp [truthy, hgetcsr]
  have hr : truthy g.reenroll = false := by simp [truthy, hre]
  simp only [Prog.events, Prog.result] at hfirst ⊢
  unfold do_operation at hfirst ⊢
  have hinit : ∀ (p : Event → Bool), (∀ e, plain e = true → p e = false) → ∀ s,
      List.countP p (do_operation_init L g s).2.2 = 0 :=
    fun p hp s => Nat.le_zero.mp (do_operation_init_plain L g hp s)
  have hget : ∀ (p : Event → Bool), (∀ e, plain e = true → p e = false) → ∀ st s,
      List.countP p (do_operation_getcert L g st s).2.2 = 0 :=
    fun p hp st s => Nat.le_zero.mp (do_operation_getcert_plain L g hp st s)
  have hfin : ∀ (p : Event → Bool), (∀ e, plain e = true → p e = false) → ∀ st s,
      List.countP p (do_operation_finish L st s).2.2 = 0 :=
    fun p hp st s => Nat.le_zero.mp (do_operation_finish_plain L hp st s)
  have hinit2 : ∀ s, List.countP csrReadFailed (do_operation_init L g s).2.2 = 0 :=
    fun s => Nat.le_zero.mp (do_operation_init_csr_free L g s)
  have hget2 : ∀ st s, List.countP csrReadFailed (do_operation_getcert L g st s).2.2 = 0 :=
    fun st s => Nat.le_zero.mp (do_operation_getcert_csr_free L g st s)
  rcases res_ok_or_not (do_operation_init L g s).1 with ⟨rv0, h0⟩ | h0
  · rw [seq_ok _ _ s rv0 h0] at hfirst ⊢
    have hfirst := first_events_skip _ _ (hinit _ plain_not_attempt_leave s) (hinit2 s) hfirst
    simp only [List.countP_append, attemptResults_append, hinit _ plain_not_attempt s,
      hinit _ plain_not_submission s, hinit _ plain_not_sleep s,
      attemptResults_eq_nil _ (hinit _ plain_not_attempt_leave s), List.nil_append,
      Nat.zero_add, List.mem_append]
    generalize (do_operation_init L g s).2.1 = s1 at hfirst ⊢
    generalize (do_operation_init L g s).2.2 = t0
    rcases res_ok_or_not (do_operation_getcert L g ("", rv0) s1).1 with ⟨st1, h1⟩ | h1
    · rw [seq_ok _ _ s1 st1 h1] at hfirst ⊢
      have hfirst := first_events_skip _ _ (hget _ plain_not_attempt_leave _ s1) (hget2 _ s1)
        hfirst
      simp only [List.countP_append, attemptResults_append, hget _ plain_not_attempt _ s1,
        hget _ plain_not_submission _ s1, hget _ plain_not_sleep _ s1,
        attemptResults_eq_nil _ (hget _ plain_not_attempt_leave _ s1), List.nil_append,
        Nat.zero_add, List.mem_append]
      generalize (do_operation_getcert L g ("", rv0) s1).2.1 = s2 at hfirst ⊢
      generalize (do_operation_getcert L g ("", rv0) s1).2.2 = t1
      rcases res_ok_or_not (do_operation_enroll L g fuel st1 s2).1 with ⟨st2, h2⟩ | h2
      · rw [seq_ok _ _ s2 st2 h2] at hfirst ⊢
        obtain ⟨hE, hok⟩ := do_operation_enroll_csr L g fuel st1 s2 _ he hc
          (fun h => absurd h2 (h st2)) hfirst
        rw [hE] at h2
        injection h2 with h2
        subst h2
        rw [hE] at hfirst ⊢
        simp only at hfirst ⊢
        obtain ⟨_, f2, _⟩ := simple_enroll_attempt_csr_first L g s2 _
          (fun h => absurd hok (h _)) hfirst
        have f1 : List.countP isAttempt (simple_enroll_attempt L g s2).2.2 = 1 :=
          wrapped_attempt_count "simple_enroll_attempt" rfl _
            (simple_enroll_attempt_body_quiet L g plain_not_attempt (fun _ _ _ => rfl)) s2
        have f3 : List.countP isSleep (simple_enroll_attempt L g s2).2.2 = 0 :=
          Nat.le_zero.mp ((simple_enroll_attempt_bounded L g (bounded_emit_zero _ rfl)
            (fun _ => rfl)
            (simple_enroll_attempt_body_quiet L g plain_not_sleep (fun _ _ h => h))) s2)
        have f5 : attemptResults (simple_enroll_attempt L g s2).2.2
            = [EST_ERROR.EST_ERR_PEM_READ] := by
          rcases simple_enroll_attempt_results L g s2 with ⟨rv2, h1, h2⟩ | ⟨h1, _⟩
          · rw [hok] at h1
            injection h1 with h1
            rw [h2, h1]
          · exact absurd hok (h1 _)
        clear hfirst
        generalize (simple_enroll_attempt L g s2).2.1 = s3
        generalize (simple_enroll_attempt L g s2).2.2 = ta at f1 f2 f3 f5 ⊢
        have hpure : do_operation_reenroll L g
            ("Simple enrollment without server-defined attributes",
              EST_ERROR.EST_ERR_PEM_READ) s3
            = (Res.ok ("Simple enrollment without server-defined attributes",
              EST_ERROR.EST_ERR_PEM_READ), s3, []) := by
          simp [do_operation_reenroll, hr, pure_apply]
        rw [seq_ok _ _ s3 _ (by rw [hpure])]
        simp only [hpure, List.nil_append]
        have hf := do_operation_finish_failure L
          "Simple enrollment without server-defined attributes"
          EST_ERROR.EST_ERR_PEM_READ (by decide) s3
        simp only [List.countP_append, attemptResults_append, hfin _ plain_not_attempt _ s3,
          hfin _ plain_not_submission _ s3, hfin _ plain_not_sleep _ s3,
          attemptResults_eq_nil _ (hfin _ plain_not_attempt_leave _ s3), List.append_nil,
          Nat.add_zero]
        refine ⟨f1, f5, f3, f2, hf.1, ?_⟩
        obtain ⟨r, hmem⟩ := hf.2
        exact ⟨r, Or.inr (Or.inr (List.mem_append.mpr (Or.inr hmem)))⟩
      · exfalso
        have h3 := seq_not_ok (do_operation_enroll L g fuel st1)
          (fun st2 => do_operation_reenroll L g st2 >>= fun st3 => do_operation_finish L st3)
          s2 h2
        rw [h3.1] at hfirst
        have hE := (do_operation_enroll_csr L g fuel st1 s2 [] he hc
          (fun _ => rfl) (by simpa using hfirst)).1
        rw [hE] at h2
        exact h2 _ rfl
    · exfalso
      have h3 := seq_not_ok (do_operation_getcert L g ("", rv0))
        (fun st1 => do_operation_enroll L g fuel st1 >>= fun st2 =>
          do_operation_reenroll L g st2 >>= fun st3 => do_operation_finish L st3) s1 h1
      rw [h3.1] at hfirst
      obtain ⟨e, hm, hp⟩ := hfirst
      exact no_csr_failure _ (hget2 _ s1) ⟨e, firstAttemptEvents_mem _ _ hm, hp⟩
  · exfalso
    have h3 := seq_not_ok (do_operation_init L g)
      (fun rv0 => do_operation_getcert L g ("", rv0) >>= fun st1 =>
        do_operation_enroll L g fuel st1 >>= fun st2 =>
        do_operation_reenroll L g st2 >>= fun st3 => do_operation_finish L st3) s h0
    rw [h3.1] at hfirst
    obtain ⟨e, hm, hp⟩ := hfirst
    exact no_csr_failure _ (hinit2 s) ⟨e, firstAttemptEvents_mem _ _ hm, hp⟩

/-- C19. A pre-supplied CSR file that cannot be read or parsed. The function
`read_csr` returns `NULL` exactly when `BIO_read_filename` or
`PEM_read_bio_X509_REQ` failed; every run of `simple_enroll_attempt` in which
that happened returns `EST_ERR_PEM_READ`, calls neither `est_client_enroll_csr`
nor `est_client_enroll` and writes no file; and every run of `do_operation` for
a simple enrollment (enroll set, attribute query and re-enroll clear, as `main`
requires with a CSR file) in which it happened in the first attempt makes that
one attempt only, submits nothing, does not call `sleep`, and reports the
enrollment as failed with `EST_ERR_PEM_READ`. -/
theorem unreadable_csr_aborts {σ : Type} (L : Lib σ) (g : Globals) (fuel : Nat) (s : σ) :
    ((read_csr L g.csr_file).result s = Res.ok none
        ↔ ∃ e ∈ (read_csr L g.csr_file).events s, csrReadFailed e = true)
      ∧ ((∃ e ∈ (simple_enroll_attempt L g).events s, csrReadFailed e = true) →
          (simple_enroll_attempt L g).result s = Res.ok EST_ERROR.EST_ERR_PEM_READ
            ∧ List.countP isSubmission ((simple_enroll_attempt L g).events s) = 0
            ∧ fileWrites ((simple_enroll_attempt L g).events s) = [])
      ∧ (g.enroll ≠ 0 → g.getcsr = 0 → g.reenroll = 0 →
          (∃ e ∈ firstAttemptEvents ((do_operation L g fuel).events s),
            csrReadFailed e = true) →
          List.countP isAttempt ((do_operation L g fuel).events s) = 1
            ∧ attemptResults ((do_operation L g fuel).events s)
                = [EST_ERROR.EST_ERR_PEM_READ]
            ∧ List.countP isSleep ((do_operation L g fuel).events s) = 0
            ∧ List.countP isSubmission ((do_operation L g fuel).events s) = 0
            ∧ (do_operation L g fuel).result s = Res.ok EST_ERROR.EST_ERR_PEM_READ
            ∧ ∃ r, Event.call
                (failure_report "Simple enrollment without server-defined attributes"
                  EST_ERROR.EST_ERR_PEM_READ) r ∈ (do_operation L g fuel).events s) :=
  ⟨read_csr_failed_iff L g.csr_file s, simple_enroll_attempt_csr L g s,
    do_operation_csr_failure L g fuel s⟩

/-- C19 on a quiet simple enrollment whose CSR file cannot be opened. -/
theorem unreadable_csr_aborts_witness :
    (∃ e ∈ (simple_enroll_attempt scripted quietCsr).events unreadableCsr,
        csrReadFailed e = true)
      ∧ (simple_enroll_attempt scripted quietCsr).result unreadableCsr
          = Res.ok EST_ERROR.EST_ERR_PEM_READ
      ∧ quietCsr.enroll ≠ 0 ∧ quietCsr.getcsr = 0 ∧ quietCsr.reenroll = 0
      ∧ (∃ e ∈ firstAttemptEvents ((do_operation scripted quietCsr 0).events unreadableCsr),
          csrReadFailed e = true)
      ∧ attemptResults ((do_operation scripted quietCsr 0).events unreadableCsr)
          = [EST_ERROR.EST_ERR_PEM_READ]
      ∧ (do_operation scripted quietCsr 0).result unreadableCsr
          = Res.ok EST_ERROR.EST_ERR_PEM_READ :=
  ⟨by decide,
    ((unreadable_csr_aborts scripted quietCsr 0 unreadableCsr).2.1 (by decide)).1,
    by decide, by decide, by decide, by decide,
    ((unreadable_csr_aborts scripted quietCsr 0 unreadableCsr).2.2
      (by decide) (by decide) (by decide) (by decide)).2.1,
    ((unreadable_csr_aborts scripted quietCsr 0 unreadableCsr).2.2
      (by decide) (by decide) (by decide) (by decide)).2.2.2.2.1⟩

/-! ## The option checks of `main` -/

theorem rejects_seq_left {σ α β : Type} {m : Prog σ α} (f : α → Prog σ β)
    (h : Rejects m) : Rejects (m >>= f) := by
  intro s
  have hn : ∀ a, (m s).1 ≠ Res.ok a := fun a ha => by
    rw [(h s).1] at ha
    cases ha
  rw [seq_apply]
  unfold Prog.seq
  have h1 := h s
  rcases hms : m s with ⟨r, s1, t1⟩
  rw [hms] at h1
  cases r with
  | ok a => exact absurd h1.1 (by simp)
  | exited c => simpa using h1
  | timeout => exact absurd h1.1 (by simp)

theorem rejects_seq {σ α β : Type} {m : Prog σ α} {f : α → Prog σ β}
    (h1 : Harmless m) (h2 : ∀ a, Rejects (f a)) : Rejects (m >>= f) := by
  intro s
  obtain ⟨hr, he⟩ := h1 s
  rcases hr with ⟨a, ha⟩ | hx
  · rw [seq_ok m f s a ha]
    obtain ⟨r1, r2⟩ := h2 a (m s).2.1
    refine ⟨r1, ?_⟩
    intro e hmem
    rcases List.mem_append.mp hmem with hm | hm
    · exact he e hm
    · exact r2 e hm
  · have hn : ∀ a, (m s).1 ≠ Res.ok a := fun a ha => by
      rw [hx] at ha
      cases ha
    rw [seq_apply]
    unfold Prog.seq
    rcases hms : m s with ⟨r, s1, t1⟩
    rw [hms] at hx he
    cases r with
    | ok a => exact absurd hx (by simp)
    | exited c => exact ⟨by simpa using hx, by simpa using he⟩
    | timeout => exact absurd hx (by simp)

theorem harmless_seq {σ α β : Type} {m : Prog σ α} {f : α → Prog σ β}
    (h1 : Harmless m) (h2 : ∀ a, Harmless (f a)) : Harmless (m >>= f) := by
  intro s
  obtain ⟨hr, he⟩ := h1 s
  rcases hr with ⟨a, ha⟩ | hx
  · rw [seq_ok m f s a ha]
    obtain ⟨r1, r2⟩ := h2 a (m s).2.1
    refine ⟨r1, ?_⟩
    intro e hmem
    rcases List.mem_append.mp hmem with hm | hm
    · exact he e hm
    · exact r2 e hm
  · rw [seq_apply]
    unfold Prog.seq
    rcases hms : m s with ⟨r, s1, t1⟩
    rw [hms] at hx he
    cases r with
    | ok a => exact absurd hx (by simp)
    | exited c => exact ⟨Or.inr (by simpa using hx), by simpa using he⟩
    | timeout => exact absurd hx (by simp)

theorem harmless_pure {σ α : Type} (a : α) : Harmless (pure a : Prog σ α) := by
  intro s
  exact ⟨Or.inl ⟨a, rfl⟩, fun e he => by simp [pure_apply] at he⟩

theorem harmless_call {σ : Type} (L : Lib σ) (c : Call)
    (hc : ∀ r, consoleOrExit (Event.call c r) = true) : Harmless (call L c) := by
  intro s
  refine ⟨Or.inl ⟨(L c s).1, by simp [call_apply]⟩, ?_⟩
  intro e he
  simp [call_apply] at he
  subst he
  exact hc _

theorem rejects_exit {σ α : Type} (L : Lib σ) : Rejects (exit L 1 : Prog σ α) := by
  intro s
  refine ⟨rfl, ?_⟩
  intro e he
  simp [exit] at he
  subst he
  rfl

theorem harmless_of_rejects {σ α : Type} {m : Prog σ α} (h : Rejects m) : Harmless m :=
  fun s => ⟨Or.inr (h s).1, (h s).2⟩

theorem harmless_whenC {σ : Type} (b : Bool) {m : Prog σ Unit} (h : Harmless m) :
    Harmless (whenC b m) := by
  unfold whenC
  split
  · exact h
  · exact harmless_pure ()

/-- A failed check of `main`: the message, then `exit(1)`. -/
theorem check_rejects {σ : Type} (L : Lib σ) (fmt : String) :
    Rejects (call L (Call.printf fmt []) >>= fun _ => (exit L 1 : Prog σ Unit)) :=
  rejects_seq (harmless_call L _ (fun _ => rfl)) (fun _ => rejects_exit L)

theorem check_harmless {σ : Type} (L : Lib σ) (b : Bool) (fmt : String) :
    Harmless (whenC b (call L (Call.printf fmt []) >>= fun _ => (exit L 1 : Prog σ Unit))) :=
  harmless_whenC b (harmless_of_rejects (check_rejects L fmt))

theorem check_fires {σ : Type} (L : Lib σ) (b : Bool) (hb : b = true) (fmt : String) :
    Rejects (whenC b (call L (Call.printf fmt []) >>= fun _ => (exit L 1 : Prog σ Unit))) := by
  subst hb
  exact check_rejects L fmt

theorem print_version_harmless {σ : Type} (L : Lib σ) : Harmless (print_version L) := by
  unfold print_version
  repeat' first
    | exact harmless_pure _
    | exact harmless_call L _ (fun _ => rfl)
    | apply harmless_seq
    | intro _

/-- The checks of `main` refuse every conflicting combination of options with
`exit(1)`, after console output only. -/
theorem main_checks_rejects {σ : Type} (L : Lib σ) (g : Globals) (m : MainVars)
    (h : (g.enroll ≠ 0 ∧ g.reenroll ≠ 0)
      ∨ (g.csr_file ≠ "" ∧ (g.getcsr ≠ 0 ∨ m.priv_key_file ≠ "" ∨ g.force_pop ≠ 0))) :
    Rejects (main_checks L g m) := by
  unfold main_checks
  apply rejects_seq (check_harmless L _ _)
  intro _
  rcases h with ⟨h1, h2⟩ | ⟨hcsr, h1 | h1 | h1⟩
  · apply rejects_seq (check_harmless L _ _)
    intro _
    apply rejects_seq (check_harmless L _ _)
    intro _
    apply rejects_seq (check_harmless L _ _)
    intro _
    apply rejects_seq (check_harmless L _ _)
    intro _
    apply rejects_seq
    · apply harmless_whenC
      repeat' first
        | exact harmless_pure _
        | exact harmless_call L _ (fun _ => rfl)
        | exact print_version_harmless L
        | apply harmless_whenC
        | apply harmless_seq
        | intro _
    intro _
    apply rejects_seq_left
    exact check_fires L _ (by simp [truthy, h1, h2]) _
  · apply rejects_seq_left
    exact check_fires L _ (by simp [truthy, nonEmpty, hcsr, h1]) _
  · apply rejects_seq (check_harmless L _ _)
    intro _
    apply rejects_seq_left
    exact check_fires L _ (by simp [nonEmpty, hcsr, h1]) _
  · apply rejects_seq (check_harmless L _ _)
    intro _
    apply rejects_seq (check_harmless L _ _)
    intro _
    apply rejects_seq_left
    exact check_fires L _ (by simp [truthy, nonEmpty, hcsr, h1]) _

/-- C20. For every configuration that sets both enroll and re-enroll, or that
names a CSR file together with the attribute-query flag, a signing-key file or
the PoP flag, `main` (from the end of the option loop on) ends in `exit(1)`
during its checks: the process exits with status 1, and every event of the run
is a `printf`, the version query of `print_version` or that `exit(1)`, so
`est_client_init` is not called and `do_operation` is not entered. -/
theorem main_rejects_conflicting_options {σ : Type} (L : Lib σ) (g : Globals) (m : MainVars)
    (fuel : Nat) (s : σ)
    (h : (g.enroll ≠ 0 ∧ g.reenroll ≠ 0)
      ∨ (g.csr_file ≠ "" ∧ (g.getcsr ≠ 0 ∨ m.priv_key_file ≠ "" ∨ g.force_pop ≠ 0))) :
    (main_after_options L g m fuel).result s = Res.exited 1
      ∧ (main_after_options L g m fuel).events s = (main_checks L g m).events s
      ∧ (∀ e ∈ (main_after_options L g m fuel).events s, consoleOrExit e = true)
      ∧ (∀ r, Event.call Call.est_client_init r ∉ (main_after_options L g m fuel).events s)
      ∧ List.countP isAttempt ((main_after_options L g m fuel).events s) = 0
      ∧ List.countP isSubmission ((main_after_options L g m fuel).events s) = 0 := by
  have hc := main_checks_rejects L g m h
  have hn : ∀ a, (main_checks L g m s).1 ≠ Res.ok a := fun a ha => by
    rw [(hc s).1] at ha
    cases ha
  have hm : Rejects (main_after_options L g m fuel) := by
    unfold main_after_options
    exact rejects_seq_left _ hc
  have hev : (main_after_options L g m fuel).events s = (main_checks L g m).events s := by
    unfold main_after_options
    exact (seq_not_ok _ _ s hn).1
  obtain ⟨h1, h2⟩ := hm s
  refine ⟨h1, hev, h2, ?_, ?_, ?_⟩
  · intro r hmem
    have := h2 _ hmem
    simp [consoleOrExit] at this
  · rw [List.countP_eq_zero]
    intro e hmem
    have := h2 _ hmem
    cases e with
    | call c r => simp [isAttempt]
    | enter fn => simp [consoleOrExit] at this
    | leave fn rv => simp [isAttempt]
  · rw [List.countP_eq_zero]
    intro e hmem
    have := h2 _ hmem
    cases e with
    | call c r =>
      cases c <;> first | (simp [consoleOrExit] at this; done) | simp [isSubmission]
    | enter fn => simp [isSubmission]
    | leave fn rv => simp [isSubmission]

/-- C20 on the runs `estclient -e -r -o out` and
`estclient -e -a -y req.pem -o out`; a run without a conflict goes on to the
end of `main`. -/
theorem main_rejects_conflicting_options_witness :
    ((enrollAndReenroll.enroll ≠ 0 ∧ enrollAndReenroll.reenroll ≠ 0)
        ∨ (enrollAndReenroll.csr_file ≠ "" ∧ (enrollAndReenroll.getcsr ≠ 0
            ∨ noFiles.priv_key_file ≠ "" ∨ enrollAndReenroll.force_pop ≠ 0)))
      ∧ (main_after_options scripted enrollAndReenroll noFiles 0).result issuedAtOnce
          = Res.exited 1
      ∧ (main_after_options scripted csrWithAttributes noFiles 0).result issuedAtOnce
          = Res.exited 1
      ∧ (main_after_options scripted quietEnroll keyNamed 0).result keyThenIssued
          = Res.ok 0 :=
  ⟨by decide,
    (main_rejects_conflicting_options scripted enrollAndReenroll noFiles 0 issuedAtOnce
      (by decide)).1,
    (main_rejects_conflicting_options scripted csrWithAttributes noFiles 0 issuedAtOnce
      (by decide)).1,
    by decide⟩

/-! ## The subject common name -/

theorem subjectEntries_of_bounded {σ α : Type} {m : Prog σ α}
    (h : Bounded otherSubject 0 m) (s : σ) :
    ∀ x ∈ subjectEntries (m s).2.2, x = ("CN", "EST-client") := by
  intro x hx
  have h0 : List.countP otherSubject (m s).2.2 = 0 := Nat.le_zero.mp (h s)
  rw [List.countP_eq_zero] at h0
  simp only [subjectEntries, List.mem_filterMap] at hx
  obtain ⟨e, he, hx⟩ := hx
  have := h0 e he
  simp only [otherSubject, hx] at this
  simpa using this

theorem save_cert_subject {σ : Type} (L : Lib σ) (g : Globals)
    (file_name : String) (cert_data : List Nat) (cert_len : Int) :
    Bounded otherSubject 0 (save_cert L g file_name cert_data cert_len) := by
  unfold save_cert
  repeat' first
    | exact bounded_pure _ _
    | exact bounded_call_zero L _ (fun _ => rfl)
    | apply bounded_seq_zero
    | apply bounded_whenC
    | apply bounded_ite
    | split
    | intro _

theorem retrieve_and_save_subject {σ : Type} (L : Lib σ) (g : Globals) (pkcs7_len : Int) :
    Bounded otherSubject 0 (retrieve_and_save L g pkcs7_len) := by
  unfold retrieve_and_save
  repeat' first
    | exact bounded_pure _ _
    | exact bounded_call_zero L _ (fun _ => rfl)
    | exact save_cert_subject L g _ _ _
    | apply bounded_seq_zero
    | apply bounded_whenC
    | apply bounded_ite
    | split
    | intro _

theorem populate_x509_csr_subject {σ : Type} (L : Lib σ) (req : Nat) :
    Bounded otherSubject 0 (populate_x509_csr L req "EST-client") := by
  unfold populate_x509_csr
  repeat' first
    | exact bounded_pure _ _
    | exact bounded_call_zero L _ (fun _ => rfl)
    | apply bounded_seq_zero
    | apply bounded_ite
    | intro _

theorem add_attribute_subject {σ : Type} (L : Lib σ) (csr : Nat) (nid : Int) :
    Bounded otherSubject 0 (add_attribute L csr nid) := by
  unfold add_attribute
  repeat' first
    | exact bounded_pure _ _
    | exact bounded_call_zero L _ (fun _ => rfl)
    | apply bounded_seq_zero
    | apply bounded_whenC
    | apply bounded_ite
    | intro _

theorem attribute_loop_subject {σ : Type} (L : Lib σ) (csr : Nat) (fuel : Nat) :
    ∀ (der_ptr : Nat) (der_len : Int) (rv : EST_ERROR),
      Bounded otherSubject 0 (attribute_loop L csr fuel der_ptr der_len rv) := by
  induction fuel with
  | zero =>
    intro der_ptr der_len rv
    unfold attribute_loop
    apply bounded_ite
    · exact bounded_outOfFuel _
    · exact bounded_pure _ _
  | succ n ih =>
    intro der_ptr der_len rv
    unfold attribute_loop
    repeat' first
      | exact bounded_pure _ _
      | exact ih _ _ _
      | exact add_attribute_subject L _ _
      | exact bounded_call_zero L _ (fun _ => rfl)
      | apply bounded_seq_zero
      | apply bounded_ite
      | intro _

theorem regular_enroll_attempt_body_subject {σ : Type} (L : Lib σ) (g : Globals)
    (fuel : Nat) : Bounded otherSubject 0 (regular_enroll_attempt_body L g fuel) := by
  unfold regular_enroll_attempt_body
  repeat' first
    | exact bounded_pure _ _
    | exact bounded_call_zero L _ (fun _ => rfl)
    | exact populate_x509_csr_subject L _
    | exact attribute_loop_subject L _ _ _ _ _
    | exact retrieve_and_save_subject L g _
    | apply bounded_seq_zero
    | apply bounded_whenC
    | apply bounded_ite
    | split
    | intro _

theorem regular_enroll_attempt_subject {σ : Type} (L : Lib σ) (g : Globals) (fuel : Nat) :
    Bounded otherSubject 0 (regular_enroll_attempt L g fuel) :=
  regular_enroll_attempt_bounded L g fuel (bounded_emit_zero _ rfl) (fun _ => rfl)
    (regular_enroll_attempt_body_subject L g fuel)

theorem regular_enroll_attempt_same {σ : Type} (L : Lib σ) (g : Globals) (cn : String)
    (fuel : Nat) :
    regular_enroll_attempt L (withCommonName g cn) fuel = regular_enroll_attempt L g fuel := rfl

theorem submissions_append (t1 t2 : List Event) :
    submissions (t1 ++ t2) = submissions t1 ++ submissions t2 := by
  simp [submissions]

theorem submissions_eq_nil (t : List Event) (h : List.countP isSubmission t = 0) :
    submissions t = [] := by
  rw [List.countP_eq_zero] at h
  simp only [submissions, List.filter_eq_nil_iff]
  exact h

/-- Without a CSR file the body of `simple_enroll_attempt` submits exactly
once, by `est_client_enroll` with the configured common name. -/
theorem simple_enroll_attempt_body_submits {σ : Type} (L : Lib σ) (g : Globals)
    (hcsr : nonEmpty g.csr_file = false) (s : σ) :
    ∃ r, submissions (simple_enroll_attempt_body L g s).2.2
      = [Event.call (Call.est_client_enroll g.subj_cn) r] := by
  unfold simple_enroll_attempt_body
  generalize hfp : (whenC (truthy g.force_pop) _ : Prog σ Unit) = fp
  have hfp1 : ∀ s, (fp s).1 = Res.ok () ∧ List.countP isSubmission (fp s).2.2 = 0 := by
    intro s
    rw [← hfp]
    cases hf : truthy g.force_pop
    · simp [whenC, Prog.ret]
    · by_cases hr : (L Call.est_client_force_pop s).1.rv = EST_ERROR.EST_ERR_NONE
      · simp [whenC, hr, seq_apply, Prog.seq, Prog.ret, call_apply, pure_apply, isSubmission]
      · simp [whenC, hr, seq_apply, Prog.seq, Prog.ret, call_apply, pure_apply, isSubmission]
  rw [seq_ok fp _ s () (hfp1 s).1]
  simp only [hcsr, Bool.false_eq_true, if_false]
  generalize (fp s).2.1 = s1
  rw [submissions_append, submissions_eq_nil _ (hfp1 s).2, List.nil_append]
  have hmid : (call L (Call.est_client_enroll g.subj_cn) >>= fun r =>
      (pure (r.rv, r.len) : Prog σ (EST_ERROR × Int))) s1
      = (Res.ok ((L (Call.est_client_enroll g.subj_cn) s1).1.rv,
          (L (Call.est_client_enroll g.subj_cn) s1).1.len),
          (L (Call.est_client_enroll g.subj_cn) s1).2,
          [Event.call (Call.est_client_enroll g.subj_cn)
            (L (Call.est_client_enroll g.subj_cn) s1).1]) := by
    simp [seq_apply, Prog.seq, Prog.ret, call_apply, pure_apply]
  rw [seq_ok _ _ s1 _ (by rw [hmid])]
  simp only [hmid]
  refine ⟨(L (Call.est_client_enroll g.subj_cn) s1).1, ?_⟩
  rw [submissions_append,
    submissions_eq_nil _ (Nat.le_zero.mp (attempt_end_no_submission L g _ _ _))]
  rfl

/-- Without a CSR file `simple_enroll_attempt` submits exactly once, by
`est_client_enroll` with the configured common name. -/
theorem simple_enroll_attempt_submits {σ : Type} (L : Lib σ) (g : Globals)
    (hcsr : nonEmpty g.csr_file = false) (s : σ) :
    ∃ r, submissions (simple_enroll_attempt L g s).2.2
      = [Event.call (Call.est_client_enroll g.subj_cn) r] := by
  obtain ⟨r, hr⟩ := simple_enroll_attempt_body_submits L g hcsr s
  refine ⟨r, ?_⟩
  unfold simple_enroll_attempt
  rcases hbs : simple_enroll_attempt_body L g s with ⟨res, s1, t⟩
  rw [hbs] at hr
  simp only at hr
  have h1 : submissions [Event.enter "simple_enroll_attempt"] = [] := rfl
  cases res with
  | ok rv =>
    have h2 : submissions [Event.leave "simple_enroll_attempt" rv] = [] := rfl
    have hev : ((emit (Event.enter "simple_enroll_attempt") >>= fun _ =>
        simple_enroll_attempt_body L g >>= fun rv =>
        emit (Event.leave "simple_enroll_attempt" rv) >>= fun _ =>
          (pure rv : Prog σ EST_ERROR)) s).2.2
        = [Event.enter "simple_enroll_attempt"] ++ t
            ++ [Event.leave "simple_enroll_attempt" rv] := by
      simp [seq_apply, Prog.seq, emit, hbs, pure_apply, Prog.ret]
    rw [hev, submissions_append, submissions_append, h1, h2, hr]
    rfl
  | exited c =>
    have hev : ((emit (Event.enter "simple_enroll_attempt") >>= fun _ =>
        simple_enroll_attempt_body L g >>= fun rv =>
        emit (Event.leave "simple_enroll_attempt" rv) >>= fun _ =>
          (pure rv : Prog σ EST_ERROR)) s).2.2
        = [Event.enter "simple_enroll_attempt"] ++ t := by
      simp [seq_apply, Prog.seq, emit, hbs]
    rw [hev, submissions_append, h1, hr]
    rfl
  | timeout =>
    have hev : ((emit (Event.enter "simple_enroll_attempt") >>= fun _ =>
        simple_enroll_attempt_body L g >>= fun rv =>
        emit (Event.leave "simple_enroll_attempt" rv) >>= fun _ =>
          (pure rv : Prog σ EST_ERROR)) s).2.2
        = [Event.enter "simple_enroll_attempt"] ++ t := by
      simp [seq_apply, Prog.seq, emit, hbs]
    rw [hev, submissions_append, h1, hr]
    rfl

/-- C25. The attribute-guided enrollment does not read the configured subject
common name: for any two values of `subj_cn` and otherwise equal options, a
run of `regular_enroll_attempt` from the same state of the environment is the
same (same result, same calls with the same arguments), and every subject
entry it adds to the CSR is `CN=EST-client`.  The simple enrollment without a CSR
file submits by `est_client_enroll` with `subj_cn` as its argument. -/
theorem regular_enroll_attempt_ignores_subj_cn {σ : Type} (L : Lib σ) (g : Globals)
    (cn cn2 : String) (fuel : Nat) (s : σ) :
    regular_enroll_attempt L (withCommonName g cn) fuel s
        = regular_enroll_attempt L (withCommonName g cn2) fuel s
      ∧ (∀ x ∈ subjectEntries ((regular_enroll_attempt L (withCommonName g cn) fuel).events s),
          x = ("CN", "EST-client"))
      ∧ (nonEmpty g.csr_file = false →
          ∃ r, submissions ((simple_enroll_attempt L (withCommonName g cn)).events s)
            = [Event.call (Call.est_client_enroll cn) r]) :=
  ⟨rfl, subjectEntries_of_bounded (regular_enroll_attempt_subject L _ fuel) s,
    fun h => simple_enroll_attempt_submits L (withCommonName g cn) h s⟩

/-- C25 on quiet runs that issue a certificate, with the common name
`device-7` in place of the default. -/
theorem regular_enroll_attempt_ignores_subj_cn_witness :
    nonEmpty quietEnroll.csr_file = false
      ∧ (∃ r, submissions ((simple_enroll_attempt scripted
            (withCommonName quietEnroll "device-7")).events (issuedAtOnce.drop 4))
          = [Event.call (Call.est_client_enroll "device-7") r])
      ∧ subjectEntries ((regular_enroll_attempt scripted quietRegular 1).events directiveDecoded)
          = [("CN", "EST-client")] :=
  ⟨by decide,
    (regular_enroll_attempt_ignores_subj_cn scripted quietEnroll "device-7" "" 0
      (issuedAtOnce.drop 4)).2.2 (by decide),
    by decide⟩

/-! ## The parts of `main` -/

theorem prog_bind_assoc {σ α β γ : Type} (m : Prog σ α) (f : α → Prog σ β)
    (k : β → Prog σ γ) : (m >>= f) >>= k = m >>= fun a => f a >>= k := by
  funext s
  rcases hms : m s with ⟨r, s1, t1⟩
  cases r with
  | ok a =>
    rcases hf : f a s1 with ⟨r2, s2, t2⟩
    cases r2 with
    | ok b =>
      rcases hk : k b s2 with ⟨r3, s3, t3⟩
      simp [seq_apply, Prog.seq, hms, hf, hk, List.append_assoc]
    | exited c => simp [seq_apply, Prog.seq, hms, hf]
    | timeout => simp [seq_apply, Prog.seq, hms, hf]
  | exited c => simp [seq_apply, Prog.seq, hms]
  | timeout => simp [seq_apply, Prog.seq, hms]

theorem prog_pure_bind {σ α β : Type} (a : α) (f : α → Prog σ β) :
    (pure a : Prog σ α) >>= f = f a := by
  funext s
  rcases hf : f a s with ⟨r, s1, t1⟩
  simp [seq_apply, Prog.seq, pure_apply, Prog.ret, hf]

/-- The function `main` after the option loop is its set-up followed by
`do_operation` and the clean-up. -/
theorem main_after_options_eq {σ : Type} (L : Lib σ) (g : Globals) (m : MainVars)
    (fuel : Nat) :
    main_after_options L g m fuel = main_setup L g m >>= main_operation L g fuel := by
  unfold main_after_options main_setup main_operation
  simp only [prog_bind_assoc, prog_pure_bind]

/-! ## The status of every `exit` -/

theorem exits_pure {σ α : Type} (a : α) : ExitsOne (pure a : Prog σ α) := by
  intro s c h
  simp [pure_apply] at h

theorem exits_ret {σ α : Type} (a : α) : ExitsOne (Prog.ret a : Prog σ α) := by
  intro s c h
  simp [Prog.ret] at h

theorem exits_call {σ : Type} (L : Lib σ) (c : Call) : ExitsOne (call L c) := by
  intro s c h
  simp [call_apply] at h

theorem exits_emit {σ : Type} (e : Event) : ExitsOne (emit e : Prog σ Unit) := by
  intro s c h
  simp [emit] at h

theorem exits_outOfFuel {σ α : Type} : ExitsOne (outOfFuel : Prog σ α) := by
  intro s c h
  simp [outOfFuel] at h

theorem exits_exit {σ α : Type} (L : Lib σ) : ExitsOne (exit L 1 : Prog σ α) := by
  intro s c h
  simp [exit] at h
  exact h.symm

theorem exits_seq {σ α β : Type} {m : Prog σ α} {f : α → Prog σ β}
    (h1 : ExitsOne m) (h2 : ∀ a, ExitsOne (f a)) : ExitsOne (m >>= f) := by
  intro s c h
  rcases res_ok_or_not (m s).1 with ⟨a, ha⟩ | hn
  · rw [seq_ok m f s a ha] at h
    exact h2 a _ c h
  · rcases hms : m s with ⟨r, s1, t1⟩
    cases r with
    | ok a => exact absurd (by rw [hms]) (hn a)
    | exited c2 =>
      simp [seq_apply, Prog.seq, hms] at h
      subst h
      exact h1 s c2 (by rw [hms])
    | timeout => simp [seq_apply, Prog.seq, hms] at h

theorem exits_whenC {σ : Type} (b : Bool) {m : Prog σ Unit} (h : ExitsOne m) :
    ExitsOne (whenC b m) := by
  unfold whenC
  split
  · exact h
  · exact exits_ret ()

theorem exits_ite {σ α : Type} {c : Prop} [Decidable c] {m1 m2 : Prog σ α}
    (h1 : ExitsOne m1) (h2 : ExitsOne m2) : ExitsOne (if c then m1 else m2) := by
  split
  · exact h1
  · exact h2

theorem save_cert_exits {σ : Type} (L : Lib σ) (g : Globals) (file_name : String) (cert_data : List Nat) (cert_len : Int) :
    ExitsOne (save_cert L g file_name cert_data cert_len) := by
  unfold save_cert
  repeat' first
    | with_reducible exact exits_pure _
    | with_reducible exact exits_ret _
    | with_reducible exact exits_call L _
    | with_reducible exact exits_emit _
    | with_reducible exact exits_exit L
    | with_reducible exact exits_outOfFuel
    | with_reducible apply exits_seq
    | with_reducible apply exits_whenC
    | with_reducible apply exits_ite
    | split
    | intro _

theorem read_csr_exits {σ : Type} (L : Lib σ) (csr_file : String) :
    ExitsOne (read_csr L csr_file) := by
  unfold read_csr
  repeat' first
    | with_reducible exact exits_pure _
    | with_reducible exact exits_ret _
    | with_reducible exact exits_call L _
    | with_reducible exact exits_emit _
    | with_reducible exact exits_exit L
    | with_reducible exact exits_outOfFuel
    | with_reducible apply exits_seq
    | with_reducible apply exits_whenC
    | with_reducible apply exits_ite
    | split
    | intro _

theorem retrieve_and_save_exits {σ : Type} (L : Lib σ) (g : Globals) (pkcs7_len : Int) :
    ExitsOne (retrieve_and_save L g pkcs7_len) := by
  unfold retrieve_and_save
  repeat' first
    | with_reducible exact exits_pure _
    | with_reducible exact exits_ret _
    | with_reducible exact exits_call L _
    | with_reducible exact exits_emit _
    | with_reducible exact exits_exit L
    | with_reducible exact exits_outOfFuel
    | with_reducible exact save_cert_exits L _ _ _ _
    | with_reducible apply exits_seq
    | with_reducible apply exits_whenC
    | with_reducible apply exits_ite
    | split
    | intro _

theorem simple_enroll_attempt_body_exits {σ : Type} (L : Lib σ) (g : Globals) :
    ExitsOne (simple_enroll_attempt_body L g) := by
  unfold simple_enroll_attempt_body
  repeat' first
    | with_reducible exact exits_pure _
    | with_reducible exact exits_ret _
    | with_reducible exact exits_call L _
    | with_reducible exact exits_emit _
    | with_reducible exact exits_exit L
    | with_reducible exact exits_outOfFuel
    | with_reducible exact read_csr_exits L _
    | with_reducible exact retrieve_and_save_exits L _ _
    | with_reducible apply exits_seq
    | with_reducible apply exits_whenC
    | with_reducible apply exits_ite
    | split
    | intro _

theorem simple_enroll_attempt_exits {σ : Type} (L : Lib σ) (g : Globals) :
    ExitsOne (simple_enroll_attempt L g) := by
  unfold simple_enroll_attempt
  repeat' first
    | with_reducible exact exits_pure _
    | with_reducible exact exits_ret _
    | with_reducible exact exits_call L _
    | with_reducible exact exits_emit _
    | with_reducible exact exits_exit L
    | with_reducible exact exits_outOfFuel
    | with_reducible exact simple_enroll_attempt_body_exits L _
    | with_reducible apply exits_seq
    | with_reducible apply exits_whenC
    | with_reducible apply exits_ite
    | split
    | intro _

theorem populate_x509_csr_exits {σ : Type} (L : Lib σ) (req : Nat) (cn : String) :
    ExitsOne (populate_x509_csr L req cn) := by
  unfold populate_x509_csr
  repeat' first
    | with_reducible exact exits_pure _
    | with_reducible exact exits_ret _
    | with_reducible exact exits_call L _
    | with_reducible exact exits_emit _
    | with_reducible exact exits_exit L
    | with_reducible exact exits_outOfFuel
    | with_reducible apply exits_seq
    | with_reducible apply exits_whenC
    | with_reducible apply exits_ite
    | split
    | intro _

theorem regular_csr_attempt_exits {σ : Type} (L : Lib σ) (g : Globals) :
    ExitsOne (regular_csr_attempt L g) := by
  unfold regular_csr_attempt
  repeat' first
    | with_reducible exact exits_pure _
    | with_reducible exact exits_ret _
    | with_reducible exact exits_call L _
    | with_reducible exact exits_emit _
    | with_reducible exact exits_exit L
    | with_reducible exact exits_outOfFuel
    | with_reducible apply exits_seq
    | with_reducible apply exits_whenC
    | with_reducible apply exits_ite
    | split
    | intro _

theorem add_attribute_exits {σ : Type} (L : Lib σ) (csr : Nat) (nid : Int) :
    ExitsOne (add_attribute L csr nid) := by
  unfold add_attribute
  repeat' first
    | with_reducible exact exits_pure _
    | with_reducible exact exits_ret _
    | with_reducible exact exits_call L _
    | with_reducible exact exits_emit _
    | with_reducible exact exits_exit L
    | with_reducible exact exits_outOfFuel
    | with_reducible apply exits_seq
    | with_reducible apply exits_whenC
    | with_reducible apply exits_ite
    | split
    | intro _

theorem attribute_loop_exits {σ : Type} (L : Lib σ) (csr : Nat) (fuel : Nat) :
    ∀ (der_ptr : Nat) (der_len : Int) (rv : EST_ERROR),
      ExitsOne (attribute_loop L csr fuel der_ptr der_len rv) := by
  induction fuel with
  | zero =>
    intro der_ptr der_len rv
    unfold attribute_loop
    apply exits_ite
    · exact exits_outOfFuel
    · exact exits_pure _
  | succ n ih =>
    intro der_ptr der_len rv
    unfold attribute_loop
    repeat' first
      | with_reducible exact exits_pure _
      | with_reducible exact exits_ret _
      | with_reducible exact exits_call L _
      | with_reducible exact exits_emit _
      | with_reducible exact exits_exit L
      | with_reducible exact exits_outOfFuel
      | with_reducible exact ih _ _ _
      | with_reducible exact add_attribute_exits L _ _
      | with_reducible apply exits_seq
      | with_reducible apply exits_whenC
      | with_reducible apply exits_ite
      | split
      | intro _

theorem regular_enroll_attempt_body_exits {σ : Type} (L : Lib σ) (g : Globals) (fuel : Nat) :
    ExitsOne (regular_enroll_attempt_body L g fuel) := by
  unfold regular_enroll_attempt_body
  repeat' first
    | with_reducible exact exits_pure _
    | with_reducible exact exits_ret _
    | with_reducible exact exits_call L _
    | with_reducible exact exits_emit _
    | with_reducible exact exits_exit L
    | with_reducible exact exits_outOfFuel
    | with_reducible exact retrieve_and_save_exits L _ _
    | with_reducible exact populate_x509_csr_exits L _ _
    | with_reducible exact attribute_loop_exits L _ _ _ _ _
    | with_reducible apply exits_seq
    | with_reducible apply exits_whenC
    | with_reducible apply exits_ite
    | split
    | intro _

theorem regular_enroll_attempt_exits {σ : Type} (L : Lib σ) (g : Globals) (fuel : Nat) :
    ExitsOne (regular_enroll_attempt L g fuel) := by
  unfold regular_enroll_attempt
  repeat' first
    | with_reducible exact exits_pure _
    | with_reducible exact exits_ret _
    | with_reducible exact exits_call L _
    | with_reducible exact exits_emit _
    | with_reducible exact exits_exit L
    | with_reducible exact exits_outOfFuel
    | with_reducible exact regular_enroll_attempt_body_exits L _ _
    | with_reducible apply exits_seq
    | with_reducible apply exits_whenC
    | with_reducible apply exits_ite
    | split
    | intro _

theorem retry_enroll_delay_exits {σ : Type} (L : Lib σ) (g : Globals) (retry_delay retry_time : Int) :
    ExitsOne (retry_enroll_delay L g retry_delay retry_time) := by
  unfold retry_enroll_delay
  repeat' first
    | with_reducible exact exits_pure _
    | with_reducible exact exits_ret _
    | with_reducible exact exits_call L _
    | with_reducible exact exits_emit _
    | with_reducible exact exits_exit L
    | with_reducible exact exits_outOfFuel
    | with_reducible apply exits_seq
    | with_reducible apply exits_whenC
    | with_reducible apply exits_ite
    | split
    | intro _

theorem retry_after_step_exits {σ : Type} (L : Lib σ) (g : Globals) :
    ExitsOne (retry_after_step L g) := by
  unfold retry_after_step
  repeat' first
    | with_reducible exact exits_pure _
    | with_reducible exact exits_ret _
    | with_reducible exact exits_call L _
    | with_reducible exact exits_emit _
    | with_reducible exact exits_exit L
    | with_reducible exact exits_outOfFuel
    | with_reducible exact retry_enroll_delay_exits L _ _ _
    | with_reducible apply exits_seq
    | with_reducible apply exits_whenC
    | with_reducible apply exits_ite
    | split
    | intro _

theorem do_operation_init_exits {σ : Type} (L : Lib σ) (g : Globals) :
    ExitsOne (do_operation_init L g) := by
  unfold do_operation_init
  repeat' first
    | with_reducible exact exits_pure _
    | with_reducible exact exits_ret _
    | with_reducible exact exits_call L _
    | with_reducible exact exits_emit _
    | with_reducible exact exits_exit L
    | with_reducible exact exits_outOfFuel
    | with_reducible apply exits_seq
    | with_reducible apply exits_whenC
    | with_reducible apply exits_ite
    | split
    | intro _

theorem do_operation_getcert_exits {σ : Type} (L : Lib σ) (g : Globals) (st : String × EST_ERROR) :
    ExitsOne (do_operation_getcert L g st) := by
  unfold do_operation_getcert
  repeat' first
    | with_reducible exact exits_pure _
    | with_reducible exact exits_ret _
    | with_reducible exact exits_call L _
    | with_reducible exact exits_emit _
    | with_reducible exact exits_exit L
    | with_reducible exact exits_outOfFuel
    | with_reducible apply exits_seq
    | with_reducible apply exits_whenC
    | with_reducible apply exits_ite
    | split
    | intro _

theorem do_operation_enroll_exits {σ : Type} (L : Lib σ) (g : Globals) (fuel : Nat) (st : String × EST_ERROR) :
    ExitsOne (do_operation_enroll L g fuel st) := by
  unfold do_operation_enroll
  repeat' first
    | with_reducible exact exits_pure _
    | with_reducible exact exits_ret _
    | with_reducible exact exits_call L _
    | with_reducible exact exits_emit _
    | with_reducible exact exits_exit L
    | with_reducible exact exits_outOfFuel
    | with_reducible exact simple_enroll_attempt_exits L _
    | with_reducible exact regular_csr_attempt_exits L _
    | with_reducible exact regular_enroll_attempt_exits L _ _
    | with_reducible exact retry_after_step_exits L _
    | with_reducible apply exits_seq
    | with_reducible apply exits_whenC
    | with_reducible apply exits_ite
    | split
    | intro _

theorem do_operation_reenroll_exits {σ : Type} (L : Lib σ) (g : Globals) (st : String × EST_ERROR) :
    ExitsOne (do_operation_reenroll L g st) := by
  unfold do_operation_reenroll
  repeat' first
    | with_reducible exact exits_pure _
    | with_reducible exact exits_ret _
    | with_reducible exact exits_call L _
    | with_reducible exact exits_emit _
    | with_reducible exact exits_exit L
    | with_reducible exact exits_outOfFuel
    | with_reducible exact save_cert_exits L _ _ _ _
    | with_reducible apply exits_seq
    | with_reducible apply exits_whenC
    | with_reducible apply exits_ite
    | split
    | intro _

theorem do_operation_finish_exits {σ : Type} (L : Lib σ) (st : String × EST_ERROR) :
    ExitsOne (do_operation_finish L st) := by
  unfold do_operation_finish
  repeat' first
    | with_reducible exact exits_pure _
    | with_reducible exact exits_ret _
    | with_reducible exact exits_call L _
    | with_reducible exact exits_emit _
    | with_reducible exact exits_exit L
    | with_reducible exact exits_outOfFuel
    | with_reducible apply exits_seq
    | with_reducible apply exits_whenC
    | with_reducible apply exits_ite
    | split
    | intro _

theorem do_operation_exits {σ : Type} (L : Lib σ) (g : Globals) (fuel : Nat) :
    ExitsOne (do_operation L g fuel) := by
  unfold do_operation
  repeat' first
    | with_reducible exact exits_pure _
    | with_reducible exact exits_ret _
    | with_reducible exact exits_call L _
    | with_reducible exact exits_emit _
    | with_reducible exact exits_exit L
    | with_reducible exact exits_outOfFuel
    | with_reducible exact do_operation_init_exits L _
    | with_reducible exact do_operation_getcert_exits L _ _
    | with_reducible exact do_operation_enroll_exits L _ _ _
    | with_reducible exact do_operation_reenroll_exits L _ _
    | with_reducible exact do_operation_finish_exits L _
    | with_reducible apply exits_seq
    | with_reducible apply exits_whenC
    | with_reducible apply exits_ite
    | split
    | intro _

theorem print_version_exits {σ : Type} (L : Lib σ)  :
    ExitsOne (print_version L) := by
  unfold print_version
  repeat' first
    | with_reducible exact exits_pure _
    | with_reducible exact exits_ret _
    | with_reducible exact exits_call L _
    | with_reducible exact exits_emit _
    | with_reducible exact exits_exit L
    | with_reducible exact exits_outOfFuel
    | with_reducible apply exits_seq
    | with_reducible apply exits_whenC
    | with_reducible apply exits_ite
    | split
    | intro _

theorem main_checks_exits {σ : Type} (L : Lib σ) (g : Globals) (m : MainVars) :
    ExitsOne (main_checks L g m) := by
  unfold main_checks
  repeat' first
    | with_reducible exact exits_pure _
    | with_reducible exact exits_ret _
    | with_reducible exact exits_call L _
    | with_reducible exact exits_emit _
    | with_reducible exact exits_exit L
    | with_reducible exact exits_outOfFuel
    | with_reducible exact print_version_exits L
    | with_reducible apply exits_seq
    | with_reducible apply exits_whenC
    | with_reducible apply exits_ite
    | split
    | intro _

theorem main_trustanchor_exits {σ : Type} (L : Lib σ) (m : MainVars) :
    ExitsOne (main_trustanchor L m) := by
  unfold main_trustanchor
  repeat' first
    | with_reducible exact exits_pure _
    | with_reducible exact exits_ret _
    | with_reducible exact exits_call L _
    | with_reducible exact exits_emit _
    | with_reducible exact exits_exit L
    | with_reducible exact exits_outOfFuel
    | with_reducible apply exits_seq
    | with_reducible apply exits_whenC
    | with_reducible apply exits_ite
    | split
    | intro _

theorem main_client_cert_exits {σ : Type} (L : Lib σ) (m : MainVars) :
    ExitsOne (main_client_cert L m) := by
  unfold main_client_cert
  repeat' first
    | with_reducible exact exits_pure _
    | with_reducible exact exits_ret _
    | with_reducible exact exits_call L _
    | with_reducible exact exits_emit _
    | with_reducible exact exits_exit L
    | with_reducible exact exits_outOfFuel
    | with_reducible apply exits_seq
    | with_reducible apply exits_whenC
    | with_reducible apply exits_ite
    | split
    | intro _

theorem main_client_key_exits {σ : Type} (L : Lib σ) (m : MainVars) :
    ExitsOne (main_client_key L m) := by
  unfold main_client_key
  repeat' first
    | with_reducible exact exits_pure _
    | with_reducible exact exits_ret _
    | with_reducible exact exits_call L _
    | with_reducible exact exits_emit _
    | with_reducible exact exits_exit L
    | with_reducible exact exits_outOfFuel
    | with_reducible apply exits_seq
    | with_reducible apply exits_whenC
    | with_reducible apply exits_ite
    | split
    | intro _

theorem main_logger_exits {σ : Type} (L : Lib σ) (g : Globals) :
    ExitsOne (main_logger L g) := by
  unfold main_logger
  repeat' first
    | with_reducible exact exits_pure _
    | with_reducible exact exits_ret _
    | with_reducible exact exits_call L _
    | with_reducible exact exits_emit _
    | with_reducible exact exits_exit L
    | with_reducible exact exits_outOfFuel
    | with_reducible apply exits_seq
    | with_reducible apply exits_whenC
    | with_reducible apply exits_ite
    | split
    | intro _

theorem generate_private_key_exits {σ : Type} (L : Lib σ)  :
    ExitsOne (generate_private_key L) := by
  unfold generate_private_key
  repeat' first
    | with_reducible exact exits_pure _
    | with_reducible exact exits_ret _
    | with_reducible exact exits_call L _
    | with_reducible exact exits_emit _
    | with_reducible exact exits_exit L
    | with_reducible exact exits_outOfFuel
    | with_reducible apply exits_seq
    | with_reducible apply exits_whenC
    | with_reducible apply exits_ite
    | split
    | intro _

theorem read_private_key_exits {σ : Type} (L : Lib σ) (key_file : String) :
    ExitsOne (read_private_key L key_file) := by
  unfold read_private_key
  repeat' first
    | with_reducible exact exits_pure _
    | with_reducible exact exits_ret _
    | with_reducible exact exits_call L _
    | with_reducible exact exits_emit _
    | with_reducible exact exits_exit L
    | with_reducible exact exits_outOfFuel
    | with_reducible apply exits_seq
    | with_reducible apply exits_whenC
    | with_reducible apply exits_ite
    | split
    | intro _

theorem main_private_key_exits {σ : Type} (L : Lib σ) (g : Globals) (m : MainVars) :
    ExitsOne (main_private_key L g m) := by
  unfold main_private_key
  repeat' first
    | with_reducible exact exits_pure _
    | with_reducible exact exits_ret _
    | with_reducible exact exits_call L _
    | with_reducible exact exits_emit _
    | with_reducible exact exits_exit L
    | with_reducible exact exits_outOfFuel
    | with_reducible exact generate_private_key_exits L
    | with_reducible exact read_private_key_exits L _
    | with_reducible apply exits_seq
    | with_reducible apply exits_whenC
    | with_reducible apply exits_ite
    | split
    | intro _

theorem main_cleanup_exits {σ : Type} (L : Lib σ) (a b c : Option Nat) :
    ExitsOne (main_cleanup L a b c) := by
  unfold main_cleanup
  repeat' first
    | with_reducible exact exits_pure _
    | with_reducible exact exits_ret _
    | with_reducible exact exits_call L _
    | with_reducible exact exits_emit _
    | with_reducible exact exits_exit L
    | with_reducible exact exits_outOfFuel
    | with_reducible apply exits_seq
    | with_reducible apply exits_whenC
    | with_reducible apply exits_ite
    | split
    | intro _

theorem main_setup_exits {σ : Type} (L : Lib σ) (g : Globals) (m : MainVars) :
    ExitsOne (main_setup L g m) := by
  unfold main_setup
  repeat' first
    | with_reducible exact exits_pure _
    | with_reducible exact exits_ret _
    | with_reducible exact exits_call L _
    | with_reducible exact exits_emit _
    | with_reducible exact exits_exit L
    | with_reducible exact exits_outOfFuel
    | with_reducible exact main_checks_exits L _ _
    | with_reducible exact main_trustanchor_exits L _
    | with_reducible exact main_client_cert_exits L _
    | with_reducible exact main_client_key_exits L _
    | with_reducible exact main_logger_exits L _
    | with_reducible exact main_private_key_exits L _ _
    | with_reducible apply exits_seq
    | with_reducible apply exits_whenC
    | with_reducible apply exits_ite
    | split
    | intro _

theorem main_operation_exits {σ : Type} (L : Lib σ) (g : Globals) (fuel : Nat) (k : Option Nat × Option Nat × Option Nat) :
    ExitsOne (main_operation L g fuel k) := by
  unfold main_operation
  repeat' first
    | with_reducible exact exits_pure _
    | with_reducible exact exits_ret _
    | with_reducible exact exits_call L _
    | with_reducible exact exits_emit _
    | with_reducible exact exits_exit L
    | with_reducible exact exits_outOfFuel
    | with_reducible exact do_operation_exits L _ _
    | with_reducible exact main_cleanup_exits L _ _ _
    | with_reducible apply exits_seq
    | with_reducible apply exits_whenC
    | with_reducible apply exits_ite
    | split
    | intro _

theorem main_fips_exits {σ : Type} (L : Lib σ)  :
    ExitsOne (main_fips L) := by
  unfold main_fips
  repeat' first
    | with_reducible exact exits_pure _
    | with_reducible exact exits_ret _
    | with_reducible exact exits_call L _
    | with_reducible exact exits_emit _
    | with_reducible exact exits_exit L
    | with_reducible exact exits_outOfFuel
    | with_reducible apply exits_seq
    | with_reducible apply exits_whenC
    | with_reducible apply exits_ite
    | split
    | intro _

theorem forM_printf_exits {σ : Type} (L : Lib σ) (rest : List String) :
    ExitsOne (rest.forM (fun a =>
      call L (Call.printf "%s " [Arg.str a]) >>= fun _ => (pure PUnit.unit : Prog σ PUnit))) := by
  induction rest with
  | nil => exact exits_pure _
  | cons a t ih =>
    change ExitsOne (_ >>= fun _ => t.forM _)
    apply exits_seq
    · exact exits_seq (exits_call L _) (fun _ => exits_pure _)
    · intro _
      exact ih

theorem main_non_options_exits {σ : Type} (L : Lib σ) (rest : List String) :
    ExitsOne (main_non_options L rest) := by
  unfold main_non_options
  repeat' first
    | with_reducible exact exits_pure _
    | with_reducible exact exits_ret _
    | with_reducible exact exits_call L _
    | with_reducible exact exits_emit _
    | with_reducible exact exits_exit L
    | with_reducible exact exits_outOfFuel
    | with_reducible exact forM_printf_exits L _
    | with_reducible apply exits_seq
    | with_reducible apply exits_whenC
    | with_reducible apply exits_ite
    | split
    | intro _

theorem main_after_options_exits {σ : Type} (L : Lib σ) (g : Globals) (m : MainVars)
    (fuel : Nat) : ExitsOne (main_after_options L g m fuel) := by
  rw [main_after_options_eq]
  exact exits_seq (main_setup_exits L g m) (fun k => main_operation_exits L g fuel k)

/-! ## The exit status of `main` -/

theorem seq_result_ok {σ α β : Type} (m : Prog σ α) (f : α → Prog σ β) (s : σ) (b : β)
    (h : ((m >>= f) s).1 = Res.ok b) :
    ∃ a, (m s).1 = Res.ok a ∧ (f a (m s).2.1).1 = Res.ok b := by
  rcases res_ok_or_not (m s).1 with ⟨a, ha⟩ | hn
  · refine ⟨a, ha, ?_⟩
    rw [seq_ok m f s a ha] at h
    exact h
  · exact absurd h ((seq_not_ok m f s hn).2 b)

theorem seq_result_exited {σ α β : Type} (m : Prog σ α) (f : α → Prog σ β) (s : σ) (c : Int)
    (h : ((m >>= f) s).1 = Res.exited c) :
    (m s).1 = Res.exited c ∨ ∃ a, (m s).1 = Res.ok a ∧ (f a (m s).2.1).1 = Res.exited c := by
  rcases res_ok_or_not (m s).1 with ⟨a, ha⟩ | hn
  · refine Or.inr ⟨a, ha, ?_⟩
    rw [seq_ok m f s a ha] at h
    exact h
  · rcases hms : m s with ⟨r, s1, t1⟩
    cases r with
    | ok a => exact absurd (by rw [hms]) (hn a)
    | exited c2 =>
      simp [seq_apply, Prog.seq, hms] at h
      subst h
      exact Or.inl rfl
    | timeout => simp [seq_apply, Prog.seq, hms] at h

theorem seq_exited {σ α β : Type} (m : Prog σ α) (f : α → Prog σ β) (s : σ) (c : Int)
    (h : (m s).1 = Res.exited c) : ((m >>= f) s).1 = Res.exited c := by
  rcases hms : m s with ⟨r, s1, t1⟩
  rw [hms] at h
  simp only at h
  subst h
  simp [seq_apply, Prog.seq, hms]

theorem seq_last {σ α β : Type} (P : β → Prop) (m : Prog σ α) (f : α → Prog σ β) (s : σ)
    (b : β) (h2 : ∀ a s1, (f a s1).1 = Res.ok b → P b) (h : ((m >>= f) s).1 = Res.ok b) :
    P b := by
  obtain ⟨a, _, hf⟩ := seq_result_ok m f s b h
  exact h2 a _ hf

theorem returns_pure {σ α : Type} (a : α) : Returns (pure a : Prog σ α) :=
  fun _ => ⟨a, rfl⟩

theorem returns_call {σ : Type} (L : Lib σ) (c : Call) : Returns (call L c) :=
  fun s => ⟨(L c s).1, by rw [call_apply]⟩

theorem returns_seq {σ α β : Type} {m : Prog σ α} {f : α → Prog σ β}
    (h1 : Returns m) (h2 : ∀ a, Returns (f a)) : Returns (m >>= f) := by
  intro s
  obtain ⟨a, ha⟩ := h1 s
  obtain ⟨b, hb⟩ := h2 a (m s).2.1
  exact ⟨b, by rw [seq_ok m f s a ha]; exact hb⟩

theorem main_cleanup_returns {σ : Type} (L : Lib σ) (a b c : Option Nat) :
    Returns (main_cleanup L a b c) := by
  unfold main_cleanup
  repeat' first
    | with_reducible exact returns_pure _
    | with_reducible exact returns_call L _
    | with_reducible apply returns_seq
    | split
    | intro _

/-- Once `do_operation` returns, whatever its result code, `main` goes on to
`return 0`; it returns nothing else. -/
theorem main_operation_result {σ : Type} (L : Lib σ) (g : Globals) (fuel : Nat)
    (k : Option Nat × Option Nat × Option Nat) (s : σ) (v : Int) :
    (main_operation L g fuel k s).1 = Res.ok v
      ↔ v = 0 ∧ ∃ rv, (do_operation L g fuel s).1 = Res.ok rv := by
  unfold main_operation
  constructor
  · intro h
    obtain ⟨rv, hrv, h1⟩ := seq_result_ok _ _ _ _ h
    refine ⟨?_, rv, hrv⟩
    simp only at h1
    refine seq_last (fun x => x = 0) _ _ _ _ (fun _ _ h2 => ?_) h1
    refine seq_last (fun x => x = 0) _ _ _ _ (fun _ _ h3 => ?_) h2
    rw [pure_apply] at h3
    simp only [Res.ok.injEq] at h3
    exact h3.symm
  · rintro ⟨hv, rv, hrv⟩
    subst hv
    rw [seq_ok _ _ _ rv hrv]
    obtain ⟨u, hu⟩ := main_cleanup_returns L k.1 k.2.1 k.2.2 (do_operation L g fuel s).2.1
    simp only
    rw [seq_ok _ _ _ u hu]
    simp [seq_apply, Prog.seq, call_apply, pure_apply, Prog.ret]

theorem main_after_options_result {σ : Type} (L : Lib σ) (g : Globals) (m : MainVars)
    (fuel : Nat) (s : σ) (v : Int) (h : (main_after_options L g m fuel s).1 = Res.ok v) :
    v = 0 := by
  rw [main_after_options_eq] at h
  exact seq_last (fun x => x = 0) _ _ _ _
    (fun k s1 h1 => ((main_operation_result L g fuel k s1 v).1 h1).1) h

theorem main_after_options_returns {σ : Type} (L : Lib σ) (g : Globals) (m : MainVars)
    (fuel : Nat) (s : σ) (k : Option Nat × Option Nat × Option Nat)
    (hk : (main_setup L g m s).1 = Res.ok k) :
    (main_after_options L g m fuel s).1 = Res.ok 0
      ↔ ∃ rv, (do_operation L g fuel (main_setup L g m s).2.1).1 = Res.ok rv := by
  rw [main_after_options_eq, seq_ok _ _ _ k hk]
  simp only
  rw [main_operation_result]
  simp

theorem show_usage_and_exit_result {σ α : Type} (L : Lib σ) (s : σ) :
    ((show_usage_and_exit L : Prog σ α) s).1 = Res.exited 255 := by
  simp [show_usage_and_exit, seq_apply, Prog.seq, call_apply, exit]

theorem main_option_unrecognised {σ : Type} (L : Lib σ) (lim : EstLimits) (o : Getopt)
    (st : Globals × MainVars) (s : σ) (h : recognised o = false) :
    (main_option L lim o st s).1 = Res.exited 255 := by
  cases o with
  | long i a => simp [recognised] at h
  | short c a =>
    simp [recognised] at h
    simp [main_option, h, show_usage_and_exit_result]

theorem exits_ite_cases {σ α : Type} {c : Prop} [Decidable c] {m1 m2 : Prog σ α}
    (h1 : c → ExitsOne m1) (h2 : ¬c → ExitsOne m2) : ExitsOne (if c then m1 else m2) := by
  split
  · exact h1 (by assumption)
  · exact h2 (by assumption)

theorem main_option_recognised {σ : Type} (L : Lib σ) (lim : EstLimits) (o : Getopt)
    (st : Globals × MainVars) (h : recognised o = true) :
    ExitsOne (main_option L lim o st) := by
  cases o with
  | long i a => exact exits_pure _
  | short c a =>
    unfold main_option
    simp only
    repeat' first
      | with_reducible exact exits_pure _
      | with_reducible exact exits_call L _
      | with_reducible exact exits_exit L
      | with_reducible exact main_fips_exits L
      | with_reducible apply exits_seq
      | with_reducible apply exits_whenC
      | with_reducible apply exits_ite_cases
      | (exfalso; simp_all [recognised]; done)
      | intro _

theorem main_option_exits {σ : Type} (L : Lib σ) (lim : EstLimits) (o : Getopt)
    (st : Globals × MainVars) (s : σ) (c : Int)
    (h : (main_option L lim o st s).1 = Res.exited c) :
    c = 1 ∨ (c = 255 ∧ recognised o = false) := by
  cases hr : recognised o with
  | true => exact Or.inl (main_option_recognised L lim o st hr s c h)
  | false =>
    rw [main_option_unrecognised L lim o st s hr] at h
    simp only [Res.exited.injEq] at h
    exact Or.inr ⟨h.symm, rfl⟩

theorem main_options_exits {σ : Type} (L : Lib σ) (lim : EstLimits) (opts : List Getopt) :
    ∀ (st : Globals × MainVars) (s : σ) (c : Int),
      (main_options L lim opts st s).1 = Res.exited c →
        c = 1 ∨ (c = 255 ∧ ∃ o ∈ opts, recognised o = false) := by
  induction opts with
  | nil =>
    intro st s c h
    simp [main_options, pure_apply] at h
  | cons o os ih =>
    intro st s c h
    unfold main_options at h
    rcases seq_result_exited _ _ _ _ h with h1 | ⟨st1, _, h2⟩
    · rcases main_option_exits L lim o st s c h1 with hc | ⟨hc, hr⟩
      · exact Or.inl hc
      · exact Or.inr ⟨hc, o, List.mem_cons_self _ _, hr⟩
    · rcases ih _ _ _ h2 with hc | ⟨hc, x, hx, hr⟩
      · exact Or.inl hc
      · exact Or.inr ⟨hc, x, List.mem_cons_of_mem _ hx, hr⟩

theorem main_options_unrecognised {σ : Type} (L : Lib σ) (lim : EstLimits) (o : Getopt)
    (post : List Getopt) (hr : recognised o = false) (pre : List Getopt) :
    ∀ (st st1 : Globals × MainVars) (s : σ),
      (main_options L lim pre st s).1 = Res.ok st1 →
        (main_options L lim (pre ++ o :: post) st s).1 = Res.exited 255 := by
  induction pre with
  | nil =>
    intro st st1 s _
    simp only [List.nil_append]
    unfold main_options
    exact seq_exited _ _ _ _ (main_option_unrecognised L lim o st s hr)
  | cons x xs ih =>
    intro st st1 s h
    simp only [List.cons_append]
    unfold main_options
    unfold main_options at h
    obtain ⟨a, ha, h2⟩ := seq_result_ok _ _ _ _ h
    rw [seq_ok _ _ _ a ha]
    exact ih _ _ _ h2

theorem main_result_ok {σ : Type} (L : Lib σ) (lim : EstLimits) (opts : List Getopt)
    (rest : List String) (fuel : Nat) (s : σ) (v : Int)
    (h : (main L lim opts rest fuel s).1 = Res.ok v) : v = 0 := by
  unfold main at h
  refine seq_last (fun x => x = 0) _ _ _ _ (fun st _ h1 => ?_) h
  exact seq_last (fun x => x = 0) _ _ _ _
    (fun _ s2 h2 => main_after_options_result L _ _ fuel s2 v h2) h1

theorem main_result_exited {σ : Type} (L : Lib σ) (lim : EstLimits) (opts : List Getopt)
    (rest : List String) (fuel : Nat) (s : σ) (c : Int)
    (h : (main L lim opts rest fuel s).1 = Res.exited c) :
    c = 1 ∨ (c = 255 ∧ ∃ o ∈ opts, recognised o = false) := by
  unfold main at h
  rcases seq_result_exited _ _ _ _ h with h1 | ⟨st, _, h2⟩
  · exact main_options_exits L lim opts _ s c h1
  · rcases seq_result_exited _ _ _ _ h2 with h3 | ⟨_, _, h4⟩
    · exact Or.inl (main_non_options_exits L rest _ c h3)
    · exact Or.inl (main_after_options_exits L _ _ fuel _ c h4)

theorem main_usage_error {σ : Type} (L : Lib σ) (lim : EstLimits) (pre : List Getopt)
    (o : Getopt) (post : List Getopt) (rest : List String) (fuel : Nat) (s : σ)
    (st : Globals × MainVars)
    (h : (main_options L lim pre (main_initial lim) s).1 = Res.ok st)
    (hr : recognised o = false) :
    (main L lim (pre ++ o :: post) rest fuel s).1 = Res.exited 255 := by
  unfold main
  exact seq_exited _ _ _ _ (main_options_unrecognised L lim o post hr pre _ st s h)

/-! ## The exit status of the client -/

set_option maxRecDepth 100000 in
/-- C21, counterexample: the run `estclient -e -o out -x key.pem --trustanchor no`
passes the checks of `main`, the server refuses the enrollment, `do_operation`
ends with the result code 5 and reports the failure, and `main` returns 0. -/
theorem main_returns_zero_after_failed_enrollment :
    (main_options scripted someLimits enrollOptions (main_initial someLimits) >>= fun st =>
        main_checks scripted st.1 st.2).result keyThenRefused = Res.ok ()
      ∧ (main_options scripted someLimits enrollOptions (main_initial someLimits) >>= fun st =>
          main_non_options scripted [] >>= fun _ =>
          main_setup scripted st.1 st.2 >>= fun _ =>
          do_operation scripted st.1 0).result keyThenRefused = Res.ok (EST_ERROR.other 5)
      ∧ Event.call (failure_report "Simple enrollment without server-defined attributes"
            (EST_ERROR.other 5)) Reply.zero
          ∈ (main scripted someLimits enrollOptions [] 0).events keyThenRefused
      ∧ exit_status ((main scripted someLimits enrollOptions [] 0).result keyThenRefused)
          = some 0 := by
  decide

/-- C21, amended: `main` returns nothing but 0; every `exit` has status 1,
or 255 when the run has an option the `switch` has no case for; such an option
ends the run with status 255 once the options before it are processed; and
after the set-up `main` returns 0 exactly when `do_operation` returns, whatever
its result code. -/
theorem main_exit_status {σ : Type} (L : Lib σ) (lim : EstLimits) (opts : List Getopt)
    (rest : List String) (fuel : Nat) (s : σ) :
    (∀ v, (main L lim opts rest fuel s).1 = Res.ok v → v = 0)
      ∧ (∀ c, (main L lim opts rest fuel s).1 = Res.exited c →
          c = 1 ∨ (c = 255 ∧ ∃ o ∈ opts, recognised o = false))
      ∧ (∀ pre o post st, opts = pre ++ o :: post →
          (main_options L lim pre (main_initial lim) s).1 = Res.ok st →
          recognised o = false →
          (main L lim opts rest fuel s).1 = Res.exited 255)
      ∧ (∀ g m k s1, (main_setup L g m s1).1 = Res.ok k →
          ((main_after_options L g m fuel s1).1 = Res.ok 0
            ↔ ∃ rv, (do_operation L g fuel (main_setup L g m s1).2.1).1 = Res.ok rv)) :=
  ⟨fun v h => main_result_ok L lim opts rest fuel s v h,
   fun c h => main_result_exited L lim opts rest fuel s c h,
   fun pre o post st ho h hr => by
     subst ho
     exact main_usage_error L lim pre o post rest fuel s st h hr,
   fun g m k s1 hk => main_after_options_returns L g m fuel s1 k hk⟩

set_option maxRecDepth 100000 in
/-- C21, witness: the run `estclient -e -?` ends with status 255, and the run
of `main` after the options with a refused enrollment returns 0. -/
theorem main_exit_status_witness :
    (main scripted someLimits [Getopt.short 'e' "", Getopt.short '?' ""] [] 0 []).1
        = Res.exited 255
      ∧ (main_after_options scripted quietEnroll keyNamed 0 keyThenRefused).1 = Res.ok 0 :=
  ⟨(main_exit_status scripted someLimits [Getopt.short 'e' "", Getopt.short '?' ""] [] 0
      []).2.2.1 [Getopt.short 'e' ""] (Getopt.short '?' "") []
      ({ (main_initial someLimits).1 with enroll := 1 }, (main_initial someLimits).2)
      rfl rfl rfl,
   ((main_exit_status scripted someLimits [] [] 0 []).2.2.2 quietEnroll keyNamed
      (some 3, none, none) keyThenRefused (by decide)).2 ⟨EST_ERROR.other 5, by decide⟩⟩

/-! ## A CSR file named with re-enrollment -/

theorem land_one_char0 (f : String) :
    truthy (Int.land 1 (char0 f)) = decide (char0 f % 2 = 1) := by
  unfold char0 truthy
  cases f.data with
  | nil => decide
  | cons c t =>
    have h : Int.land 1 ((utf8_first_byte c : Nat) : Int)
        = ((1 &&& utf8_first_byte c : Nat) : Int) := rfl
    simp only [h, Nat.one_and_eq_mod_two]
    rcases Nat.mod_two_eq_zero_or_one (utf8_first_byte c) with h0 | h1
    · have : ((utf8_first_byte c : Nat) : Int) % 2 = 0 := by omega
      simp [h0, this]
    · have : ((utf8_first_byte c : Nat) : Int) % 2 = 1 := by omega
      simp [h1, this]

set_option maxRecDepth 100000 in
/-- C23, the code at the failing input: the check of main is the bitwise
`reenroll & csr_file[0]`, which is true exactly when the first byte of the
file name is odd.  The run `estclient -r -y req.pem -o out --trustanchor no`
passes the checks of `main`, `do_operation` sends the re-enrollment request
and `main` returns 0; with `-y sec.pem` the same run ends with `exit(1)`. -/
theorem reenroll_with_csr_file_reaches_do_operation :
    (∀ f, truthy (Int.land 1 (char0 f)) = decide (char0 f % 2 = 1))
      ∧ (main_options scripted someLimits (reenrollOptions "req.pem")
            (main_initial someLimits) >>= fun st =>
          main_checks scripted st.1 st.2).result startThenIssued = Res.ok ()
      ∧ Event.call Call.est_client_reenroll { Reply.zero with len := 2 }
          ∈ (main scripted someLimits (reenrollOptions "req.pem") [] 0).events startThenIssued
      ∧ (main scripted someLimits (reenrollOptions "req.pem") [] 0).result startThenIssued
          = Res.ok 0
      ∧ (main scripted someLimits (reenrollOptions "sec.pem") [] 0).result startThenIssued
          = Res.exited 1 :=
  ⟨land_one_char0, by decide, by decide, by decide, by decide⟩

/-! ## The long options `--srp-user` and `--srp-password` -/

theorem main_long_option_srp (lim : EstLimits) (option_index : Nat) (optarg : String)
    (st : Globals × MainVars)
    (h : EstProxy.strncmp (long_options.getD option_index "").data "srp".data "srp".length = 0) :
    (main_long_option lim option_index optarg st).1.srp = 1 := by
  unfold main_long_option
  simp only [h, ↓reduceIte]
  repeat' split
  all_goals rfl

set_option maxRecDepth 100000 in
/-- C24, the code at the failing input: the test for `--srp` compares the
first three characters of the option name only, so `--srp-user` (entry 2 of
`long_options`) and `--srp-password` (entry 3) set `srp` to 1 as well, and the
run `estclient -r -o out --trustanchor no --srp-user bob` enables TLS-SRP. -/
theorem srp_user_option_sets_srp (lim : EstLimits) (optarg : String)
    (st : Globals × MainVars) :
    long_options.getD 2 "" = "srp-user" ∧ long_options.getD 3 "" = "srp-password"
      ∧ (main_long_option lim 2 optarg st).1.srp = 1
      ∧ (main_long_option lim 3 optarg st).1.srp = 1
      ∧ Event.call (Call.est_client_enable_srp 1024 "bob" "") Reply.zero
          ∈ (main scripted someLimits srpUserOptions [] 0).events startThenContext :=
  ⟨rfl, rfl, main_long_option_srp lim 2 optarg st (by decide),
   main_long_option_srp lim 3 optarg st (by decide), by decide⟩

end EstClient

namespace EstProxy

/-! ## String comparison -/

theorem strcmp_eq_zero (a b : List Char) : strcmp a b = 0 ↔ a = b := by
  induction a generalizing b with
  | nil => cases b <;> simp [strcmp]
  | cons x xs ih =>
    cases b with
    | nil => simp [strcmp]
    | cons y ys =>
      by_cases h : x = y
      · simp [strcmp, h, ih]
      · by_cases h2 : x.toNat < y.toNat <;> simp [strcmp, h, h2]

theorem strncmp_eq_zero (a b : List Char) (n : Nat) :
    strncmp a b n = 0 ↔ a.take n = b.take n := by
  induction n generalizing a b with
  | zero => simp [strncmp]
  | succ k ih =>
    cases a with
    | nil => cases b <;> simp [strncmp]
    | cons x xs =>
      cases b with
      | nil => simp [strncmp]
      | cons y ys =>
        by_cases h : x = y
        · simp [strncmp, h, ih]
        · by_cases h2 : x.toNat < y.toNat <;> simp [strncmp, h, h2]

theorem string_data_eq (a b : String) : a.data = b.data ↔ a = b := by
  constructor
  · intro h
    cases a
    cases b
    simp_all
  · intro h
    rw [h]

/-! ## `process_http_auth` -/

/-- C11. For every header with mode Basic, `process_http_auth` returns 1 if
the user is exactly `estuser` and the password exactly `estpwd`, and returns 0
for any other pair of strings; it makes no outside call. -/
theorem process_http_auth_basic
    (gen : EST_HTTP_AUTH_HDR → String → Option String) (ah : EST_HTTP_AUTH_HDR)
    (peer_cert : Option Nat) (hmode : ah.mode = EST_HTTP_AUTH_MODE.AUTH_BASIC) :
    ((process_http_auth gen ah peer_cert).ret = some 1
        ↔ ah.user = "estuser" ∧ ah.pwd = "estpwd")
      ∧ ((process_http_auth gen ah peer_cert).ret = some 0
        ↔ ¬ (ah.user = "estuser" ∧ ah.pwd = "estpwd"))
      ∧ (process_http_auth gen ah peer_cert).calls = [] := by
  have h1 : strcmp ah.user.data "estuser".data = 0 ↔ ah.user = "estuser" := by
    rw [strcmp_eq_zero, string_data_eq]
  have h2 : strcmp ah.pwd.data "estpwd".data = 0 ↔ ah.pwd = "estpwd" := by
    rw [strcmp_eq_zero, string_data_eq]
  unfold process_http_auth
  simp only [hmode, h1, h2]
  by_cases h : ah.user = "estuser" ∧ ah.pwd = "estpwd"
  · simp [h]
  · simp [h]

/-- Witness of C11: the configured pair is approved; the same pair in upper
case, with one more character, or empty is rejected. -/
theorem process_http_auth_basic_witness :
    ({ emptyHeader EST_HTTP_AUTH_MODE.AUTH_BASIC with user := "estuser", pwd := "estpwd" }
        : EST_HTTP_AUTH_HDR).mode = EST_HTTP_AUTH_MODE.AUTH_BASIC
      ∧ (process_http_auth fixedDigest
          { emptyHeader EST_HTTP_AUTH_MODE.AUTH_BASIC with user := "estuser", pwd := "estpwd" }
          none).ret = some 1
      ∧ (process_http_auth fixedDigest
          { emptyHeader EST_HTTP_AUTH_MODE.AUTH_BASIC with user := "ESTUSER", pwd := "estpwd" }
          none).ret = some 0
      ∧ (process_http_auth fixedDigest
          { emptyHeader EST_HTTP_AUTH_MODE.AUTH_BASIC with user := "estuser", pwd := "estpwd1" }
          none).ret = some 0
      ∧ (process_http_auth fixedDigest
          { emptyHeader EST_HTTP_AUTH_MODE.AUTH_BASIC with user := "estuser", pwd := "" }
          none).ret = some 0 :=
  ⟨rfl,
    (process_http_auth_basic fixedDigest
      { emptyHeader EST_HTTP_AUTH_MODE.AUTH_BASIC with user := "estuser", pwd := "estpwd" }
      none rfl).1.mpr ⟨rfl, rfl⟩,
    (process_http_auth_basic fixedDigest
      { emptyHeader EST_HTTP_AUTH_MODE.AUTH_BASIC with user := "ESTUSER", pwd := "estpwd" }
      none rfl).2.1.mpr (by decide),
    (process_http_auth_basic fixedDigest
      { emptyHeader EST_HTTP_AUTH_MODE.AUTH_BASIC with user := "estuser", pwd := "estpwd1" }
      none rfl).2.1.mpr (by decide),
    (process_http_auth_basic fixedDigest
      { emptyHeader EST_HTTP_AUTH_MODE.AUTH_BASIC with user := "estuser", pwd := "" }
      none rfl).2.1.mpr (by decide)⟩

/-- C12 as stated fails: a response that continues after the 32 characters of
the computed digest differs from the digest and is approved. -/
theorem process_http_auth_digest_longer_response :
    longResponse.mode = EST_HTTP_AUTH_MODE.AUTH_DIGEST
      ∧ longResponse.user = "estuser"
      ∧ fixedDigest longResponse (digest_user 2) = some "0123456789abcdef0123456789abcdef"
      ∧ longResponse.response ≠ "0123456789abcdef0123456789abcdef"
      ∧ (process_http_auth fixedDigest longResponse none).ret = some 1 := by
  refine ⟨rfl, rfl, rfl, by decide, by decide⟩

/-- C12, amended. For every header with mode Digest whose user is `estuser`,
when `est_server_generate_auth_digest` hands back a digest,
`process_http_auth` returns 1 if the first 32 characters of the digest and of
the presented response agree and 0 otherwise; when neither is longer than 32
characters this is equality of response and digest.  The digest is computed
from the header and the stored HA1, once, and released. -/
theorem process_http_auth_digest
    (gen : EST_HTTP_AUTH_HDR → String → Option String) (ah : EST_HTTP_AUTH_HDR)
    (peer_cert : Option Nat) (digest : String)
    (hmode : ah.mode = EST_HTTP_AUTH_MODE.AUTH_DIGEST) (huser : ah.user = "estuser")
    (hgen : gen ah "36807fa200741bb0e8fb04fcf08e2de6" = some digest) :
    ((process_http_auth gen ah peer_cert).ret = some 1
        ↔ digest.data.take 32 = ah.response.data.take 32)
      ∧ ((process_http_auth gen ah peer_cert).ret = some 0
        ↔ digest.data.take 32 ≠ ah.response.data.take 32)
      ∧ (digest.data.length ≤ 32 → ah.response.data.length ≤ 32 →
          ((process_http_auth gen ah peer_cert).ret = some 1 ↔ ah.response = digest))
      ∧ (process_http_auth gen ah peer_cert).calls
          = [AuthCall.est_server_generate_auth_digest ah "36807fa200741bb0e8fb04fcf08e2de6",
             AuthCall.free] := by
  have hu : strcmp ah.user.data (digest_user 0).data = 0 := by
    rw [strcmp_eq_zero, string_data_eq, huser]
    rfl
  have hg : gen ah (digest_user 2) = some digest := hgen
  have h32 := strncmp_eq_zero digest.data ah.response.data 32
  have hret : (process_http_auth gen ah peer_cert).ret
      = some (if digest.data.take 32 = ah.response.data.take 32 then 1 else 0) := by
    unfold process_http_auth
    simp only [hmode, hu, hg, h32]
    simp
  have hcalls : (process_http_auth gen ah peer_cert).calls
      = [AuthCall.est_server_generate_auth_digest ah (digest_user 2), AuthCall.free] := by
    unfold process_http_auth
    simp only [hmode, hu, hg]
    simp
  refine ⟨?_, ?_, ?_, hcalls⟩
  · rw [hret]
    by_cases h : digest.data.take 32 = ah.response.data.take 32 <;> simp [h]
  · rw [hret]
    by_cases h : digest.data.take 32 = ah.response.data.take 32 <;> simp [h]
  · intro hd hr
    rw [hret, List.take_of_length_le hd, List.take_of_length_le hr]
    by_cases h : digest = ah.response
    · simp [h]
    · have h2 : ¬ ah.response = digest := fun e => h e.symm
      have h3 : ¬ digest.data = ah.response.data := fun e => h ((string_data_eq _ _).mp e)
      simp [h2, h3]

/-- Witness of C12 amended: the response that repeats the digest is approved,
one that differs in its last digit is rejected. -/
theorem process_http_auth_digest_witness :
    (process_http_auth fixedDigest
        { emptyHeader EST_HTTP_AUTH_MODE.AUTH_DIGEST with
          user := "estuser", response := "0123456789abcdef0123456789abcdef" } none).ret
        = some 1
      ∧ (process_http_auth fixedDigest
        { emptyHeader EST_HTTP_AUTH_MODE.AUTH_DIGEST with
          user := "estuser", response := "0123456789abcdef0123456789abcdee" } none).ret
        = some 0 :=
  ⟨(process_http_auth_digest fixedDigest
      { emptyHeader EST_HTTP_AUTH_MODE.AUTH_DIGEST with
        user := "estuser", response := "0123456789abcdef0123456789abcdef" } none
      "0123456789abcdef0123456789abcdef" rfl rfl rfl).1.mpr (by decide),
    (process_http_auth_digest fixedDigest
      { emptyHeader EST_HTTP_AUTH_MODE.AUTH_DIGEST with
        user := "estuser", response := "0123456789abcdef0123456789abcdee" } none
      "0123456789abcdef0123456789abcdef" rfl rfl rfl).2.1.mpr (by decide)⟩

/-- C13. For every header with mode Digest whose user is not `estuser`,
`process_http_auth` returns 0 whatever the response is, and does not call
`est_server_generate_auth_digest`. -/
theorem process_http_auth_digest_unknown_user
    (gen : EST_HTTP_AUTH_HDR → String → Option String) (ah : EST_HTTP_AUTH_HDR)
    (peer_cert : Option Nat)
    (hmode : ah.mode = EST_HTTP_AUTH_MODE.AUTH_DIGEST) (huser : ah.user ≠ "estuser") :
    (process_http_auth gen ah peer_cert).ret = some 0
      ∧ (process_http_auth gen ah peer_cert).calls = [] := by
  have hu : ¬ (strcmp ah.user.data (digest_user 0).data = 0) := by
    rw [strcmp_eq_zero, string_data_eq]
    exact huser
  unfold process_http_auth
  simp only [hmode]
  simp [hu]

/-- Witness of C13: the user `estuser2` presenting the very digest that would
be computed is rejected. -/
theorem process_http_auth_digest_unknown_user_witness :
    (process_http_auth fixedDigest
        { emptyHeader EST_HTTP_AUTH_MODE.AUTH_DIGEST with
          user := "estuser2", response := "0123456789abcdef0123456789abcdef" } none).ret
        = some 0
      ∧ (process_http_auth fixedDigest
        { emptyHeader EST_HTTP_AUTH_MODE.AUTH_DIGEST with
          user := "estuser2", response := "0123456789abcdef0123456789abcdef" } none).calls
        = [] :=
  process_http_auth_digest_unknown_user fixedDigest
    { emptyHeader EST_HTTP_AUTH_MODE.AUTH_DIGEST with
      user := "estuser2", response := "0123456789abcdef0123456789abcdef" } none
    rfl (by decide)

/-- C14. For every header whose mode is neither Basic nor Digest (Fail, None
or any other value), `process_http_auth` returns 0 whatever the user, the
password, the response and the peer certificate are, and makes no outside
call. -/
theorem process_http_auth_other_modes
    (gen : EST_HTTP_AUTH_HDR → String → Option String) (ah : EST_HTTP_AUTH_HDR)
    (peer_cert : Option Nat)
    (hbasic : ah.mode ≠ EST_HTTP_AUTH_MODE.AUTH_BASIC)
    (hdigest : ah.mode ≠ EST_HTTP_AUTH_MODE.AUTH_DIGEST) :
    (process_http_auth gen ah peer_cert).ret = some 0
      ∧ (process_http_auth gen ah peer_cert).calls = [] := by
  unfold process_http_auth
  cases hm : ah.mode with
  | AUTH_BASIC => exact absurd hm hbasic
  | AUTH_DIGEST => exact absurd hm hdigest
  | AUTH_NONE => simp
  | AUTH_FAIL => simp
  | other v => simp

/-- Witness of C14: the configured pair `estuser`/`estpwd` under mode Fail,
with a peer certificate, is rejected. -/
theorem process_http_auth_other_modes_witness :
    (process_http_auth fixedDigest
        { emptyHeader EST_HTTP_AUTH_MODE.AUTH_FAIL with user := "estuser", pwd := "estpwd" }
        (some 1)).ret = some 0
      ∧ (process_http_auth fixedDigest
        { emptyHeader EST_HTTP_AUTH_MODE.AUTH_FAIL with user := "estuser", pwd := "estpwd" }
        (some 1)).calls = [] :=
  process_http_auth_other_modes fixedDigest
    { emptyHeader EST_HTTP_AUTH_MODE.AUTH_FAIL with user := "estuser", pwd := "estpwd" }
    (some 1) (by decide) (by decide)

/-! ## `process_ssl_srp_auth` -/

/-- C22. The callback `process_ssl_srp_auth` returns `SSL_ERROR_NONE` if and
only if a user name was presented, the verifier database has a record for it,
and `SSL_set_srp_server_param`, called with the `N`, `g`, `s`, `v` and `info`
of that record, did not return a negative value; when the user name is not in
the database the callback returns `SSL3_AL_FATAL` and does not call
`SSL_set_srp_server_param`. -/
theorem process_ssl_srp_auth_success_iff (login : Option String)
    (get_by_user : String → Option SRP_user_pwd) (set_param : SRP_user_pwd → Int) :
    ((process_ssl_srp_auth login get_by_user set_param).ret = SSL_ERROR_NONE
        ↔ ∃ l u, login = some l ∧ get_by_user l = some u ∧ 0 ≤ set_param u
            ∧ SrpCall.SSL_set_srp_server_param u.N u.g u.s u.v u.info
                ∈ (process_ssl_srp_auth login get_by_user set_param).calls)
      ∧ (∀ l, login = some l → get_by_user l = none →
          (process_ssl_srp_auth login get_by_user set_param).ret = SSL3_AL_FATAL
            ∧ (process_ssl_srp_auth login get_by_user set_param).calls.countP
                suppliesParameters = 0) := by
  constructor
  · cases login with
    | none => simp [process_ssl_srp_auth, SSL_ERROR_NONE]
    | some l =>
      cases hu : get_by_user l with
      | none => simp [process_ssl_srp_auth, hu, SSL_ERROR_NONE, SSL3_AL_FATAL]
      | some u =>
        by_cases hp : set_param u < 0
        · simp [process_ssl_srp_auth, hu, hp, SSL_ERROR_NONE, SSL3_AL_FATAL]
        · simp [process_ssl_srp_auth, hu, hp, SSL_ERROR_NONE]
          omega
  · intro l hl hu
    subst hl
    simp [process_ssl_srp_auth, hu, suppliesParameters]

/-- C22 on a handshake that presents a user the database does not have. -/
theorem process_ssl_srp_auth_success_iff_witness :
    oneUser "mallory" = none
      ∧ (process_ssl_srp_auth (some "mallory") oneUser (fun _ => 1)).ret = SSL3_AL_FATAL
      ∧ (process_ssl_srp_auth (some "alice") oneUser (fun _ => 1)).ret = SSL_ERROR_NONE
      ∧ (process_ssl_srp_auth (some "alice") oneUser (fun _ => -1)).ret = SSL3_AL_FATAL
      ∧ (process_ssl_srp_auth none oneUser (fun _ => 1)).ret = -1 :=
  ⟨by decide,
    ((process_ssl_srp_auth_success_iff (some "mallory") oneUser (fun _ => 1)).2
      "mallory" rfl (by decide)).1,
    by decide, by decide, by decide⟩

end EstProxy
